import Mathlib

/-!
# 1-Wire bus emulation: DS18B20 sensor, W1 bus core, DS2482 bridge

Shallow embedding of `hw/misc/ds18b20.c`, `hw/misc/w1_core.c` and
`hw/misc/ds2482.c`.  Machine bytes are natural numbers; every place where the
C code can wrap a `uint8_t`/`uint16_t` carries an explicit `% 256`/`% 65536`.
Operations that dereference a NULL pointer or index the bus table out of
bounds return `none`.
-/

namespace W1Emu

/-! ## ds18b20.c : CRC-8 -/

/-- The body of `for (uint8_t i = 8; i; i--)` in `ds18b20_crc8`, run `i` times
on the pair `(crc, inbyte)`. -/
def ds18b20_crc8_bits : Nat → Nat → Nat → Nat
  | 0, crc, _ => crc
  | i + 1, crc, inbyte =>
    let mix := (crc ^^^ inbyte) &&& 0x01
    let crc := crc >>> 1
    let crc := if mix ≠ 0 then crc ^^^ 0x8C else crc
    ds18b20_crc8_bits i crc (inbyte >>> 1)

/-- The loop `while (len--)` of `ds18b20_crc8`: `len` bytes remain, `idx` is
the offset `addr` has reached, `uint8_t inbyte = *addr++`. -/
def ds18b20_crc8_loop (addr : List Nat) : Nat → Nat → Nat → Nat
  | 0, _, crc => crc
  | len + 1, idx, crc =>
    let inbyte := addr.getD idx 0 % 256
    ds18b20_crc8_loop addr len (idx + 1) (ds18b20_crc8_bits 8 crc inbyte)

/-- `ds18b20_crc8(addr, len)`; the parameter `len` is a `uint8_t`. -/
def ds18b20_crc8 (addr : List Nat) (len : Nat) : Nat :=
  ds18b20_crc8_loop addr (len % 256) 0 0

/-! ### Reference CRC-8 (Dallas/Maxim), written from the specification -/

/-- The eight bits of a byte, least significant first. -/
def byte_bits_lsb_first (b : Nat) : List Bool :=
  (List.range 8).map fun j => b.testBit j

/-- One clock of the Dallas/Maxim shift register for the polynomial
x^8 + x^5 + x^4 + 1 (reflected form 0x8C): the feedback is the input bit
xor the low bit of the register. -/
def dallas_crc8_clock (reg : Nat) (bit : Bool) : Nat :=
  if xor (reg.testBit 0) bit then (reg / 2) ^^^ 0x8C else reg / 2

/-- Reference Dallas/Maxim CRC-8: register starts at 0, the message is fed as
a bit stream with each byte least-significant bit first, no final xor. -/
def dallas_crc8_ref (msg : List Nat) : Nat :=
  (msg.flatMap byte_bits_lsb_first).foldl dallas_crc8_clock 0

/-- Reference byte update in the xor-then-shift form used by table driven
host drivers: xor the byte into the register, then eight conditional
shift/xor steps. -/
def dallas_crc8_update (reg byte : Nat) : Nat :=
  (fun c => if c % 2 = 1 then (c / 2) ^^^ 0x8C else c / 2)^[8] (reg ^^^ byte)


/-! ## w1_emu.h : messages and the client class -/

/-- The message kinds of `enum w1_message`. -/
inductive w1_message where
  | W1_RESET
  | W1_DATA
  deriving DecidableEq, Repr

/-- `struct W1BusClientClass`: the three handlers of a bus client whose state
has type `C`.  `M` is the state of the upstream master object.  A handler
reaches the master through its bus link, so `send` also receives whether the
master link of the bus is set; `none` is a NULL dereference. -/
structure W1BusClientClass (C M : Type) where
  send : C → w1_message → Nat → Bool → M → Option (Int × C × M)
  recv : C → Nat × C
  has_data : C → Bool

/-- `struct W1BusState`: `master` is true when the master pointer is set (it
then refers to the bridge, see `ds2482_realize`), `clients` is the tail queue
in attachment order. -/
structure W1BusState (C : Type) where
  master : Bool
  clients : List C
  deriving DecidableEq, Repr

/-! ## ds18b20.c / ds18b20.h : the temperature sensor -/

abbrev DS18B20_ROM_CMD_SEARCH_ROM : Nat := 0xF0
abbrev DS18B20_ROM_CMD_SKIP_ROM : Nat := 0xCC
abbrev DS18B20_FUN_CMD_CONVERT : Nat := 0x44
abbrev DS18B20_FUN_CMD_READ_SCRATCH : Nat := 0xBE
abbrev DS18B20_FUN_CMD_READ_POWER : Nat := 0xB4

/-- The pointer `uint8_t *read_p`: NULL, or an offset into `serial`, or an
offset into `scratchpad`. -/
inductive ReadPtr where
  | null
  | serial (off : Nat)
  | scratchpad (off : Nat)
  deriving DecidableEq, Repr

/-- `struct DS18B20State`: `serial` is `uint8_t[8]`, `scratchpad` is
`uint8_t[9]`, `read_len` is `uint8_t`, `temperature` is `uint16_t`. -/
structure DS18B20State where
  serial : List Nat
  scratchpad : List Nat
  read_p : ReadPtr
  read_len : Nat
  temperature : Nat
  deriving DecidableEq, Repr

/-- The pointer after `read_p++`. -/
def ReadPtr.next : ReadPtr → ReadPtr
  | .null => .null
  | .serial off => .serial (off + 1)
  | .scratchpad off => .scratchpad (off + 1)

/-- The byte `*read_p`.  Offsets past the end of the array are outside the
model and read as 0. -/
def ds18b20_deref (c : DS18B20State) : ReadPtr → Nat
  | .null => 0
  | .serial off => c.serial.getD off 0
  | .scratchpad off => c.scratchpad.getD off 0

/-- `ds18b20_rx`: the condition `c->read_p && c->read_len-- > 0` decrements
the `uint8_t` `read_len` whenever `read_p` is not NULL, also when it is 0. -/
def ds18b20_rx (c : DS18B20State) : Nat × DS18B20State :=
  if c.read_p ≠ ReadPtr.null then
    let c1 := { c with read_len := (c.read_len + 255) % 256 }
    if c.read_len > 0 then
      (ds18b20_deref c c.read_p, { c1 with read_p := c.read_p.next })
    else
      (0, c1)
  else
    (0, c)

/-- `ds18b20_has_valid_data`. -/
def ds18b20_has_valid_data (c : DS18B20State) : Bool :=
  decide (c.read_len > 0)

/-- `ds18b20_tx`.  `master_reset` is the master's `send` handler applied to
`(W1_RESET, 0)`, the only message the sensor sends upstream; `master` tells
whether the master pointer of the sensor's bus is set. -/
def ds18b20_tx {M : Type} (master_reset : M → M) (s : DS18B20State)
    (type : w1_message) (data : Nat) (master : Bool) (m : M) :
    Option (Int × DS18B20State × M) :=
  match type with
  | .W1_RESET => if master then some (0, s, master_reset m) else none
  | .W1_DATA =>
    if data = 0 then some (0, s, m)
    else if data = DS18B20_ROM_CMD_SEARCH_ROM then
      some (0, { s with read_p := ReadPtr.serial 0, read_len := 8 }, m)
    else if data = DS18B20_ROM_CMD_SKIP_ROM then some (0, s, m)
    else if data = DS18B20_FUN_CMD_READ_POWER then
      some (0, { s with scratchpad := s.scratchpad.set 0 0xFF,
                        read_p := ReadPtr.scratchpad 0, read_len := 1 }, m)
    else if data = DS18B20_FUN_CMD_CONVERT then
      let temp := ((s.temperature / 100) <<< 4) % 65536
      let sp := s.scratchpad.set 0 (temp &&& 0x00FF)
      let sp := sp.set 1 ((temp &&& 0xFF00) >>> 8)
      let sp := sp.set 8 (ds18b20_crc8 sp 8)
      some (0, { s with scratchpad := sp }, m)
    else if data = DS18B20_FUN_CMD_READ_SCRATCH then
      some (0, { s with read_p := ReadPtr.scratchpad 0, read_len := 9 }, m)
    else some (0, s, m)

/-- The class record installed by `ds18b20_class_init`. -/
def ds18b20_class {M : Type} (master_reset : M → M) :
    W1BusClientClass DS18B20State M where
  send := ds18b20_tx master_reset
  recv := ds18b20_rx
  has_data := ds18b20_has_valid_data

/-- `n` successive calls of `ds18b20_rx`: the bytes returned, in order, and
the final state. -/
def ds18b20_rx_n : Nat → DS18B20State → List Nat × DS18B20State
  | 0, c => ([], c)
  | n + 1, c =>
    let r := ds18b20_rx c
    let rest := ds18b20_rx_n n r.2
    (r.1 :: rest.1, rest.2)

/-- The arrays have their declared sizes and every `uint8_t`/`uint16_t`
field is in range. -/
def DS18B20State.wf (c : DS18B20State) : Prop :=
  c.serial.length = 8 ∧ c.scratchpad.length = 9 ∧
  (∀ b ∈ c.serial, b < 256) ∧ (∀ b ∈ c.scratchpad, b < 256) ∧
  c.read_len < 256 ∧ c.temperature < 65536

/-! ## w1_core.c : the bus -/

/-- The `QTAILQ_FOREACH` loop of `w1_bus_write` over the remaining clients;
`ret` is the running result. -/
def w1_bus_write_clients {C M : Type} (k : W1BusClientClass C M)
    (type : w1_message) (data : Nat) (master : Bool) :
    List C → Int → M → Option (Int × List C × M)
  | [], ret, m => some (ret, [], m)
  | peer :: rest, ret, m =>
    match k.send peer type data master m with
    | none => none
    | some (r, peer1, m1) =>
      match w1_bus_write_clients k type data master rest (if r ≠ 0 then 1 else ret) m1 with
      | none => none
      | some (ret1, rest1, m2) => some (ret1, peer1 :: rest1, m2)

/-- `w1_bus_write`; a NULL bus gives -1. -/
def w1_bus_write {C M : Type} (k : W1BusClientClass C M)
    (bus : Option (W1BusState C)) (type : w1_message) (data : Nat) (m : M) :
    Option (Int × Option (W1BusState C) × M) :=
  match bus with
  | none => some (-1, none, m)
  | some b =>
    match w1_bus_write_clients k type data b.master b.clients 0 m with
    | none => none
    | some (ret, cs, m1) => some (ret, some { b with clients := cs }, m1)

/-- `w1_bus_send_to_clients`. -/
def w1_bus_send_to_clients {C M : Type} (k : W1BusClientClass C M)
    (bus : Option (W1BusState C)) (data : Nat) (m : M) :
    Option (Int × Option (W1BusState C) × M) :=
  w1_bus_write k bus w1_message.W1_DATA data m

/-- `w1_bus_reset`. -/
def w1_bus_reset {C M : Type} (k : W1BusClientClass C M)
    (bus : Option (W1BusState C)) (m : M) :
    Option (Int × Option (W1BusState C) × M) :=
  w1_bus_write k bus w1_message.W1_RESET 0 m

/-- The `QTAILQ_FOREACH` loop of `w1_bus_read_byte`: the first client whose
`has_data` holds answers with `recv`; 0 when the list is exhausted. -/
def w1_bus_read_byte_clients {C M : Type} (k : W1BusClientClass C M) :
    List C → Nat × List C
  | [] => (0, [])
  | peer :: rest =>
    if k.has_data peer then
      ((k.recv peer).1, (k.recv peer).2 :: rest)
    else
      ((w1_bus_read_byte_clients k rest).1, peer :: (w1_bus_read_byte_clients k rest).2)

/-- `w1_bus_read_byte`; a NULL bus is dereferenced. -/
def w1_bus_read_byte {C M : Type} (k : W1BusClientClass C M)
    (bus : Option (W1BusState C)) : Option (Nat × W1BusState C) :=
  match bus with
  | none => none
  | some b =>
    some ((w1_bus_read_byte_clients k b.clients).1,
          { b with clients := (w1_bus_read_byte_clients k b.clients).2 })

/-! ## ds2482.c / ds2482.h / ds2482_regs.h : the bridge -/

abbrev DS2482_STATUS_1WB : Nat := 0x1
abbrev DS2482_STATUS_PPD : Nat := 0x2
abbrev DS2482_STATUS_LL : Nat := 0x8
abbrev DS2482_STATUS_RST : Nat := 0x10

abbrev DS2482_CMD_1WIRE_TRIPLET : Nat := 0x78
abbrev DS2482_CMD_1WIRE_SINGLE_BIT : Nat := 0x87
abbrev DS2482_CMD_1WIRE_READ_BYTE : Nat := 0x96
abbrev DS2482_CMD_1WIRE_WRITE_BYTE : Nat := 0xA5
abbrev DS2482_CMD_1WIRE_RESET : Nat := 0xB4
abbrev DS2482_CMD_CHANNEL_SELECT : Nat := 0xC3
abbrev DS2482_CMD_WRITE_CONFIG : Nat := 0xD2
abbrev DS2482_CMD_SET_READ_PTR : Nat := 0xE1
abbrev DS2482_CMD_RESET : Nat := 0xF0

abbrev DS2482_REG_STATUS : Nat := 0xF0
abbrev DS2482_REG_READ_DATA : Nat := 0xE1
abbrev DS2482_REG_CHANNEL_SELECT : Nat := 0xD2
abbrev DS2482_REG_CONFIG : Nat := 0xC3

/-- The scalar fields of `struct DS2482State` that the code reads or writes
(all `uint8_t` except `temperature` and `faults`). -/
structure DS2482State where
  buf : Nat
  buf_r_bit_idx : Nat
  pointer : Nat
  config : Nat
  status : Nat
  pending_cmd : Nat
  temperature : Nat
  faults : Nat
  alarm : Nat
  channel : Nat
  triplet_mode : Nat
  deriving DecidableEq, Repr

/-- The bridge with the bus objects its table `w1_busses` points to: entry
`i` is `none` when `w1_busses[i]` is NULL.  The length of the table is
`DS2482_NUM_BUSSES`. -/
structure DS2482 (C : Type) where
  s : DS2482State
  w1_busses : List (Option (W1BusState C))
  deriving DecidableEq, Repr

/-- Modelled from the spec: `test_bit` of qemu/bitops.h, absent from the
sources, on the byte it is applied to (little-endian host); bit 0 is the
least significant. -/
def test_bit (nr : Nat) (x : Nat) : Bool := x.testBit nr

/-- Modelled from the spec: `set_bit` of qemu/bitops.h, absent from the
sources: bit `nr` becomes 1, the others are kept. -/
def set_bit (nr : Nat) (x : Nat) : Nat := x ||| (1 <<< nr)

/-- Modelled from the spec: `clear_bit` of qemu/bitops.h, absent from the
sources: bit `nr` becomes 0, the others are kept. -/
def clear_bit (nr : Nat) (x : Nat) : Nat := x ^^^ (x &&& (1 <<< nr))

/-- The `W1_RESET` case of `ds2482_w1_bus_master_tx`, the handler a sensor
reaches through `W1_BUS_MASTER_GET_CLASS(m)->send(m, W1_RESET, 0)`. -/
def ds2482_w1_bus_master_tx_reset (s : DS2482State) : DS2482State :=
  { s with status := s.status ||| DS2482_STATUS_PPD }

/-- The statement `s->buf = w1_bus_read_byte(s->w1_busses[s->channel])`.
An index outside the table is outside the model (`none`). -/
def ds2482_fetch {C : Type} (k : W1BusClientClass C DS2482State) (d : DS2482 C) :
    Option (DS2482 C) :=
  match d.w1_busses[d.s.channel]? with
  | none => none
  | some bus =>
    match w1_bus_read_byte k bus with
    | none => none
    | some (v, bus1) =>
      some { s := { d.s with buf := v },
             w1_busses := d.w1_busses.set d.s.channel (some bus1) }

/-- `ds2482_rx_status`.  `test_bit` with a bit index of 8 or more would read
the struct fields that follow `buf`; that case is outside the model. -/
def ds2482_rx_status {C : Type} (k : W1BusClientClass C DS2482State) (d : DS2482 C) :
    Option (Nat × DS2482 C) :=
  if d.s.triplet_mode ≠ 0 then
    match (if d.s.buf_r_bit_idx = 0 then ds2482_fetch k d else some d) with
    | none => none
    | some d1 =>
      if d1.s.buf_r_bit_idx < 8 then
        let b := test_bit d1.s.buf_r_bit_idx d1.s.buf
        let idx := ((d1.s.buf_r_bit_idx + 1) % 256) % 8
        let status := if b then set_bit 7 (clear_bit 6 d1.s.status)
                      else clear_bit 7 (set_bit 6 d1.s.status)
        some (status, { d1 with s := { d1.s with buf_r_bit_idx := idx, status := status,
                                                 triplet_mode := 0 } })
      else none
  else some (d.s.status, d)

/-- The inner `switch (s->channel)` of `ds2482_rx`. -/
def ds2482_channel_code (channel : Nat) : Nat :=
  match channel with
  | 0 => 0xB8
  | 1 => 0xB1
  | 2 => 0xAA
  | 3 => 0xA3
  | 4 => 0x9C
  | 5 => 0x95
  | 6 => 0x8E
  | 7 => 0x87
  | _ => 0x00

/-- `ds2482_rx`: the host read. -/
def ds2482_rx {C : Type} (k : W1BusClientClass C DS2482State) (d : DS2482 C) :
    Option (Nat × DS2482 C) :=
  if d.s.pointer = DS2482_REG_STATUS then ds2482_rx_status k d
  else if d.s.pointer = DS2482_REG_READ_DATA then some (d.s.buf, d)
  else if d.s.pointer = DS2482_REG_CONFIG then some (d.s.config, d)
  else if d.s.pointer = DS2482_REG_CHANNEL_SELECT then some (ds2482_channel_code d.s.channel, d)
  else some (0, d)

/-- `ds2482_dev_reset`. -/
def ds2482_dev_reset (s : DS2482State) : Int × DS2482State :=
  (0, { s with status := DS2482_STATUS_RST ||| DS2482_STATUS_LL, config := 0xF0,
               pointer := DS2482_REG_STATUS, channel := 0 })

/-- `ds2482_1w_reset`. -/
def ds2482_1w_reset {C : Type} (k : W1BusClientClass C DS2482State) (d : DS2482 C) :
    Option (Int × DS2482 C) :=
  if d.s.status &&& DS2482_STATUS_1WB ≠ 0 then
    some (-1, { d with s := { d.s with pending_cmd := 0 } })
  else
    match d.w1_busses[d.s.channel]? with
    | none => none
    | some bus =>
      match w1_bus_reset k bus d.s with
      | none => none
      | some (_, bus1, s1) =>
        some (0, { s := { s1 with pointer := DS2482_REG_STATUS },
                   w1_busses := d.w1_busses.set d.s.channel bus1 })

/-- `ds2482_write_config`. -/
def ds2482_write_config (s : DS2482State) (data : Nat) : Int × DS2482State :=
  if s.status &&& DS2482_STATUS_1WB ≠ 0 then (-1, { s with pending_cmd := 0 })
  else if s.pending_cmd = 0 then (0, { s with pending_cmd := DS2482_CMD_WRITE_CONFIG })
  else (0, { s with config := data, pending_cmd := 0, pointer := DS2482_REG_CONFIG })

/-- The statement `w1_bus_send_to_clients(s->w1_busses[s->channel], data)`,
its result discarded.  An index outside the table is outside the model. -/
def ds2482_broadcast {C : Type} (k : W1BusClientClass C DS2482State) (d : DS2482 C)
    (data : Nat) : Option (DS2482 C) :=
  match d.w1_busses[d.s.channel]? with
  | none => none
  | some bus =>
    match w1_bus_send_to_clients k bus data d.s with
    | none => none
    | some (_, bus1, s1) =>
      some { s := s1, w1_busses := d.w1_busses.set d.s.channel bus1 }

/-- `ds2482_write_bit`. -/
def ds2482_write_bit {C : Type} (k : W1BusClientClass C DS2482State) (d : DS2482 C)
    (data : Nat) : Option (Int × DS2482 C) :=
  if d.s.status &&& DS2482_STATUS_1WB ≠ 0 then
    some (-1, { d with s := { d.s with pending_cmd := 0 } })
  else if d.s.pending_cmd = 0 then
    some (0, { d with s := { d.s with pending_cmd := DS2482_CMD_1WIRE_SINGLE_BIT } })
  else
    match ds2482_broadcast k d data with
    | none => none
    | some d1 =>
      some (0, { d1 with s := { d1.s with pending_cmd := 0, pointer := DS2482_REG_STATUS } })

/-- `ds2482_write_byte`. -/
def ds2482_write_byte {C : Type} (k : W1BusClientClass C DS2482State) (d : DS2482 C)
    (data : Nat) : Option (Int × DS2482 C) :=
  if d.s.status &&& DS2482_STATUS_1WB ≠ 0 then
    some (-1, { d with s := { d.s with pending_cmd := 0 } })
  else if d.s.pending_cmd = 0 then
    some (0, { d with s := { d.s with pending_cmd := DS2482_CMD_1WIRE_WRITE_BYTE } })
  else
    match ds2482_broadcast k d data with
    | none => none
    | some d1 =>
      some (0, { d1 with s := { d1.s with pending_cmd := 0, pointer := DS2482_REG_STATUS } })

/-- `ds2482_channel_select`; `num_busses` is the macro `DS2482_NUM_BUSSES`. -/
def ds2482_channel_select (num_busses : Nat) (s : DS2482State) (data : Nat) :
    Int × DS2482State :=
  if s.status &&& DS2482_STATUS_1WB ≠ 0 then (-1, { s with pending_cmd := 0 })
  else if num_busses = 1 then (1, s)
  else if s.pending_cmd = 0 then (0, { s with pending_cmd := DS2482_CMD_CHANNEL_SELECT })
  else if data &&& 0xF < 8 then
    (0, { s with channel := data &&& 0x0F, pointer := DS2482_REG_CHANNEL_SELECT,
                 pending_cmd := 0 })
  else (-1, s)

/-- `ds2482_write_triplet`. -/
def ds2482_write_triplet {C : Type} (k : W1BusClientClass C DS2482State) (d : DS2482 C)
    (data : Nat) : Option (Int × DS2482 C) :=
  if d.s.status &&& DS2482_STATUS_1WB ≠ 0 then
    some (-1, { d with s := { d.s with pending_cmd := 0 } })
  else if d.s.pending_cmd = 0 then
    some (0, { d with s := { d.s with pending_cmd := DS2482_CMD_1WIRE_TRIPLET } })
  else
    match ds2482_broadcast k d data with
    | none => none
    | some d1 =>
      some (0, { d1 with s := { d1.s with pointer := DS2482_REG_STATUS, pending_cmd := 0,
                                          triplet_mode := 1 } })

/-- `ds2482_set_read_ptr`. -/
def ds2482_set_read_ptr (s : DS2482State) (data : Nat) : Int × DS2482State :=
  if s.pending_cmd = 0 then (0, { s with pending_cmd := DS2482_CMD_SET_READ_PTR })
  else (0, { s with pointer := data, pending_cmd := 0 })

/-- `ds2482_1w_read_byte`. -/
def ds2482_1w_read_byte {C : Type} (k : W1BusClientClass C DS2482State) (d : DS2482 C) :
    Option (Int × DS2482 C) :=
  match ds2482_fetch k d with
  | none => none
  | some d1 => some (0, d1)

/-- `ds2482_tx`: the host write of the byte `data`. -/
def ds2482_tx {C : Type} (k : W1BusClientClass C DS2482State) (num_busses : Nat)
    (d : DS2482 C) (data : Nat) : Option (Int × DS2482 C) :=
  let cmd := if d.s.pending_cmd ≠ 0 then d.s.pending_cmd else data
  if cmd = DS2482_CMD_RESET then
    some ((ds2482_dev_reset d.s).1, { d with s := (ds2482_dev_reset d.s).2 })
  else if cmd = DS2482_CMD_1WIRE_RESET then ds2482_1w_reset k d
  else if cmd = DS2482_CMD_1WIRE_READ_BYTE then ds2482_1w_read_byte k d
  else if cmd = DS2482_CMD_WRITE_CONFIG then
    some ((ds2482_write_config d.s data).1, { d with s := (ds2482_write_config d.s data).2 })
  else if cmd = DS2482_CMD_1WIRE_SINGLE_BIT then ds2482_write_bit k d data
  else if cmd = DS2482_CMD_1WIRE_WRITE_BYTE then ds2482_write_byte k d data
  else if cmd = DS2482_CMD_CHANNEL_SELECT then
    some ((ds2482_channel_select num_busses d.s data).1,
          { d with s := (ds2482_channel_select num_busses d.s data).2 })
  else if cmd = DS2482_CMD_1WIRE_TRIPLET then ds2482_write_triplet k d data
  else if cmd = DS2482_CMD_SET_READ_PTR then
    some ((ds2482_set_read_ptr d.s data).1, { d with s := (ds2482_set_read_ptr d.s data).2 })
  else some (0, d)

/-- `ds2482_reset`, run by `ds2482_realize`.  It does not write `status`,
`buf`, `buf_r_bit_idx` or `triplet_mode`. -/
def ds2482_reset (s : DS2482State) : DS2482State :=
  { s with temperature := 0, pointer := 0, config := 0, faults := 0, alarm := 0,
           pending_cmd := 0, channel := 0 }

/-- `ds2482_w1_bus_master_tx`: a message arriving at the bridge in its role
as bus master. -/
def ds2482_w1_bus_master_tx {C : Type} (k : W1BusClientClass C DS2482State) (d : DS2482 C)
    (type : w1_message) (data : Nat) : Option (Int × DS2482 C) :=
  match type with
  | .W1_RESET => some (0, { d with s := ds2482_w1_bus_master_tx_reset d.s })
  | .W1_DATA =>
    match ds2482_broadcast k d data with
    | none => none
    | some d1 => some (0, d1)

/-- The sensor class as wired to the bridge: its upstream RESET reaches
`ds2482_w1_bus_master_tx`. -/
def ds18b20_on_ds2482 : W1BusClientClass DS18B20State DS2482State :=
  ds18b20_class ds2482_w1_bus_master_tx_reset

/-- One triplet step as the host performs it: write the opcode
`DS2482_CMD_1WIRE_TRIPLET`, write the payload, read one byte. -/
def ds2482_triplet_pair {C : Type} (k : W1BusClientClass C DS2482State) (num_busses : Nat)
    (d : DS2482 C) (payload : Nat) : Option (Nat × DS2482 C) :=
  match ds2482_tx k num_busses d DS2482_CMD_1WIRE_TRIPLET with
  | none => none
  | some (_, d1) =>
    match ds2482_tx k num_busses d1 payload with
    | none => none
    | some (_, d2) => ds2482_rx k d2

/-- A run of triplet steps, one per payload: the bytes read, in order, and
the state after the last step. -/
def ds2482_triplet_run {C : Type} (k : W1BusClientClass C DS2482State) (num_busses : Nat) :
    DS2482 C → List Nat → Option (List Nat × DS2482 C)
  | d, [] => some ([], d)
  | d, p :: ps =>
    match ds2482_triplet_pair k num_busses d p with
    | none => none
    | some (v, d1) =>
      match ds2482_triplet_run k num_busses d1 ps with
      | none => none
      | some (vs, d2) => some (v :: vs, d2)

/-- The pointer `read_p + j`. -/
def ReadPtr.add : ReadPtr → Nat → ReadPtr
  | .null, _ => .null
  | .serial off, j => .serial (off + j)
  | .scratchpad off, j => .scratchpad (off + j)

/-- The `j`-th byte queued in a sensor: `read_p[j]`. -/
def ds18b20_queued (c : DS18B20State) (j : Nat) : Nat :=
  ds18b20_deref c (c.read_p.add j)

/-- The sensor after `j` of its queued bytes have been read. -/
def ds18b20_after_reads (c : DS18B20State) (j : Nat) : DS18B20State :=
  { c with read_p := c.read_p.add j, read_len := c.read_len - j }

/-- The state of a triplet search after `i` steps over the bytes queued in
the sensor `c`, the only client of the bus of channel `ch`: the bridge is
Idle, not busy, not in triplet mode, its bit cursor is `i mod 8`, its buffer
holds the queued byte in use, and the sensor has been read once per started
group of eight steps. -/
def triplet_inv (ch : Nat) (master : Bool) (c : DS18B20State) (i : Nat)
    (d : DS2482 DS18B20State) : Prop :=
  d.s.pending_cmd = 0 ∧ d.s.status % 2 = 0 ∧ d.s.triplet_mode = 0 ∧
  d.s.buf_r_bit_idx = i % 8 ∧ d.s.channel = ch ∧
  (i % 8 ≠ 0 → d.s.buf = ds18b20_queued c (i / 8)) ∧
  d.w1_busses[ch]? =
    some (some { master := master, clients := [ds18b20_after_reads c ((i + 7) / 8)] })

/-! ## Signed temperatures -/

/-- The value a signed `t` takes when it is stored in the `uint16_t` field
`temperature`: its 16-bit pattern. -/
def to_uint16 (t : Int) : Nat := (t % 65536).toNat

/-- The register value described for a signed temperature `t`: the 16-bit
two's-complement encoding of `t / 100`, truncated toward zero, shifted left
by 4 bits. -/
def signed_temp_encoding (t : Int) : Nat := ((Int.tdiv t 100 * 16) % 65536).toNat

/-! ## Broadcast: reference and a recording client -/

/-- Broadcast as the specification words it: the message is handed to every
attached client in attachment order, each once; the flag tells whether any
handler answered with a non-zero value. -/
def broadcast_spec {C M : Type} (k : W1BusClientClass C M) (type : w1_message) (data : Nat)
    (master : Bool) : List C → M → Option (Bool × List C × M)
  | [], m => some (false, [], m)
  | peer :: rest, m =>
    match k.send peer type data master m with
    | none => none
    | some (r, peer1, m1) =>
      match broadcast_spec k type data master rest m1 with
      | none => none
      | some (any, rest1, m2) => some (decide (r ≠ 0) || any, peer1 :: rest1, m2)

/-- A client that records every message its `send` handler is given and
answers with a fixed value. -/
structure W1Probe where
  id : Nat
  answer : Int
  seen : List (w1_message × Nat)
  deriving DecidableEq, Repr

/-- The probe after one more message. -/
def W1Probe.record (c : W1Probe) (type : w1_message) (data : Nat) : W1Probe :=
  { c with seen := c.seen ++ [(type, data)] }

/-- The class of the recording clients.  The master state is a journal of
the handler calls, in the order they are made: client id and message. -/
def w1_probe_class : W1BusClientClass W1Probe (List (Nat × w1_message × Nat)) where
  send := fun c type data _ journal =>
    some (c.answer, c.record type data, journal ++ [(c.id, type, data)])
  recv := fun c => (0, c)
  has_data := fun _ => false

/-! ## w1_core.c : attaching and detaching clients

Buses and clients are named by numbers.  This part keeps, for every bus, the
queue of the clients attached to it and, for every client, its back-reference
`client->bus`. -/

/-- The attachment state: `clients b` is the queue `bus->clients` of bus
`b`, `bus c` is the back-reference `client->bus` of client `c` (`none` is
NULL). -/
structure W1Links where
  clients : Nat → List Nat
  bus : Nat → Option Nat

/-- Modelled from the spec: `QTAILQ_INSERT_TAIL` of qemu/queue.h, absent from
the sources: the element becomes the last of the queue, the others keep
their order. -/
def QTAILQ_INSERT_TAIL (q : List Nat) (elm : Nat) : List Nat := q ++ [elm]

/-- Modelled from the spec: `QTAILQ_REMOVE` of qemu/queue.h, absent from the
sources: the element leaves the queue, the others keep their order. -/
def QTAILQ_REMOVE (q : List Nat) (elm : Nat) : List Nat := q.erase elm

/-- `w1_bus_insert_client`.  With a NULL bus the back-reference is written
and `&bus->clients` then dereferences NULL. -/
def w1_bus_insert_client (w : W1Links) (bus : Option Nat) (client : Nat) :
    Option (Int × W1Links) :=
  match bus with
  | none => none
  | some b =>
    some (0, { clients := Function.update w.clients b (QTAILQ_INSERT_TAIL (w.clients b) client),
               bus := Function.update w.bus client (some b) })

/-- `w1_bus_remove_client`. -/
def w1_bus_remove_client (w : W1Links) (client : Nat) : Int × W1Links :=
  match w.bus client with
  | none => (0, w)
  | some b =>
    (1, { clients := Function.update w.clients b (QTAILQ_REMOVE (w.clients b) client),
          bus := Function.update w.bus client none })

/-- Buses without clients, clients without bus. -/
def w1_links_empty : W1Links :=
  { clients := fun _ => [], bus := fun _ => none }

/-- One call on the attachment state: attach a client to a (non-null) bus,
or detach a client. -/
inductive W1Op where
  | insert (bus client : Nat)
  | remove (client : Nat)
  deriving DecidableEq, Repr

/-- The attachment state after one call. -/
def w1_links_step (w : W1Links) : W1Op → W1Links
  | .insert b c =>
    match w1_bus_insert_client w (some b) c with
    | some (_, w1) => w1
    | none => w
  | .remove c => (w1_bus_remove_client w c).2

/-- The attachment state after a sequence of calls. -/
def w1_links_run (w : W1Links) (ops : List W1Op) : W1Links :=
  ops.foldl w1_links_step w

/-- The attachment invariant: no client occurs twice in a queue, and a
client occurs in the queue of a bus exactly when its back-reference is that
bus (so it occurs in at most one queue, and its back-reference is NULL when
it occurs in none). -/
def w1_links_inv (w : W1Links) : Prop :=
  (∀ b, (w.clients b).Nodup) ∧ (∀ c b, c ∈ w.clients b ↔ w.bus c = some b)

/-- Every attach call of the sequence is made on a client whose
back-reference is NULL at the time of the call. -/
def w1_ops_attach_detached : W1Links → List W1Op → Prop
  | _, [] => True
  | w, .insert b c :: ops =>
    w.bus c = none ∧ w1_ops_attach_detached (w1_links_step w (.insert b c)) ops
  | w, .remove c :: ops => w1_ops_attach_detached (w1_links_step w (.remove c)) ops

/-! ## Host sequences on the bridge -/

/-- The host writes the opcode ONE_WIRE_WRITE_BYTE and then the byte `w`. -/
def ds2482_host_write_byte {C : Type} (k : W1BusClientClass C DS2482State) (num_busses : Nat)
    (d : DS2482 C) (w : Nat) : Option (DS2482 C) :=
  match ds2482_tx k num_busses d DS2482_CMD_1WIRE_WRITE_BYTE with
  | none => none
  | some (_, d1) =>
    match ds2482_tx k num_busses d1 w with
    | none => none
    | some (_, d2) => some d2

/-- The host fetches one byte from the bus: it writes ONE_WIRE_READ_BYTE,
then SET_READ_POINTER with the payload 0xE1 (the read-data register), and
reads. -/
def ds2482_host_read_byte {C : Type} (k : W1BusClientClass C DS2482State) (num_busses : Nat)
    (d : DS2482 C) : Option (Nat × DS2482 C) :=
  match ds2482_tx k num_busses d DS2482_CMD_1WIRE_READ_BYTE with
  | none => none
  | some (_, d1) =>
    match ds2482_tx k num_busses d1 DS2482_CMD_SET_READ_PTR with
    | none => none
    | some (_, d2) =>
      match ds2482_tx k num_busses d2 DS2482_REG_READ_DATA with
      | none => none
      | some (_, d3) => ds2482_rx k d3

/-- `n` repetitions of `ds2482_host_read_byte`: the bytes read, in order, and
the final state. -/
def ds2482_host_read_bytes {C : Type} (k : W1BusClientClass C DS2482State) (num_busses : Nat) :
    Nat → DS2482 C → Option (List Nat × DS2482 C)
  | 0, d => some ([], d)
  | n + 1, d =>
    match ds2482_host_read_byte k num_busses d with
    | none => none
    | some (v, d1) =>
      match ds2482_host_read_bytes k num_busses n d1 with
      | none => none
      | some (vs, d2) => some (v :: vs, d2)

/-- The temperature read a host driver performs: reset, SKIP_ROM, CONVERT,
reset, SKIP_ROM, READ_SCRATCHPAD, then nine byte fetches. -/
def ds2482_host_read_temperature {C : Type} (k : W1BusClientClass C DS2482State)
    (num_busses : Nat) (d : DS2482 C) : Option (List Nat × DS2482 C) :=
  match ds2482_tx k num_busses d DS2482_CMD_1WIRE_RESET with
  | none => none
  | some (_, d1) =>
    match ds2482_host_write_byte k num_busses d1 DS18B20_ROM_CMD_SKIP_ROM with
    | none => none
    | some d2 =>
      match ds2482_host_write_byte k num_busses d2 DS18B20_FUN_CMD_CONVERT with
      | none => none
      | some d3 =>
        match ds2482_tx k num_busses d3 DS2482_CMD_1WIRE_RESET with
        | none => none
        | some (_, d4) =>
          match ds2482_host_write_byte k num_busses d4 DS18B20_ROM_CMD_SKIP_ROM with
          | none => none
          | some d5 =>
            match ds2482_host_write_byte k num_busses d5 DS18B20_FUN_CMD_READ_SCRATCH with
            | none => none
            | some d6 => ds2482_host_read_bytes k num_busses 9 d6

/-- What the host sequences rely on: the bridge is Idle and not busy, channel
`ch` is selected, and its bus has the master set and holds exactly the
sensor `c`. -/
def bridge_one_sensor (ch : Nat) (c : DS18B20State) (d : DS2482 DS18B20State) : Prop :=
  d.s.pending_cmd = 0 ∧ d.s.status % 2 = 0 ∧ d.s.channel = ch ∧
  d.w1_busses[ch]? = some (some { master := true, clients := [c] })

/-! ## Runs of the bridge -/

/-- One access to the bridge: a host write, a host read, or a message that
reaches the bridge in its role as bus master. -/
inductive DS2482Op where
  | tx (data : Nat)
  | rx
  | master_tx (type : w1_message) (data : Nat)
  deriving DecidableEq, Repr

/-- The bridge after one access; `none` when the access faults. -/
def ds2482_step {C : Type} (k : W1BusClientClass C DS2482State) (num_busses : Nat)
    (d : DS2482 C) : DS2482Op → Option (DS2482 C)
  | .tx data =>
    match ds2482_tx k num_busses d data with
    | none => none
    | some (_, d1) => some d1
  | .rx =>
    match ds2482_rx k d with
    | none => none
    | some (_, d1) => some d1
  | .master_tx type data =>
    match ds2482_w1_bus_master_tx k d type data with
    | none => none
    | some (_, d1) => some d1

/-- The bridge after a sequence of accesses. -/
def ds2482_run {C : Type} (k : W1BusClientClass C DS2482State) (num_busses : Nat) :
    DS2482 C → List DS2482Op → Option (DS2482 C)
  | d, [] => some d
  | d, op :: ops =>
    match ds2482_step k num_busses d op with
    | none => none
    | some d1 => ds2482_run k num_busses d1 ops

/-- What one access can do to the registers that the invariants speak of:
the bit cursor is kept or lands below 8, the busy bit is kept or cleared,
`pending_cmd` is kept, cleared or set to a two-phase opcode (CHANNEL_SELECT
only when the bridge is not built with one channel), and the channel is
kept, reset to 0 or, on a bridge not built with one channel, set to a value
below 8. -/
def ds2482_regs_rel (num_busses : Nat) (s s1 : DS2482State) : Prop :=
  (s1.buf_r_bit_idx = s.buf_r_bit_idx ∨ s1.buf_r_bit_idx < 8) ∧
  (s1.status % 2 = s.status % 2 ∨ s1.status % 2 = 0) ∧
  (s1.pending_cmd = s.pending_cmd ∨ s1.pending_cmd = 0 ∨
    s1.pending_cmd = DS2482_CMD_SET_READ_PTR ∨ s1.pending_cmd = DS2482_CMD_WRITE_CONFIG ∨
    s1.pending_cmd = DS2482_CMD_1WIRE_SINGLE_BIT ∨ s1.pending_cmd = DS2482_CMD_1WIRE_WRITE_BYTE ∨
    s1.pending_cmd = DS2482_CMD_1WIRE_TRIPLET ∨
    (num_busses ≠ 1 ∧ s1.pending_cmd = DS2482_CMD_CHANNEL_SELECT)) ∧
  (s1.channel = s.channel ∨ s1.channel = 0 ∨ (num_busses ≠ 1 ∧ s1.channel < 8))


/-! ## Runs of handler calls on one client, and of bus operations -/

/-- One call of a handler of a bus client: `send` with a message, or
`recv`. -/
inductive W1ClientOp where
  | send (type : w1_message) (data : Nat)
  | recv
  deriving DecidableEq, Repr

/-- The client and the master after one handler call; `none` is a NULL
dereference inside the handler. -/
def w1_client_step {C M : Type} (k : W1BusClientClass C M) (master : Bool) (c : C) (m : M) :
    W1ClientOp → Option (C × M)
  | .send type data =>
    match k.send c type data master m with
    | none => none
    | some (_, c1, m1) => some (c1, m1)
  | .recv => some ((k.recv c).2, m)

/-- The client and the master after a sequence of handler calls. -/
def w1_client_run {C M : Type} (k : W1BusClientClass C M) (master : Bool) :
    C → M → List W1ClientOp → Option (C × M)
  | c, m, [] => some (c, m)
  | c, m, op :: ops =>
    match w1_client_step k master c m op with
    | none => none
    | some (c1, m1) => w1_client_run k master c1 m1 ops

/-- The scratchpad holds what the CONVERT_TEMPERATURE branch of `ds18b20_tx`
writes for the sensor's temperature: bytes 0 and 1 are the two bytes of
`(temperature / 100) << 4` and byte 8 is the `ds18b20_crc8` of bytes 0..7. -/
def ds18b20_scratchpad_converted (c : DS18B20State) : Prop :=
  c.scratchpad.getD 0 0 = (((c.temperature / 100) <<< 4) % 65536) &&& 0x00FF ∧
  c.scratchpad.getD 1 0 = ((((c.temperature / 100) <<< 4) % 65536) &&& 0xFF00) >>> 8 ∧
  c.scratchpad.getD 8 0 = ds18b20_crc8 c.scratchpad 8

/-- One of the bus operations of w1_core.c that a master performs. -/
inductive W1BusOp where
  | reset
  | send_to_clients (data : Nat)
  | read_byte
  deriving DecidableEq, Repr

/-- The bus and the master after one bus operation; `none` is a NULL
dereference. -/
def w1_bus_step {C M : Type} (k : W1BusClientClass C M) (bus : Option (W1BusState C)) (m : M) :
    W1BusOp → Option (Option (W1BusState C) × M)
  | .reset =>
    match w1_bus_reset k bus m with
    | none => none
    | some (_, bus1, m1) => some (bus1, m1)
  | .send_to_clients data =>
    match w1_bus_send_to_clients k bus data m with
    | none => none
    | some (_, bus1, m1) => some (bus1, m1)
  | .read_byte =>
    match w1_bus_read_byte k bus with
    | none => none
    | some (_, b1) => some (some b1, m)

/-- The bus and the master after a sequence of bus operations. -/
def w1_bus_run {C M : Type} (k : W1BusClientClass C M) :
    Option (W1BusState C) → M → List W1BusOp → Option (Option (W1BusState C) × M)
  | bus, m, [] => some (bus, m)
  | bus, m, op :: ops =>
    match w1_bus_step k bus m op with
    | none => none
    | some (bus1, m1) => w1_bus_run k bus1 m1 ops

/-- The state of a sensor object before any message: the arrays have their
declared sizes, `read_p` is NULL and `read_len` is 0. -/
def ds18b20_initial (c : DS18B20State) : Prop :=
  c.serial.length = 8 ∧ c.scratchpad.length = 9 ∧ c.read_p = ReadPtr.null ∧ c.read_len = 0

/-- The read cursor of a sensor is consistent: `read_len` is at most 9, and
when it is positive `read_p` points into `serial` with
`offset + read_len = 8`, or into `scratchpad` with `offset + read_len` equal
to 9 (READ_SCRATCHPAD) or 1 (READ_POWER_SUPPLY). -/
def ds18b20_cursor_ok (c : DS18B20State) : Prop :=
  c.serial.length = 8 ∧ c.scratchpad.length = 9 ∧ c.read_len ≤ 9 ∧
  (c.read_len > 0 →
    (∃ off, c.read_p = ReadPtr.serial off ∧ off + c.read_len = 8) ∨
    (∃ off, c.read_p = ReadPtr.scratchpad off ∧
      (off + c.read_len = 9 ∨ off + c.read_len = 1)))


/-! ## Example states -/

/-- A sensor at 25.00 degrees with nothing queued. -/
def sensor_2500 : DS18B20State :=
  { serial := [0x28, 0x11, 0x22, 0x33, 0x44, 0x55, 0x66, 0xB4],
    scratchpad := [0, 0, 0x4B, 0x46, 0x7F, 0xFF, 0x0C, 0x10, 0],
    read_p := ReadPtr.null, read_len := 0, temperature := 2500 }

/-- A sensor that has just received SEARCH_ROM: the eight ROM bytes are
queued. -/
def sensor_searching : DS18B20State :=
  { sensor_2500 with read_p := ReadPtr.serial 0, read_len := 8 }

/-- A sensor whose last ROM byte, 0xB4, is the only byte still queued. -/
def sensor_last_rom_byte : DS18B20State :=
  { sensor_2500 with read_p := ReadPtr.serial 7, read_len := 1 }

/-- The bridge registers after `ds2482_realize` on zeroed memory. -/
def regs_realized : DS2482State :=
  ds2482_reset ⟨0, 0, 0, 0, 0, 0, 0, 0, 0, 0, 0⟩

/-- A realized single-channel bridge whose bus holds `sensor_2500`. -/
def bridge_idle : DS2482 DS18B20State :=
  { s := regs_realized,
    w1_busses := [some { master := true, clients := [sensor_2500] }] }

/-- The bridge `bridge_idle` with the busy bit of the status byte forced. -/
def bridge_busy : DS2482 DS18B20State :=
  { bridge_idle with s := { regs_realized with status := 0x01 } }

/-- A bridge in triplet mode, read pointer at the status register, whose
sensor has its ROM queued. -/
def bridge_armed : DS2482 DS18B20State :=
  { s := { regs_realized with pointer := 0xF0, triplet_mode := 1, status := 0x18 },
    w1_busses := [some { master := true, clients := [sensor_searching] }] }

/-- An Idle bridge whose sensor has the single byte 0xB4 queued. -/
def bridge_one_byte : DS2482 DS18B20State :=
  { s := regs_realized,
    w1_busses := [some { master := true, clients := [sensor_last_rom_byte] }] }

/-- The sensor `sensor_2500` after READ_POWER_SUPPLY and the one read that
drains the queued byte: the cursor is not NULL and `read_len` is 0. -/
def sensor_drained : DS18B20State :=
  { sensor_2500 with scratchpad := [0xFF, 0, 0x4B, 0x46, 0x7F, 0xFF, 0x0C, 0x10, 0],
                     read_p := ReadPtr.scratchpad 1, read_len := 0 }

/-- A realized bridge built with eight channels; channel 0 is wired to a bus
holding `sensor_2500`, the other table entries are NULL. -/
def bridge8_idle : DS2482 DS18B20State :=
  { s := regs_realized,
    w1_busses := some { master := true, clients := [sensor_2500] } :: List.replicate 7 none }

/-- The eight-channel bridge with channel 3 selected and the opcode
CHANNEL_SELECT written, its payload still to come. -/
def bridge8_selecting : DS2482 DS18B20State :=
  { bridge8_idle with s := { regs_realized with channel := 3, pointer := 0xD2,
                                                pending_cmd := 0xC3 } }

/-- A realized bridge built with four channels, none of them wired. -/
def bridge4_idle : DS2482 DS18B20State :=
  { s := regs_realized, w1_busses := List.replicate 4 none }

/-- The sensor `sensor_2500` after CONVERT_TEMPERATURE: 0x0190 in bytes 0
and 1, the CRC-8 0x33 in byte 8. -/
def sensor_converted : DS18B20State :=
  { sensor_2500 with scratchpad := [0x90, 0x01, 0x4B, 0x46, 0x7F, 0xFF, 0x0C, 0x10, 0x33] }


/-! # Theorems -/

/-! ## Lemmas on the CRC-8 -/

theorem crc8_step_eq (crc inbyte : Nat) :
    (if (crc ^^^ inbyte) &&& 0x01 ≠ 0 then (crc >>> 1) ^^^ 0x8C else crc >>> 1)
      = dallas_crc8_clock crc (inbyte.testBit 0) := by
  unfold dallas_crc8_clock
  have h1 : (crc ^^^ inbyte) &&& 1 = ((crc ^^^ inbyte).testBit 0).toNat := by
    rw [Nat.and_one_is_mod, Nat.testBit_zero]
    rcases Nat.mod_two_eq_zero_or_one (crc ^^^ inbyte) with h | h <;> simp [h]
  rw [h1, Nat.testBit_xor, Nat.shiftRight_one]
  cases h : (crc.testBit 0 ^^ inbyte.testBit 0) <;> simp [h]

theorem crc8_bits_eq (n : Nat) : ∀ crc inbyte,
    ds18b20_crc8_bits n crc inbyte
      = ((List.range n).map fun j => inbyte.testBit j).foldl dallas_crc8_clock crc := by
  induction n with
  | zero => intro crc inbyte; rfl
  | succ n ih =>
    intro crc inbyte
    rw [List.range_succ_eq_map, List.map_cons, List.foldl_cons, List.map_map]
    show ds18b20_crc8_bits n _ (inbyte >>> 1) = _
    rw [ih, crc8_step_eq]
    congr 1
    apply List.map_congr_left
    intro j _
    simp [Nat.testBit_shiftRight, Nat.add_comm]



theorem byte_bits_mod (x : Nat) : byte_bits_lsb_first (x % 256) = byte_bits_lsb_first x := by
  unfold byte_bits_lsb_first
  apply List.map_congr_left
  intro j hj
  have hj8 : j < 8 := List.mem_range.mp hj
  have : (256 : Nat) = 2 ^ 8 := by norm_num
  rw [this, Nat.testBit_mod_two_pow]
  simp [hj8]

theorem crc8_loop_eq (l : List Nat) : ∀ (pre : List Nat) (crc : Nat),
    ds18b20_crc8_loop (pre ++ l) l.length pre.length crc
      = (l.flatMap byte_bits_lsb_first).foldl dallas_crc8_clock crc := by
  induction l with
  | nil => intro pre crc; rfl
  | cons x xs ih =>
    intro pre crc
    have hx : (pre ++ x :: xs).getD pre.length 0 = x := by
      rw [List.getD_eq_getElem?_getD, List.getElem?_append_right (le_refl _)]
      simp
    have hpre : pre ++ x :: xs = (pre ++ [x]) ++ xs := by simp
    show ds18b20_crc8_loop (pre ++ x :: xs) xs.length (pre.length + 1)
        (ds18b20_crc8_bits 8 crc ((pre ++ x :: xs).getD pre.length 0 % 256)) = _
    rw [hx, hpre]
    have hlen : pre.length + 1 = (pre ++ [x]).length := by simp
    rw [hlen, ih, crc8_bits_eq, List.flatMap_cons, List.foldl_append]
    congr 1
    have := byte_bits_mod x
    unfold byte_bits_lsb_first at this
    rw [this]
    rfl

theorem crc8_update_eq (reg byte : Nat) (hb : byte < 256) :
    dallas_crc8_update reg byte = (byte_bits_lsb_first byte).foldl dallas_crc8_clock reg := by
  have key : ∀ n : Nat,
      (fun c => if c % 2 = 1 then (c / 2) ^^^ 0x8C else c / 2)^[n] (reg ^^^ byte)
        = (((List.range n).map fun j => byte.testBit j).foldl dallas_crc8_clock reg)
            ^^^ (byte >>> n) := by
    intro n
    induction n with
    | zero => simp
    | succ n ih =>
      rw [Function.iterate_succ_apply', ih, List.range_succ, List.map_append,
        List.foldl_append]
      simp only [List.map_cons, List.map_nil, List.foldl_cons, List.foldl_nil]
      generalize List.foldl dallas_crc8_clock reg
        (List.map (fun j => byte.testBit j) (List.range n)) = a
      have hb0 : (byte >>> n).testBit 0 = byte.testBit n := by simp
      have hsh : byte >>> (n + 1) = (byte >>> n) / 2 := by
        rw [Nat.shiftRight_add, Nat.shiftRight_one]
      have hx : (a ^^^ byte >>> n).testBit 0 = (a.testBit 0 ^^ byte.testBit n) := by
        rw [Nat.testBit_xor, hb0]
      rw [Nat.testBit_zero] at hx
      unfold dallas_crc8_clock
      rw [hsh, Nat.xor_div_two]
      by_cases h : (a ^^^ byte >>> n) % 2 = 1
      · have h2 : (a.testBit 0 ^^ byte.testBit n) = true := by rw [← hx]; exact decide_eq_true h
        rw [if_pos h, h2, if_pos rfl, Nat.xor_assoc, Nat.xor_assoc,
          Nat.xor_comm (byte >>> n / 2)]
      · have h2 : (a.testBit 0 ^^ byte.testBit n) = false := by rw [← hx]; exact decide_eq_false h
        rw [if_neg h, h2]
        simp
  unfold dallas_crc8_update byte_bits_lsb_first
  rw [key 8]
  have : byte >>> 8 = 0 := by
    rw [Nat.shiftRight_eq_div_pow]
    exact Nat.div_eq_of_lt (by norm_num; exact hb)
  rw [this, Nat.xor_zero]

theorem crc8_loop_congr (a b : List Nat) : ∀ (len idx crc : Nat),
    (∀ i, idx ≤ i → i < idx + len → a.getD i 0 = b.getD i 0) →
    ds18b20_crc8_loop a len idx crc = ds18b20_crc8_loop b len idx crc := by
  intro len
  induction len with
  | zero => intro idx crc _; rfl
  | succ n ih =>
    intro idx crc h
    show ds18b20_crc8_loop a n (idx + 1) (ds18b20_crc8_bits 8 crc (a.getD idx 0 % 256))
      = ds18b20_crc8_loop b n (idx + 1) (ds18b20_crc8_bits 8 crc (b.getD idx 0 % 256))
    rw [h idx (le_refl _) (by omega)]
    exact ih (idx + 1) _ (fun i h1 h2 => h i (by omega) (by omega))

theorem crc8_eq_ref (msg : List Nat) (hlen : msg.length ≤ 255) :
    ds18b20_crc8 msg msg.length = dallas_crc8_ref msg := by
  unfold ds18b20_crc8 dallas_crc8_ref
  rw [Nat.mod_eq_of_lt (by omega)]
  exact crc8_loop_eq msg [] 0

theorem crc8_ref_eq_update (msg : List Nat) (hb : ∀ b ∈ msg, b < 256) : ∀ reg,
    (msg.flatMap byte_bits_lsb_first).foldl dallas_crc8_clock reg
      = msg.foldl dallas_crc8_update reg := by
  induction msg with
  | nil => intro reg; rfl
  | cons x xs ih =>
    intro reg
    rw [List.flatMap_cons, List.foldl_append, List.foldl_cons,
      ← crc8_update_eq reg x (hb x (List.mem_cons_self _ _))]
    exact ih (fun b h => hb b (List.mem_cons_of_mem _ h)) _

/-- C1: for every sequence of at most 255 bytes, `ds18b20_crc8` returns the
Dallas/Maxim CRC-8 of the sequence: the value of the reference shift
register (polynomial 0x8C reflected, start value 0, bits of each byte taken
least significant first, no final xor), which for bytes is also the value of
the xor-then-shift byte update folded over the sequence; the CRC-8 of the
single byte 0x01 is 0x5E. -/
theorem C1_crc8_is_dallas_crc8 (msg : List Nat) (hlen : msg.length ≤ 255) :
    ds18b20_crc8 msg msg.length = dallas_crc8_ref msg ∧
    ((∀ b ∈ msg, b < 256) → ds18b20_crc8 msg msg.length = msg.foldl dallas_crc8_update 0) ∧
    ds18b20_crc8 [0x01] 1 = 0x5E := by
  refine ⟨crc8_eq_ref msg hlen, ?_, by decide⟩
  intro hb
  rw [crc8_eq_ref msg hlen]
  exact crc8_ref_eq_update msg hb 0

/-- Witness of C1 at the three-byte message 0x01, 0xB4, 0xFF. -/
theorem C1_crc8_is_dallas_crc8_witness :
    [0x01, 0xB4, 0xFF].length ≤ 255 ∧
    ds18b20_crc8 [0x01, 0xB4, 0xFF] 3 = dallas_crc8_ref [0x01, 0xB4, 0xFF] :=
  ⟨by decide, (C1_crc8_is_dallas_crc8 [0x01, 0xB4, 0xFF] (by decide)).1⟩


/-! ## The sensor -/

theorem temp_low_byte (x : Nat) : x &&& 0x00FF = x % 256 :=
  Nat.and_pow_two_sub_one_eq_mod x 8

theorem temp_high_byte (x : Nat) (hx : x < 65536) : (x &&& 0xFF00) >>> 8 = x / 256 % 256 := by
  apply Nat.eq_of_testBit_eq
  intro i
  have h256 : (256 : Nat) = 2 ^ 8 := by norm_num
  rw [Nat.testBit_shiftRight, Nat.testBit_and, h256, Nat.testBit_mod_two_pow,
    ← Nat.shiftRight_eq_div_pow, Nat.testBit_shiftRight]
  by_cases hi : i < 8
  · have : Nat.testBit 0xFF00 (8 + i) = true := by
      interval_cases i <;> decide
    rw [this]
    simp [hi]
  · have h1 : x.testBit (8 + i) = false := by
      apply Nat.testBit_lt_two_pow
      calc x < 65536 := hx
        _ = 2 ^ 16 := by norm_num
        _ ≤ 2 ^ (8 + i) := Nat.pow_le_pow_right (by norm_num) (by omega)
    simp [hi, h1]

theorem list_length_nine {α : Type} (l : List α) (h : l.length = 9) :
    ∃ a0 a1 a2 a3 a4 a5 a6 a7 a8, l = [a0, a1, a2, a3, a4, a5, a6, a7, a8] := by
  match l, h with
  | [a0, a1, a2, a3, a4, a5, a6, a7, a8], _ => exact ⟨a0, a1, a2, a3, a4, a5, a6, a7, a8, rfl⟩

/-- C2: for a sensor whose temperature t is at most 32767, the DATA byte
CONVERT_TEMPERATURE (0x44) is accepted and leaves scratchpad[0] the low byte
and scratchpad[1] the high byte of ((t / 100) << 4), scratchpad[8] the
`ds18b20_crc8` of the new scratchpad bytes 0..7, and scratchpad[2..7], the
ROM identifier, the read cursor and the master unchanged; t = 2500 gives
0x90 and 0x01. -/
theorem C2_convert_temperature {M : Type} (mr : M → M) (s : DS18B20State) (master : Bool)
    (m : M) (hsp : s.scratchpad.length = 9) (ht : s.temperature ≤ 32767) :
    ∃ s1, ds18b20_tx mr s w1_message.W1_DATA DS18B20_FUN_CMD_CONVERT master m = some (0, s1, m) ∧
      s1.scratchpad.length = 9 ∧
      s1.scratchpad.getD 0 0 = ((s.temperature / 100) <<< 4) % 256 ∧
      s1.scratchpad.getD 1 0 = ((s.temperature / 100) <<< 4) / 256 % 256 ∧
      s1.scratchpad.getD 8 0 = ds18b20_crc8 (s1.scratchpad.take 8) 8 ∧
      (∀ i, 2 ≤ i → i ≤ 7 → s1.scratchpad.getD i 0 = s.scratchpad.getD i 0) ∧
      s1.serial = s.serial ∧ s1.read_p = s.read_p ∧ s1.read_len = s.read_len ∧
      s1.temperature = s.temperature ∧
      (s.temperature = 2500 → s1.scratchpad.getD 0 0 = 0x90 ∧ s1.scratchpad.getD 1 0 = 0x01) := by
  obtain ⟨a0, a1, a2, a3, a4, a5, a6, a7, a8, hs⟩ := list_length_nine s.scratchpad hsp
  have hlt : ((s.temperature / 100) <<< 4) < 65536 := by
    rw [Nat.shiftLeft_eq]
    have : s.temperature / 100 ≤ 327 := by omega
    omega
  have hmod : ((s.temperature / 100) <<< 4) % 65536 = (s.temperature / 100) <<< 4 :=
    Nat.mod_eq_of_lt hlt
  refine ⟨_, rfl, ?_, ?_, ?_, ?_, ?_, rfl, rfl, rfl, rfl, ?_⟩
  · simp [hs]
  · simp [hs, hmod, temp_low_byte]
  · simp [hs, hmod, temp_high_byte _ hlt]
  · simp only [hs, List.set_cons_zero, List.set_cons_succ, List.getD_cons_succ,
      List.getD_cons_zero, List.take_succ_cons, List.take_zero]
    rfl
  · intro i h2 h7
    simp only [hs]
    have : i = 2 ∨ i = 3 ∨ i = 4 ∨ i = 5 ∨ i = 6 ∨ i = 7 := by omega
    rcases this with h | h | h | h | h | h <;> subst h <;> rfl
  · intro h
    simp [hs, h, temp_low_byte, temp_high_byte]

/-- Witness of C2 at the sensor `sensor_2500`. -/
theorem C2_convert_temperature_witness :
    sensor_2500.scratchpad.length = 9 ∧ sensor_2500.temperature ≤ 32767 ∧
    ∃ s1, ds18b20_tx ds2482_w1_bus_master_tx_reset sensor_2500 w1_message.W1_DATA 0x44 true
        (ds2482_reset ⟨0, 0, 0, 0, 0, 0, 0, 0, 0, 0, 0⟩) =
          some (0, s1, ds2482_reset ⟨0, 0, 0, 0, 0, 0, 0, 0, 0, 0, 0⟩) ∧
      s1.scratchpad.getD 0 0 = 0x90 ∧ s1.scratchpad.getD 1 0 = 0x01 := by
  refine ⟨by decide, by decide, ?_⟩
  obtain ⟨s1, h, _, _, _, _, _, _, _, _, _, h25⟩ :=
    C2_convert_temperature ds2482_w1_bus_master_tx_reset sensor_2500 true
      (ds2482_reset ⟨0, 0, 0, 0, 0, 0, 0, 0, 0, 0, 0⟩) (by decide) (by decide)
  exact ⟨s1, h, h25 rfl⟩


/-! ## Bit helpers -/

theorem testBit_set_bit (n x j : Nat) :
    (set_bit n x).testBit j = (x.testBit j || decide (n = j)) := by
  unfold set_bit
  rw [Nat.testBit_or, Nat.one_shiftLeft, Nat.testBit_two_pow]

theorem testBit_clear_bit (n x j : Nat) :
    (clear_bit n x).testBit j = (x.testBit j && !decide (n = j)) := by
  unfold clear_bit
  rw [Nat.testBit_xor, Nat.testBit_and, Nat.one_shiftLeft, Nat.testBit_two_pow]
  cases x.testBit j <;> cases decide (n = j) <;> rfl

/-- The status byte written by the triplet step: bit 7 is the extracted bit,
bit 6 its complement, every other bit is kept. -/
theorem triplet_status_bits (b : Bool) (status : Nat) :
    let st := if b then set_bit 7 (clear_bit 6 status) else clear_bit 7 (set_bit 6 status)
    st.testBit 7 = b ∧ st.testBit 6 = !b ∧
      ∀ j, j ≠ 6 → j ≠ 7 → st.testBit j = status.testBit j := by
  intro st
  cases b
  · simp only [st]
    refine ⟨?_, ?_, ?_⟩
    · simp [testBit_set_bit, testBit_clear_bit]
    · simp [testBit_set_bit, testBit_clear_bit]
    · intro j h6 h7
      simp [testBit_set_bit, testBit_clear_bit, Ne.symm h6, Ne.symm h7]
  · simp only [st]
    refine ⟨?_, ?_, ?_⟩
    · simp [testBit_set_bit, testBit_clear_bit]
    · simp [testBit_set_bit, testBit_clear_bit]
    · intro j h6 h7
      simp [testBit_set_bit, testBit_clear_bit, Ne.symm h6, Ne.symm h7]


/-! ## The bridge: host writes and reads -/

/-- The status-register read when not in triplet mode returns `status` and
changes nothing. -/
theorem rx_status_idle {C : Type} (k : W1BusClientClass C DS2482State) (d : DS2482 C)
    (h : d.s.triplet_mode = 0) : ds2482_rx_status k d = some (d.s.status, d) := by
  simp [ds2482_rx_status, h]

/-- Every value the status-register read returns is the `status` field of
the state it leaves. -/
theorem rx_status_returns_status {C : Type} (k : W1BusClientClass C DS2482State)
    (d : DS2482 C) (v : Nat) (d3 : DS2482 C) (h : ds2482_rx_status k d = some (v, d3)) :
    v = d3.s.status := by
  unfold ds2482_rx_status at h
  by_cases ht : d.s.triplet_mode = 0
  · simp [ht] at h
    rw [← h.1, ← h.2]
  · simp only [ne_eq, ht, not_false_eq_true, if_true] at h
    cases hf : (if d.s.buf_r_bit_idx = 0 then ds2482_fetch k d else some d) with
    | none => simp [hf] at h
    | some d1 =>
      simp only [hf] at h
      by_cases h8 : d1.s.buf_r_bit_idx < 8
      · simp only [h8, if_true, Option.some.injEq, Prod.mk.injEq] at h
        rw [← h.1, ← h.2]
      · simp [h8] at h

theorem rx_status_armed_fetch {C : Type} (k : W1BusClientClass C DS2482State) (d : DS2482 C)
    (bus : Option (W1BusState C)) (v : Nat) (bus1 : W1BusState C)
    (ht : d.s.triplet_mode ≠ 0) (h0 : d.s.buf_r_bit_idx = 0)
    (hb : d.w1_busses[d.s.channel]? = some bus) (hr : w1_bus_read_byte k bus = some (v, bus1)) :
    ds2482_rx_status k d
      = some (if test_bit 0 v then set_bit 7 (clear_bit 6 d.s.status)
              else clear_bit 7 (set_bit 6 d.s.status),
          { s := { d.s with buf := v, buf_r_bit_idx := 1,
                            status := if test_bit 0 v then set_bit 7 (clear_bit 6 d.s.status)
                                      else clear_bit 7 (set_bit 6 d.s.status),
                            triplet_mode := 0 },
            w1_busses := d.w1_busses.set d.s.channel (some bus1) }) := by
  simp [ds2482_rx_status, ht, h0, ds2482_fetch, hb, hr]

theorem rx_status_armed_keep {C : Type} (k : W1BusClientClass C DS2482State) (d : DS2482 C)
    (ht : d.s.triplet_mode ≠ 0) (h0 : d.s.buf_r_bit_idx ≠ 0) (h8 : d.s.buf_r_bit_idx < 8) :
    ds2482_rx_status k d
      = some (if test_bit d.s.buf_r_bit_idx d.s.buf then set_bit 7 (clear_bit 6 d.s.status)
              else clear_bit 7 (set_bit 6 d.s.status),
          { d with s := { d.s with
              buf_r_bit_idx := (d.s.buf_r_bit_idx + 1) % 8,
              status := if test_bit d.s.buf_r_bit_idx d.s.buf then set_bit 7 (clear_bit 6 d.s.status)
                        else clear_bit 7 (set_bit 6 d.s.status),
              triplet_mode := 0 } }) := by
  have hlt : d.s.buf_r_bit_idx + 1 < 256 := by omega
  simp [ds2482_rx_status, ht, h0, h8, Nat.mod_eq_of_lt hlt]

/-- The payload write of SET_READ_POINTER. -/
theorem tx_set_read_ptr_payload {C : Type} (k : W1BusClientClass C DS2482State) (n : Nat)
    (d : DS2482 C) (w : Nat) (h : d.s.pending_cmd = DS2482_CMD_SET_READ_PTR) :
    ds2482_tx k n d w = some (0, { d with s := { d.s with pointer := w, pending_cmd := 0 } }) := by
  simp [ds2482_tx, h, ds2482_set_read_ptr]

/-- C3: from an Idle bridge, the write of SET_READ_POINTER (0xE1) alone sets
only `pending_cmd`, the read pointer keeping its value; the following write
of X sets the read pointer to X and `pending_cmd` to 0 and changes nothing
else; the next read is then the status-register read for X = 0xF0 (the
status byte itself when the bridge is not in triplet mode, and in any case
the status byte of the state the read leaves; it returns whenever the bit
cursor is below 8 and, if a byte must be fetched, the selected bus exists), the read-data buffer for
X = 0xE1, the configuration byte for X = 0xC3, the channel code for
X = 0xD2 and 0 for every other X. -/
theorem C3_set_read_pointer {C : Type} (k : W1BusClientClass C DS2482State) (n : Nat)
    (d : DS2482 C) (X : Nat) (hidle : d.s.pending_cmd = 0) :
    let d1 : DS2482 C := { d with s := { d.s with pending_cmd := DS2482_CMD_SET_READ_PTR } }
    let d2 : DS2482 C := { d with s := { d.s with pointer := X } }
    ds2482_tx k n d DS2482_CMD_SET_READ_PTR = some (0, d1) ∧
    d1.s.pointer = d.s.pointer ∧
    ds2482_tx k n d1 X = some (0, d2) ∧
    d2.s.pending_cmd = 0 ∧
    (X = 0xF0 → ds2482_rx k d2 = ds2482_rx_status k d2 ∧
      (d.s.triplet_mode = 0 → ds2482_rx k d2 = some (d.s.status, d2)) ∧
      (∀ v d3, ds2482_rx k d2 = some (v, d3) → v = d3.s.status) ∧
      (d.s.buf_r_bit_idx < 8 →
        (d.s.buf_r_bit_idx = 0 → ∃ b, d.w1_busses[d.s.channel]? = some (some b)) →
        ∃ v d3, ds2482_rx k d2 = some (v, d3) ∧ v = d3.s.status)) ∧
    (X = 0xE1 → ds2482_rx k d2 = some (d.s.buf, d2)) ∧
    (X = 0xC3 → ds2482_rx k d2 = some (d.s.config, d2)) ∧
    (X = 0xD2 → ds2482_rx k d2 = some (ds2482_channel_code d.s.channel, d2)) ∧
    (X ≠ 0xF0 → X ≠ 0xE1 → X ≠ 0xC3 → X ≠ 0xD2 → ds2482_rx k d2 = some (0, d2)) := by
  intro d1 d2
  have hd2 : d2 = { d1 with s := { d1.s with pointer := X, pending_cmd := 0 } } := by
    simp only [d1, d2, ← hidle]
  refine ⟨?_, rfl, ?_, hidle, ?_, ?_, ?_, ?_, ?_⟩
  · simp [ds2482_tx, hidle, ds2482_set_read_ptr, d1]
  · rw [hd2]
    exact tx_set_read_ptr_payload k n d1 X rfl
  · intro hX
    have hrx : ds2482_rx k d2 = ds2482_rx_status k d2 := by
      simp [ds2482_rx, d2, hX]
    refine ⟨hrx, ?_, ?_, ?_⟩
    · intro ht
      rw [hrx]
      exact rx_status_idle k d2 ht
    · intro v d3 h
      rw [hrx] at h
      exact rx_status_returns_status k d2 v d3 h
    · intro h8 hbus
      rw [hrx]
      by_cases ht : d.s.triplet_mode = 0
      · exact ⟨_, _, rx_status_idle k d2 ht, rfl⟩
      · by_cases h0 : d.s.buf_r_bit_idx = 0
        · obtain ⟨b, hb⟩ := hbus h0
          exact ⟨_, _, rx_status_armed_fetch k d2 (some b) _ _ ht h0 hb rfl, rfl⟩
        · exact ⟨_, _, rx_status_armed_keep k d2 ht h0 h8, rfl⟩
  · intro hX
    simp [ds2482_rx, d2, hX]
  · intro hX
    simp [ds2482_rx, d2, hX]
  · intro hX
    simp [ds2482_rx, d2, hX]
  · intro h1 h2 h3 h4
    simp [ds2482_rx, d2, h1, h2, h3, h4]


/-- Witness of C3 at the realized bridge and X = 0xE1. -/
theorem C3_set_read_pointer_witness :
    bridge_idle.s.pending_cmd = 0 ∧
    ds2482_tx ds18b20_on_ds2482 1
        { bridge_idle with s := { bridge_idle.s with pending_cmd := DS2482_CMD_SET_READ_PTR } }
        0xE1
      = some (0, { bridge_idle with s := { bridge_idle.s with pointer := 0xE1 } }) :=
  ⟨by decide, (C3_set_read_pointer ds18b20_on_ds2482 1 bridge_idle 0xE1 (by decide)).2.2.1⟩

/-- C4: with the busy bit clear and a two-phase command pending, the byte w
written by the host is that command's payload whatever its value: for
SET_READ_POINTER the read pointer becomes w, for WRITE_CONFIG the
configuration byte becomes w (with the read pointer at the configuration
register), and for SINGLE_BIT, WRITE_BYTE and TRIPLET the selected bus
receives exactly one `w1_bus_send_to_clients` of w and the read pointer
becomes the status register (TRIPLET also enters triplet mode); in every
case the write returns 0 and `pending_cmd` is 0 afterwards. -/
theorem C4_payload_not_opcode {C : Type} (k : W1BusClientClass C DS2482State) (n : Nat)
    (d : DS2482 C) (w : Nat) (hbusy : d.s.status &&& DS2482_STATUS_1WB = 0) :
    (d.s.pending_cmd = DS2482_CMD_SET_READ_PTR →
      ds2482_tx k n d w = some (0, { d with s := { d.s with pointer := w, pending_cmd := 0 } })) ∧
    (d.s.pending_cmd = DS2482_CMD_WRITE_CONFIG →
      ds2482_tx k n d w = some (0, { d with s := { d.s with config := w, pending_cmd := 0,
                                                            pointer := DS2482_REG_CONFIG } })) ∧
    (∀ bus r bus1 s1, d.w1_busses[d.s.channel]? = some bus →
      w1_bus_send_to_clients k bus w d.s = some (r, bus1, s1) →
      ((d.s.pending_cmd = DS2482_CMD_1WIRE_SINGLE_BIT ∨
          d.s.pending_cmd = DS2482_CMD_1WIRE_WRITE_BYTE) →
        ds2482_tx k n d w = some (0,
          { s := { s1 with pending_cmd := 0, pointer := DS2482_REG_STATUS },
            w1_busses := d.w1_busses.set d.s.channel bus1 })) ∧
      (d.s.pending_cmd = DS2482_CMD_1WIRE_TRIPLET →
        ds2482_tx k n d w = some (0,
          { s := { s1 with pending_cmd := 0, pointer := DS2482_REG_STATUS, triplet_mode := 1 },
            w1_busses := d.w1_busses.set d.s.channel bus1 }))) := by
  refine ⟨?_, ?_, ?_⟩
  · intro h
    exact tx_set_read_ptr_payload k n d w h
  · intro h
    simp [ds2482_tx, h, ds2482_write_config, hbusy]
  · intro bus r bus1 s1 hb hs
    refine ⟨?_, ?_⟩
    · rintro (h | h)
      · simp [ds2482_tx, h, ds2482_write_bit, hbusy, ds2482_broadcast, hb, hs]
      · simp [ds2482_tx, h, ds2482_write_byte, hbusy, ds2482_broadcast, hb, hs]
    · intro h
      simp [ds2482_tx, h, ds2482_write_triplet, hbusy, ds2482_broadcast, hb, hs]

/-- Witness of C4: WRITE_BYTE pending, payload 0xF0 (the value of the
RESET_BRIDGE opcode) is broadcast and the sensor queues its ROM. -/
theorem C4_payload_not_opcode_witness :
    regs_realized.status &&& DS2482_STATUS_1WB = 0 ∧
    ds2482_tx ds18b20_on_ds2482 1
        { bridge_idle with s := { regs_realized with pending_cmd := DS2482_CMD_1WIRE_WRITE_BYTE } }
        0xF0
      = some (0, { s := { regs_realized with pointer := DS2482_REG_STATUS },
                   w1_busses := [some { master := true, clients := [sensor_searching] }] }) :=
  ⟨by decide,
   ((C4_payload_not_opcode ds18b20_on_ds2482 1
      { bridge_idle with s := { regs_realized with pending_cmd := DS2482_CMD_1WIRE_WRITE_BYTE } }
      0xF0 (by decide)).2.2
      (some { master := true, clients := [sensor_2500] }) 0
      (some { master := true, clients := [sensor_searching] })
      { regs_realized with pending_cmd := DS2482_CMD_1WIRE_WRITE_BYTE } rfl rfl).1 (Or.inr rfl)⟩

/-- Counterexample to C5 as stated: on the busy bridge `bridge_busy` the
write of SET_READ_POINTER (0xE1) succeeds and leaves `pending_cmd` = 0xE1,
and the write of RESET_BRIDGE (0xF0) succeeds and rewrites status, config
and the read pointer. -/
theorem C5_busy_counterexample :
    bridge_busy.s.status &&& DS2482_STATUS_1WB ≠ 0 ∧
    ds2482_tx ds18b20_on_ds2482 1 bridge_busy 0xE1
      = some (0, { bridge_busy with s := { bridge_busy.s with pending_cmd := 0xE1 } }) ∧
    ds2482_tx ds18b20_on_ds2482 1 bridge_busy 0xF0
      = some (0, { bridge_busy with s := { bridge_busy.s with status := 0x18, config := 0xF0,
                                                              pointer := 0xF0 } }) := by
  refine ⟨by decide, by decide, by decide⟩

/-- C5 (amended): with the busy bit set, let cmd be the command being
handled (the pending command, or the byte w when none is pending).  When
cmd is one of the guarded commands ONE_WIRE_RESET, WRITE_CONFIG,
ONE_WIRE_SINGLE_BIT, ONE_WIRE_WRITE_BYTE, CHANNEL_SELECT, ONE_WIRE_TRIPLET,
the write returns -1, sets `pending_cmd` to 0 and changes nothing else:
every other register and every bus and client is as before.  RESET_BRIDGE
and SET_READ_POINTER are not guarded: the first resets the registers, the
second records the opcode or stores its payload, both returning 0. -/
theorem C5_busy_guarded_commands {C : Type} (k : W1BusClientClass C DS2482State) (n : Nat)
    (d : DS2482 C) (w : Nat) (hbusy : d.s.status &&& DS2482_STATUS_1WB ≠ 0) :
    ((if d.s.pending_cmd ≠ 0 then d.s.pending_cmd else w) ∈
        [DS2482_CMD_1WIRE_RESET, DS2482_CMD_WRITE_CONFIG, DS2482_CMD_1WIRE_SINGLE_BIT,
         DS2482_CMD_1WIRE_WRITE_BYTE, DS2482_CMD_CHANNEL_SELECT, DS2482_CMD_1WIRE_TRIPLET] →
      ds2482_tx k n d w = some (-1, { d with s := { d.s with pending_cmd := 0 } })) ∧
    ((if d.s.pending_cmd ≠ 0 then d.s.pending_cmd else w) = DS2482_CMD_RESET →
      ds2482_tx k n d w = some (0, { d with s := { d.s with
        status := DS2482_STATUS_RST ||| DS2482_STATUS_LL, config := 0xF0,
        pointer := DS2482_REG_STATUS, channel := 0 } })) ∧
    (d.s.pending_cmd = 0 → w = DS2482_CMD_SET_READ_PTR →
      ds2482_tx k n d w
        = some (0, { d with s := { d.s with pending_cmd := DS2482_CMD_SET_READ_PTR } })) ∧
    (d.s.pending_cmd = DS2482_CMD_SET_READ_PTR →
      ds2482_tx k n d w = some (0, { d with s := { d.s with pointer := w, pending_cmd := 0 } })) := by
  have hb : d.s.status % 2 = 1 := by
    have h1 := Nat.and_one_is_mod d.s.status
    have h2 : d.s.status &&& 1 ≠ 0 := hbusy
    omega
  refine ⟨?_, ?_, ?_, ?_⟩
  · intro hcmd
    simp only [List.mem_cons, List.mem_singleton, List.not_mem_nil, or_false] at hcmd
    unfold ds2482_tx
    rcases hcmd with h | h | h | h | h | h <;>
      simp [h, hb, ds2482_1w_reset, ds2482_write_config, ds2482_write_bit, ds2482_write_byte,
        ds2482_channel_select, ds2482_write_triplet]
  · intro h
    unfold ds2482_tx
    simp [h, ds2482_dev_reset]
  · intro h0 hw
    simp [ds2482_tx, h0, hw, ds2482_set_read_ptr]
  · intro h
    exact tx_set_read_ptr_payload k n d w h

/-- Witness of C5 (amended): ONE_WIRE_WRITE_BYTE written to the busy bridge. -/
theorem C5_busy_guarded_commands_witness :
    bridge_busy.s.status &&& DS2482_STATUS_1WB ≠ 0 ∧
    ds2482_tx ds18b20_on_ds2482 1 bridge_busy 0xA5
      = some (-1, { bridge_busy with s := { bridge_busy.s with pending_cmd := 0 } }) :=
  ⟨by decide, (C5_busy_guarded_commands ds18b20_on_ds2482 1 bridge_busy 0xA5 (by decide)).1
    (by decide)⟩


/-- C6: a host read with the read pointer at the status register, triplet
mode set and bit cursor k < 8.  When k = 0 the buffer is first replaced by
the byte `w1_bus_read_byte` returns for the selected bus; otherwise buffer,
buses and clients are kept.  With b the bit k of the buffer: the cursor
becomes (k + 1) mod 8, status bit 7 becomes b, bit 6 becomes not b, every
other status bit is kept, triplet mode is cleared and the updated status is
returned.  A second read returns the same byte and changes nothing. -/
theorem C6_triplet_status_read {C : Type} (k : W1BusClientClass C DS2482State)
    (d : DS2482 C) (hp : d.s.pointer = DS2482_REG_STATUS) (ht : d.s.triplet_mode ≠ 0)
    (hk : d.s.buf_r_bit_idx < 8) :
    let st := fun (buf : Nat) =>
      if test_bit d.s.buf_r_bit_idx buf then set_bit 7 (clear_bit 6 d.s.status)
      else clear_bit 7 (set_bit 6 d.s.status)
    (∀ buf, (st buf).testBit 7 = buf.testBit d.s.buf_r_bit_idx ∧
        (st buf).testBit 6 = (!buf.testBit d.s.buf_r_bit_idx) ∧
        ∀ j, j ≠ 6 → j ≠ 7 → (st buf).testBit j = d.s.status.testBit j) ∧
    (d.s.buf_r_bit_idx = 0 → ∀ bus v bus1, d.w1_busses[d.s.channel]? = some bus →
      w1_bus_read_byte k bus = some (v, bus1) →
      let d2 : DS2482 C :=
        { s := { d.s with buf := v, buf_r_bit_idx := 1, status := st v, triplet_mode := 0 },
          w1_busses := d.w1_busses.set d.s.channel (some bus1) }
      ds2482_rx k d = some (st v, d2) ∧ ds2482_rx k d2 = some (st v, d2)) ∧
    (d.s.buf_r_bit_idx ≠ 0 →
      let d2 : DS2482 C :=
        { d with s := { d.s with buf_r_bit_idx := (d.s.buf_r_bit_idx + 1) % 8,
                                 status := st d.s.buf, triplet_mode := 0 } }
      ds2482_rx k d = some (st d.s.buf, d2) ∧ ds2482_rx k d2 = some (st d.s.buf, d2)) := by
  intro st
  refine ⟨?_, ?_, ?_⟩
  · intro buf
    exact triplet_status_bits (test_bit d.s.buf_r_bit_idx buf) d.s.status
  · intro h0 bus v bus1 hb hr d2
    refine ⟨?_, ?_⟩
    · simp [ds2482_rx, hp, ds2482_rx_status, ht, h0, ds2482_fetch, hb, hr, d2, st]
    · have : ds2482_rx k d2 = ds2482_rx_status k d2 := by simp [ds2482_rx, d2, hp]
      rw [this]
      exact rx_status_idle k d2 rfl
  · intro h0 d2
    refine ⟨?_, ?_⟩
    · have hlt : d.s.buf_r_bit_idx + 1 < 256 := by omega
      simp [ds2482_rx, hp, ds2482_rx_status, ht, h0, hk, d2, st, Nat.mod_eq_of_lt hlt]
    · have : ds2482_rx k d2 = ds2482_rx_status k d2 := by simp [ds2482_rx, d2, hp]
      rw [this]
      exact rx_status_idle k d2 rfl

/-- Witness of C6 at `bridge_armed`: the cursor is 0, the first ROM byte 0x28
is fetched, its bit 0 is 0, so the status 0x18 becomes 0x58. -/
theorem C6_triplet_status_read_witness :
    bridge_armed.s.pointer = DS2482_REG_STATUS ∧ bridge_armed.s.triplet_mode ≠ 0 ∧
    bridge_armed.s.buf_r_bit_idx < 8 ∧
    ds2482_rx ds18b20_on_ds2482 bridge_armed
      = some (0x58,
          { s := { bridge_armed.s with buf := 0x28, buf_r_bit_idx := 1, status := 0x58,
                                       triplet_mode := 0 },
            w1_busses := [some { master := true, clients :=
              [{ sensor_searching with read_p := ReadPtr.serial 1, read_len := 7 }] }] }) :=
  ⟨by decide, by decide, by decide,
   ((C6_triplet_status_read ds18b20_on_ds2482 bridge_armed (by decide) (by decide) (by decide)).2.1
      rfl (some { master := true, clients := [sensor_searching] }) 0x28
      { master := true, clients :=
          [{ sensor_searching with read_p := ReadPtr.serial 1, read_len := 7 }] } rfl rfl).1⟩


/-! ## The triplet search -/

theorem list_set_same {α : Type} (l : List α) (i : Nat) (x : α) (h : l[i]? = some x) :
    l.set i x = l := by
  induction l generalizing i with
  | nil => rfl
  | cons a as ih =>
    cases i with
    | zero =>
      simp at h
      simp [h]
    | succ j =>
      simp at h
      simp [ih j h]

theorem list_getElem?_set_same {α : Type} (l : List α) (i : Nat) (x y : α)
    (h : l[i]? = some x) : (l.set i y)[i]? = some y := by
  induction l generalizing i with
  | nil => simp at h
  | cons a as ih =>
    cases i with
    | zero => simp
    | succ j =>
      simp at h
      simpa using ih j h

/-- The sensor ignores the DATA bytes 0x00 and 0x80. -/
theorem ds18b20_tx_ignored {M : Type} (mr : M → M) (c : DS18B20State) (p : Nat)
    (master : Bool) (m : M) (hp : p = 0 ∨ p = 0x80) :
    ds18b20_tx mr c w1_message.W1_DATA p master m = some (0, c, m) := by
  rcases hp with h | h <;> subst h <;> rfl

theorem write_clients_ignored {M : Type} (mr : M → M) (p : Nat) (master : Bool)
    (hp : p = 0 ∨ p = 0x80) : ∀ (cs : List DS18B20State) (ret : Int) (m : M),
    w1_bus_write_clients (ds18b20_class mr) w1_message.W1_DATA p master cs ret m
      = some (ret, cs, m) := by
  intro cs
  induction cs with
  | nil => intro ret m; rfl
  | cons c cs ih =>
    intro ret m
    have h1 : (ds18b20_class mr).send c w1_message.W1_DATA p master m = some (0, c, m) :=
      ds18b20_tx_ignored mr c p master m hp
    simp [w1_bus_write_clients, h1, ih]

theorem broadcast_ignored (d : DS2482 DS18B20State) (p : Nat) (b : W1BusState DS18B20State)
    (hp : p = 0 ∨ p = 0x80) (hb : d.w1_busses[d.s.channel]? = some (some b)) :
    ds2482_broadcast ds18b20_on_ds2482 d p = some d := by
  have h1 := write_clients_ignored ds2482_w1_bus_master_tx_reset p b.master hp b.clients 0 d.s
  have h2 : w1_bus_send_to_clients ds18b20_on_ds2482 (some b) p d.s = some (0, some b, d.s) := by
    simp [w1_bus_send_to_clients, w1_bus_write, ds18b20_on_ds2482, h1]
  simp [ds2482_broadcast, hb, h2, list_set_same _ _ _ hb]

/-- A triplet step on an Idle, not busy bridge whose sensors ignore the
payload is the status read in triplet mode. -/
theorem triplet_pair_eq (n : Nat) (d : DS2482 DS18B20State) (p : Nat)
    (b : W1BusState DS18B20State) (hp : p = 0 ∨ p = 0x80)
    (hb : d.w1_busses[d.s.channel]? = some (some b))
    (hidle : d.s.pending_cmd = 0) (hbusy : d.s.status % 2 = 0) :
    ds2482_triplet_pair ds18b20_on_ds2482 n d p
      = ds2482_rx_status ds18b20_on_ds2482
          { d with s := { d.s with pointer := DS2482_REG_STATUS, triplet_mode := 1 } } := by
  have h1 : ds2482_tx ds18b20_on_ds2482 n d DS2482_CMD_1WIRE_TRIPLET
      = some (0, { d with s := { d.s with pending_cmd := DS2482_CMD_1WIRE_TRIPLET } }) := by
    simp [ds2482_tx, hidle, ds2482_write_triplet, hbusy]
  have h2 : ds2482_tx ds18b20_on_ds2482 n
      { d with s := { d.s with pending_cmd := DS2482_CMD_1WIRE_TRIPLET } } p
      = some (0, { d with s := { d.s with pointer := DS2482_REG_STATUS, pending_cmd := 0,
                                          triplet_mode := 1 } }) := by
    have hbc := broadcast_ignored
      { d with s := { d.s with pending_cmd := DS2482_CMD_1WIRE_TRIPLET } } p b hp hb
    simp [ds2482_tx, ds2482_write_triplet, hbusy, hbc]
  have h3 : ({ d with s := { d.s with pointer := DS2482_REG_STATUS, pending_cmd := 0,
                                      triplet_mode := 1 } } : DS2482 DS18B20State)
      = { d with s := { d.s with pointer := DS2482_REG_STATUS, triplet_mode := 1 } } := by
    simp [← hidle]
  simp only [ds2482_triplet_pair, h1, h2, h3]
  simp [ds2482_rx]

theorem readptr_add_ne_null (p : ReadPtr) (j : Nat) (h : p ≠ ReadPtr.null) :
    p.add j ≠ ReadPtr.null := by
  cases p <;> simp_all [ReadPtr.add]

theorem readptr_add_next (p : ReadPtr) (j : Nat) : (p.add j).next = p.add (j + 1) := by
  cases p <;> simp [ReadPtr.add, ReadPtr.next, Nat.add_assoc]

theorem readptr_add_zero (p : ReadPtr) : p.add 0 = p := by
  cases p <;> rfl

/-- Reading a sensor that has `j` of its queued bytes consumed and more left
returns queued byte `j` and consumes it. -/
theorem rx_after_reads (c : DS18B20State) (j : Nat) (hp : c.read_p ≠ ReadPtr.null)
    (hj : j < c.read_len) (hlen : c.read_len < 256) :
    ds18b20_rx (ds18b20_after_reads c j) = (ds18b20_queued c j, ds18b20_after_reads c (j + 1)) := by
  have h1 : c.read_p.add j ≠ ReadPtr.null := readptr_add_ne_null _ _ hp
  have h2 : c.read_len - j > 0 := by omega
  have h3 : (c.read_len - j + 255) % 256 = c.read_len - (j + 1) := by omega
  unfold ds18b20_rx ds18b20_after_reads
  simp only [ne_eq, h1, not_false_eq_true, if_true, h2, h3, readptr_add_next]
  rfl

theorem triplet_status_mod_two (b : Bool) (status : Nat) :
    (if b then set_bit 7 (clear_bit 6 status) else clear_bit 7 (set_bit 6 status)) % 2
      = status % 2 := by
  have h := (triplet_status_bits b status).2.2 0 (by decide) (by decide)
  simp only [Nat.testBit_zero] at h
  have := Nat.mod_two_eq_zero_or_one status
  have := Nat.mod_two_eq_zero_or_one
    (if b then set_bit 7 (clear_bit 6 status) else clear_bit 7 (set_bit 6 status))
  rcases this with h1 | h1 <;> rcases ‹status % 2 = 0 ∨ status % 2 = 1› with h2 | h2 <;>
    simp_all

/-- One triplet step from a state satisfying `triplet_inv` at step `i`, with
a queued byte still covering bit `i`. -/
theorem triplet_step (n ch : Nat) (master : Bool) (c : DS18B20State) (i : Nat)
    (d : DS2482 DS18B20State) (p : Nat) (hinv : triplet_inv ch master c i d)
    (hi : i < 8 * c.read_len) (hlen : c.read_len < 256) (hptr : c.read_p ≠ ReadPtr.null)
    (hp : p = 0 ∨ p = 0x80) :
    ∃ v d1, ds2482_triplet_pair ds18b20_on_ds2482 n d p = some (v, d1) ∧
      triplet_inv ch master c (i + 1) d1 ∧
      v.testBit 7 = (ds18b20_queued c (i / 8)).testBit (i % 8) ∧
      v.testBit 6 = !(ds18b20_queued c (i / 8)).testBit (i % 8) := by
  obtain ⟨hpend, hbusy, htrip, hidx, hch, hbuf, hbus⟩ := hinv
  have hbus1 : d.w1_busses[d.s.channel]? =
      some (some { master := master, clients := [ds18b20_after_reads c ((i + 7) / 8)] }) := by
    rw [hch]; exact hbus
  rw [triplet_pair_eq n d p _ hp hbus1 hpend hbusy]
  by_cases h0 : i % 8 = 0
  · -- the cursor is 0: a byte is fetched from the bus
    have hj : (i + 7) / 8 = i / 8 := by omega
    have hj1 : (i + 1 + 7) / 8 = i / 8 + 1 := by omega
    have hjl : i / 8 < c.read_len := by omega
    have hread : w1_bus_read_byte ds18b20_on_ds2482
        (some { master := master, clients := [ds18b20_after_reads c ((i + 7) / 8)] })
        = some (ds18b20_queued c (i / 8),
            { master := master, clients := [ds18b20_after_reads c (i / 8 + 1)] }) := by
      have hd : ds18b20_has_valid_data (ds18b20_after_reads c (i / 8)) = true := by
        simp [ds18b20_has_valid_data, ds18b20_after_reads]; omega
      simp [w1_bus_read_byte, w1_bus_read_byte_clients, ds18b20_on_ds2482, ds18b20_class, hj, hd,
        rx_after_reads c (i / 8) hptr hjl hlen]
    have hrx := rx_status_armed_fetch ds18b20_on_ds2482
      { d with s := { d.s with pointer := DS2482_REG_STATUS, triplet_mode := 1 } }
      _ _ _ (by simp) (by simp [hidx, h0]) hbus1 hread
    refine ⟨_, _, hrx, ?_, ?_, ?_⟩
    · refine ⟨hpend, ?_, rfl, ?_, hch, ?_, ?_⟩
      · simp only [triplet_status_mod_two]; exact hbusy
      · show 1 = (i + 1) % 8
        omega
      · intro _
        have : (i + 1) / 8 = i / 8 := by omega
        rw [this]
      · have := list_getElem?_set_same d.w1_busses d.s.channel _
          (some ({ master := master, clients := [ds18b20_after_reads c (i / 8 + 1)] } :
            W1BusState DS18B20State)) hbus1
        rw [hch] at this
        dsimp only
        rw [hch, hj1]
        exact this
    · have := (triplet_status_bits (test_bit 0 (ds18b20_queued c (i / 8))) d.s.status).1
      rw [h0]; exact this
    · have := (triplet_status_bits (test_bit 0 (ds18b20_queued c (i / 8))) d.s.status).2.1
      rw [h0]; exact this
  · -- the cursor is inside a byte: the buffer is used as is
    have hj1 : (i + 1 + 7) / 8 = (i + 7) / 8 := by omega
    have hlt : d.s.buf_r_bit_idx < 8 := by rw [hidx]; exact Nat.mod_lt _ (by norm_num)
    have hne : d.s.buf_r_bit_idx ≠ 0 := by rw [hidx]; exact h0
    have hrx := rx_status_armed_keep ds18b20_on_ds2482
      { d with s := { d.s with pointer := DS2482_REG_STATUS, triplet_mode := 1 } }
      (by simp) hne hlt
    refine ⟨_, _, hrx, ?_, ?_, ?_⟩
    · refine ⟨hpend, ?_, rfl, ?_, hch, ?_, ?_⟩
      · simp only [triplet_status_mod_two]; exact hbusy
      · show (d.s.buf_r_bit_idx + 1) % 8 = (i + 1) % 8
        rw [hidx]; omega
      · intro _
        have : (i + 1) / 8 = i / 8 := by omega
        rw [this]
        exact hbuf h0
      · rw [hj1]; exact hbus
    · have := (triplet_status_bits (test_bit d.s.buf_r_bit_idx d.s.buf) d.s.status).1
      rw [hbuf h0, hidx] at this
      dsimp only
      rw [hbuf h0, hidx]
      exact this
    · have := (triplet_status_bits (test_bit d.s.buf_r_bit_idx d.s.buf) d.s.status).2.1
      rw [hbuf h0, hidx] at this
      dsimp only
      rw [hbuf h0, hidx]
      exact this

/-- A run of triplet steps from a state satisfying `triplet_inv` at step `i`. -/
theorem triplet_run_from (n ch : Nat) (master : Bool) (c : DS18B20State)
    (hlen : c.read_len < 256) (hptr : c.read_p ≠ ReadPtr.null) :
    ∀ (ps : List Nat) (i : Nat) (d : DS2482 DS18B20State), triplet_inv ch master c i d →
      i + ps.length ≤ 8 * c.read_len → (∀ p ∈ ps, p = 0 ∨ p = 0x80) →
      ∃ vs d1, ds2482_triplet_run ds18b20_on_ds2482 n d ps = some (vs, d1) ∧
        triplet_inv ch master c (i + ps.length) d1 ∧ vs.length = ps.length ∧
        ∀ j, j < ps.length →
          (vs.getD j 0).testBit 7 = (ds18b20_queued c ((i + j) / 8)).testBit ((i + j) % 8) ∧
          (vs.getD j 0).testBit 6 = !(ds18b20_queued c ((i + j) / 8)).testBit ((i + j) % 8) := by
  intro ps
  induction ps with
  | nil =>
    intro i d hinv _ _
    exact ⟨[], d, rfl, hinv, rfl, fun j hj => absurd hj (Nat.not_lt_zero _)⟩
  | cons p ps ih =>
    intro i d hinv hcount hps
    have hcount1 : i + (ps.length + 1) ≤ 8 * c.read_len := hcount
    obtain ⟨v, d1, hpair, hinv1, hb7, hb6⟩ :=
      triplet_step n ch master c i d p hinv (by omega) hlen hptr
        (hps p (List.mem_cons_self _ _))
    obtain ⟨vs, d2, hrun, hinv2, hl, hbits⟩ :=
      ih (i + 1) d1 hinv1 (by omega) (fun q hq => hps q (List.mem_cons_of_mem _ hq))
    refine ⟨v :: vs, d2, ?_, ?_, ?_, ?_⟩
    · simp [ds2482_triplet_run, hpair, hrun]
    · have : i + (p :: ps).length = i + 1 + ps.length := by simp; omega
      rw [this]; exact hinv2
    · simp [hl]
    · intro j hj
      cases j with
      | zero => exact ⟨hb7, hb6⟩
      | succ j =>
        have hj1 : j < ps.length := by simpa using hj
        have := hbits j hj1
        have he : i + 1 + j = i + (j + 1) := by omega
        rw [he] at this
        simpa using this

/-- C7: on an Idle, not busy bridge with triplet mode clear and bit cursor
0 whose selected bus holds one sensor with n queued bytes, every run of at
most 8n triplet steps (opcode 0x78, a payload 0x00 or 0x80, one read)
returns: the i-th byte read has its direction bit (bit 7) equal to bit
i mod 8 of queued byte i div 8 and its second-bit flag (bit 6) equal to the
complement, and after m steps the sensor has been read exactly
ceil(m / 8) times, once at each step whose index is a multiple of 8.  With
the single byte 0xB4 queued the eight direction bits are 0,0,1,0,1,1,0,1
and the ninth step fetches again, receiving 0 from the exhausted bus. -/
theorem C7_triplet_search (n : Nat) (d : DS2482 DS18B20State) (master : Bool)
    (c : DS18B20State) (ps : List Nat)
    (hidle : d.s.pending_cmd = 0) (hbusy : d.s.status &&& DS2482_STATUS_1WB = 0)
    (htrip : d.s.triplet_mode = 0) (hidx : d.s.buf_r_bit_idx = 0)
    (hbus : d.w1_busses[d.s.channel]? = some (some { master := master, clients := [c] }))
    (hptr : c.read_p ≠ ReadPtr.null) (hlen : c.read_len < 256)
    (hps : ∀ p ∈ ps, p = 0x00 ∨ p = 0x80) (hcount : ps.length ≤ 8 * c.read_len) :
    (∃ vs d1, ds2482_triplet_run ds18b20_on_ds2482 n d ps = some (vs, d1) ∧
      vs.length = ps.length ∧
      (∀ i, i < ps.length →
        (vs.getD i 0).testBit 7 = (ds18b20_queued c (i / 8)).testBit (i % 8) ∧
        (vs.getD i 0).testBit 6 = !(ds18b20_queued c (i / 8)).testBit (i % 8)) ∧
      d1.w1_busses[d.s.channel]? = some (some { master := master, clients :=
        [ds18b20_after_reads c ((ps.length + 7) / 8)] })) ∧
    ds2482_triplet_run ds18b20_on_ds2482 1 bridge_one_byte [0, 0x80, 0, 0, 0x80, 0, 0, 0]
      = some ([0x40, 0x40, 0x80, 0x40, 0x80, 0x80, 0x40, 0x80],
          { s := { regs_realized with pointer := 0xF0, buf := 0xB4, status := 0x80 },
            w1_busses := [some { master := true, clients :=
              [{ sensor_last_rom_byte with read_p := ReadPtr.serial 8, read_len := 0 }] }] }) ∧
    ds2482_triplet_pair ds18b20_on_ds2482 1
        { s := { regs_realized with pointer := 0xF0, buf := 0xB4, status := 0x80 },
          w1_busses := [some { master := true, clients :=
            [{ sensor_last_rom_byte with read_p := ReadPtr.serial 8, read_len := 0 }] }] } 0
      = some (0x40,
          { s := { regs_realized with pointer := 0xF0, buf := 0, buf_r_bit_idx := 1,
                                      status := 0x40 },
            w1_busses := [some { master := true, clients :=
              [{ sensor_last_rom_byte with read_p := ReadPtr.serial 8, read_len := 0 }] }] }) := by
  refine ⟨?_, by decide, by decide⟩
  have hb2 : d.s.status % 2 = 0 := by
    have h1 := Nat.and_one_is_mod d.s.status
    have h2 : d.s.status &&& 1 = 0 := hbusy
    omega
  have hc0 : ds18b20_after_reads c ((0 + 7) / 8) = c := by
    simp [ds18b20_after_reads, readptr_add_zero]
  have hinv : triplet_inv d.s.channel master c 0 d := by
    refine ⟨hidle, hb2, htrip, hidx, rfl, fun h => absurd rfl h, ?_⟩
    rw [hc0]; exact hbus
  obtain ⟨vs, d1, hrun, hinv1, hl, hbits⟩ :=
    triplet_run_from n d.s.channel master c hlen hptr ps 0 d hinv (by omega) hps
  refine ⟨vs, d1, hrun, hl, ?_, ?_⟩
  · intro i hi
    have := hbits i hi
    simpa using this
  · have := hinv1.2.2.2.2.2.2
    simpa using this

/-- Witness of C7 at `bridge_one_byte`, whose sensor has the one byte 0xB4
queued, with eight payloads. -/
theorem C7_triplet_search_witness :
    bridge_one_byte.s.pending_cmd = 0 ∧
    bridge_one_byte.s.status &&& DS2482_STATUS_1WB = 0 ∧
    sensor_last_rom_byte.read_p ≠ ReadPtr.null ∧
    [0, 0x80, 0, 0, 0x80, 0, 0, 0].length ≤ 8 * sensor_last_rom_byte.read_len ∧
    ∃ vs d1, ds2482_triplet_run ds18b20_on_ds2482 1 bridge_one_byte [0, 0x80, 0, 0, 0x80, 0, 0, 0]
        = some (vs, d1) ∧
      vs.length = 8 ∧
      (∀ i, i < 8 →
        (vs.getD i 0).testBit 7 = (ds18b20_queued sensor_last_rom_byte (i / 8)).testBit (i % 8) ∧
        (vs.getD i 0).testBit 6 = !(ds18b20_queued sensor_last_rom_byte (i / 8)).testBit (i % 8)) ∧
      d1.w1_busses[0]? = some (some { master := true, clients :=
        [ds18b20_after_reads sensor_last_rom_byte 1] }) :=
  ⟨by decide, by decide, by decide, by decide,
   (C7_triplet_search 1 bridge_one_byte true sensor_last_rom_byte [0, 0x80, 0, 0, 0x80, 0, 0, 0]
      (by decide) (by decide) (by decide) (by decide) rfl (by decide) (by decide)
      (by decide) (by decide)).1⟩


/-! ## Reading from the bus -/

theorem read_byte_clients_none {C M : Type} (k : W1BusClientClass C M) :
    ∀ cs : List C, (∀ p ∈ cs, k.has_data p = false) →
      w1_bus_read_byte_clients k cs = (0, cs) := by
  intro cs
  induction cs with
  | nil => intro _; rfl
  | cons c cs ih =>
    intro h
    have hc : k.has_data c = false := h c (List.mem_cons_self _ _)
    have hcs := ih (fun p hp => h p (List.mem_cons_of_mem _ hp))
    simp [w1_bus_read_byte_clients, hc, hcs]

theorem read_byte_clients_first {C M : Type} (k : W1BusClientClass C M) (c : C)
    (post : List C) (hc : k.has_data c = true) :
    ∀ pre : List C, (∀ p ∈ pre, k.has_data p = false) →
      w1_bus_read_byte_clients k (pre ++ c :: post)
        = ((k.recv c).1, pre ++ (k.recv c).2 :: post) := by
  intro pre
  induction pre with
  | nil => intro _; simp [w1_bus_read_byte_clients, hc]
  | cons a pre ih =>
    intro h
    have ha : k.has_data a = false := h a (List.mem_cons_self _ _)
    have hpre := ih (fun p hp => h p (List.mem_cons_of_mem _ hp))
    simp [w1_bus_read_byte_clients, ha, hpre]

/-- C8: `w1_bus_read_byte` on a bus of sensors.  When the earliest attached
sensor reporting data is c (the only one, or the first of several), the byte
returned is the one at c's read cursor, c's remaining count drops by one and
its cursor advances, and every other sensor, before or after c, is left as
it was.  When no sensor reports data (the empty bus included) the result is
0 and no sensor changes. -/
theorem C8_read_byte_arbitration {M : Type} (mr : M → M) (master : Bool) :
    (∀ (pre post : List DS18B20State) (c : DS18B20State),
      (∀ p ∈ pre, ds18b20_has_valid_data p = false) →
      ds18b20_has_valid_data c = true → c.read_p ≠ ReadPtr.null → c.read_len < 256 →
      w1_bus_read_byte (ds18b20_class mr) (some { master := master, clients := pre ++ c :: post })
        = some (ds18b20_deref c c.read_p,
            { master := master,
              clients := pre ++ { c with read_p := c.read_p.next,
                                         read_len := c.read_len - 1 } :: post })) ∧
    (∀ cs : List DS18B20State, (∀ p ∈ cs, ds18b20_has_valid_data p = false) →
      w1_bus_read_byte (ds18b20_class mr) (some { master := master, clients := cs })
        = some (0, { master := master, clients := cs })) := by
  refine ⟨?_, ?_⟩
  · intro pre post c hpre hc hptr hlen
    have hpos : c.read_len > 0 := by simpa [ds18b20_has_valid_data] using hc
    have hdec : (c.read_len + 255) % 256 = c.read_len - 1 := by omega
    have hrx : ds18b20_rx c = (ds18b20_deref c c.read_p,
        { c with read_p := c.read_p.next, read_len := c.read_len - 1 }) := by
      simp [ds18b20_rx, hptr, hpos, hdec]
    have := read_byte_clients_first (ds18b20_class mr) c post hc pre hpre
    simp only [w1_bus_read_byte, this]
    simp [ds18b20_class, hrx]
  · intro cs h
    have := read_byte_clients_none (ds18b20_class mr) cs h
    simp [w1_bus_read_byte, this]

/-- Witness of C8: of three sensors the first has nothing queued, the second
has its ROM queued and the third one byte; the byte comes from the second. -/
theorem C8_read_byte_arbitration_witness :
    ds18b20_has_valid_data sensor_searching = true ∧
    w1_bus_read_byte (ds18b20_class ds2482_w1_bus_master_tx_reset)
        (some { master := true,
                clients := [sensor_2500, sensor_searching, sensor_last_rom_byte] })
      = some (0x28, { master := true, clients :=
          [sensor_2500, { sensor_searching with read_p := ReadPtr.serial 1, read_len := 7 },
           sensor_last_rom_byte] }) :=
  ⟨by decide,
   (C8_read_byte_arbitration ds2482_w1_bus_master_tx_reset true).1 [sensor_2500]
      [sensor_last_rom_byte] sensor_searching (by decide) (by decide) (by decide) (by decide)⟩


/-! ## Reading from the sensor -/

theorem after_reads_after_reads (c : DS18B20State) (i j : Nat) :
    ds18b20_after_reads (ds18b20_after_reads c i) j = ds18b20_after_reads c (i + j) := by
  have h : (c.read_p.add i).add j = c.read_p.add (i + j) := by
    cases c.read_p <;> simp [ReadPtr.add, Nat.add_assoc]
  simp [ds18b20_after_reads, h, Nat.sub_sub]

/-- While bytes are queued, `j` reads return the next `j` queued bytes. -/
theorem rx_n_after_reads (c : DS18B20State) (hp : c.read_p ≠ ReadPtr.null)
    (hlen : c.read_len < 256) : ∀ (j i : Nat), i + j ≤ c.read_len →
    ds18b20_rx_n j (ds18b20_after_reads c i)
      = ((List.range j).map (fun t => ds18b20_queued c (i + t)), ds18b20_after_reads c (i + j)) := by
  intro j
  induction j with
  | zero => intro i _; rfl
  | succ j ih =>
    intro i h
    have h1 := rx_after_reads c i hp (by omega) hlen
    have h2 := ih (i + 1) (by omega)
    simp only [ds18b20_rx_n, h1, h2, List.range_succ_eq_map, List.map_cons, List.map_map]
    refine Prod.ext ?_ ?_
    · simp only [Nat.add_zero, List.cons.injEq, true_and]
      apply List.map_congr_left
      intro t _
      simp only [Function.comp]
      congr 1
      omega
    · simp only
      congr 1
      omega

theorem after_reads_zero (c : DS18B20State) : ds18b20_after_reads c 0 = c := by
  simp [ds18b20_after_reads, readptr_add_zero]

theorem list_length_eight {α : Type} (l : List α) (h : l.length = 8) :
    ∃ a0 a1 a2 a3 a4 a5 a6 a7, l = [a0, a1, a2, a3, a4, a5, a6, a7] := by
  match l, h with
  | [a0, a1, a2, a3, a4, a5, a6, a7], _ => exact ⟨a0, a1, a2, a3, a4, a5, a6, a7, rfl⟩

/-- A read changes nothing but the read cursor. -/
theorem rx_keeps_arrays (c : DS18B20State) :
    (ds18b20_rx c).2.serial = c.serial ∧ (ds18b20_rx c).2.scratchpad = c.scratchpad ∧
    (ds18b20_rx c).2.temperature = c.temperature := by
  unfold ds18b20_rx
  by_cases h1 : c.read_p = ReadPtr.null
  · simp [h1]
  · by_cases h2 : c.read_len > 0
    · simp [h1, h2]
    · simp [h1, h2]

theorem rx_n_keeps_arrays : ∀ (j : Nat) (c : DS18B20State),
    (ds18b20_rx_n j c).2.serial = c.serial ∧ (ds18b20_rx_n j c).2.scratchpad = c.scratchpad ∧
    (ds18b20_rx_n j c).2.temperature = c.temperature := by
  intro j
  induction j with
  | zero => intro c; exact ⟨rfl, rfl, rfl⟩
  | succ j ih =>
    intro c
    have h1 := rx_keeps_arrays c
    have h2 := ih (ds18b20_rx c).2
    simp only [ds18b20_rx_n]
    exact ⟨h2.1.trans h1.1, h2.2.1.trans h1.2.1, h2.2.2.trans h1.2.2⟩

/-- The three read commands overwrite the read cursor: their result does
not depend on how many bytes were read before. -/
theorem tx_read_cmd_after_rx_n {M : Type} (mr : M → M) (c : DS18B20State) (j cmd : Nat)
    (master : Bool) (m : M)
    (hcmd : cmd = DS18B20_ROM_CMD_SEARCH_ROM ∨ cmd = DS18B20_FUN_CMD_READ_SCRATCH ∨
      cmd = DS18B20_FUN_CMD_READ_POWER) :
    ds18b20_tx mr (ds18b20_rx_n j c).2 w1_message.W1_DATA cmd master m
      = ds18b20_tx mr c w1_message.W1_DATA cmd master m := by
  obtain ⟨h1, h2, h3⟩ := rx_n_keeps_arrays j c
  rcases hcmd with h | h | h <;> subst h <;>
    simp [ds18b20_tx, h1, h2, h3]

/-- C9: for a sensor with its 8-byte ROM and 9-byte scratchpad, SEARCH_ROM
(0xF0) queues the ROM: eight reads return serial[0..7] in order;
READ_SCRATCHPAD (0xBE) queues the scratchpad: nine reads return
scratchpad[0..8] in order; READ_POWER_SUPPLY (0xB4) queues one byte and the
read returns 0xFF.  `has_data` holds before each of these reads and fails
after the last.  A further read command issued after any number of reads
gives the same state as if no read had happened: the cursor is set to the
first byte of the new segment and the old remainder is dropped. -/
theorem C9_read_segments {M : Type} (mr : M → M) (s : DS18B20State) (master : Bool) (m : M)
    (hser : s.serial.length = 8) (hsp : s.scratchpad.length = 9) :
    let rom : DS18B20State := { s with read_p := ReadPtr.serial 0, read_len := 8 }
    let pad : DS18B20State := { s with read_p := ReadPtr.scratchpad 0, read_len := 9 }
    let pwr : DS18B20State := { s with scratchpad := s.scratchpad.set 0 0xFF,
                                       read_p := ReadPtr.scratchpad 0, read_len := 1 }
    (ds18b20_tx mr s w1_message.W1_DATA DS18B20_ROM_CMD_SEARCH_ROM master m = some (0, rom, m) ∧
      (ds18b20_rx_n 8 rom).1 = s.serial ∧
      (∀ j, j < 8 → ds18b20_has_valid_data (ds18b20_rx_n j rom).2 = true) ∧
      ds18b20_has_valid_data (ds18b20_rx_n 8 rom).2 = false) ∧
    (ds18b20_tx mr s w1_message.W1_DATA DS18B20_FUN_CMD_READ_SCRATCH master m = some (0, pad, m) ∧
      (ds18b20_rx_n 9 pad).1 = s.scratchpad ∧
      (∀ j, j < 9 → ds18b20_has_valid_data (ds18b20_rx_n j pad).2 = true) ∧
      ds18b20_has_valid_data (ds18b20_rx_n 9 pad).2 = false) ∧
    (ds18b20_tx mr s w1_message.W1_DATA DS18B20_FUN_CMD_READ_POWER master m = some (0, pwr, m) ∧
      (ds18b20_rx_n 1 pwr).1 = [0xFF] ∧
      ds18b20_has_valid_data pwr = true ∧
      ds18b20_has_valid_data (ds18b20_rx_n 1 pwr).2 = false) ∧
    (∀ (j : Nat) (c0 : DS18B20State), c0 = rom ∨ c0 = pad →
      ds18b20_tx mr (ds18b20_rx_n j c0).2 w1_message.W1_DATA DS18B20_ROM_CMD_SEARCH_ROM master m
        = some (0, rom, m) ∧
      ds18b20_tx mr (ds18b20_rx_n j c0).2 w1_message.W1_DATA DS18B20_FUN_CMD_READ_SCRATCH master m
        = some (0, pad, m) ∧
      ds18b20_tx mr (ds18b20_rx_n j c0).2 w1_message.W1_DATA DS18B20_FUN_CMD_READ_POWER master m
        = some (0, pwr, m)) ∧
    (∀ (j cmd : Nat) (c0 : DS18B20State),
      cmd = DS18B20_ROM_CMD_SEARCH_ROM ∨ cmd = DS18B20_FUN_CMD_READ_SCRATCH ∨
        cmd = DS18B20_FUN_CMD_READ_POWER →
      ds18b20_tx mr (ds18b20_rx_n j c0).2 w1_message.W1_DATA cmd master m
        = ds18b20_tx mr c0 w1_message.W1_DATA cmd master m) := by
  intro rom pad pwr
  obtain ⟨r0, r1, r2, r3, r4, r5, r6, r7, hs⟩ := list_length_eight s.serial hser
  obtain ⟨a0, a1, a2, a3, a4, a5, a6, a7, a8, hp⟩ := list_length_nine s.scratchpad hsp
  have hrom : ∀ j, j ≤ 8 → ds18b20_rx_n j rom
      = ((List.range j).map (fun t => ds18b20_queued rom (0 + t)), ds18b20_after_reads rom (0 + j)) := by
    intro j hj
    have := rx_n_after_reads rom (by simp [rom]) (by simp [rom]) j 0 (by simpa [rom] using hj)
    rwa [after_reads_zero] at this
  have hpad : ∀ j, j ≤ 9 → ds18b20_rx_n j pad
      = ((List.range j).map (fun t => ds18b20_queued pad (0 + t)), ds18b20_after_reads pad (0 + j)) := by
    intro j hj
    have := rx_n_after_reads pad (by simp [pad]) (by simp [pad]) j 0 (by simpa [pad] using hj)
    rwa [after_reads_zero] at this
  have hpwr : ∀ j, j ≤ 1 → ds18b20_rx_n j pwr
      = ((List.range j).map (fun t => ds18b20_queued pwr (0 + t)), ds18b20_after_reads pwr (0 + j)) := by
    intro j hj
    have := rx_n_after_reads pwr (by simp [pwr]) (by simp [pwr]) j 0 (by simpa [pwr] using hj)
    rwa [after_reads_zero] at this
  refine ⟨⟨rfl, ?_, ?_, ?_⟩, ⟨rfl, ?_, ?_, ?_⟩, ⟨rfl, ?_, ?_, ?_⟩, ?_, ?_⟩
  · rw [hrom 8 (le_refl _)]
    simp [ds18b20_queued, ds18b20_deref, ReadPtr.add, rom, hs, List.range_succ]
  · intro j hj
    rw [hrom j (by omega)]
    simp [ds18b20_has_valid_data, ds18b20_after_reads, rom]; omega
  · rw [hrom 8 (le_refl _)]
    simp [ds18b20_has_valid_data, ds18b20_after_reads, rom]
  · rw [hpad 9 (le_refl _)]
    simp [ds18b20_queued, ds18b20_deref, ReadPtr.add, pad, hp, List.range_succ]
  · intro j hj
    rw [hpad j (by omega)]
    simp [ds18b20_has_valid_data, ds18b20_after_reads, pad]; omega
  · rw [hpad 9 (le_refl _)]
    simp [ds18b20_has_valid_data, ds18b20_after_reads, pad]
  · rw [hpwr 1 (le_refl _)]
    simp [ds18b20_queued, ds18b20_deref, ReadPtr.add, pwr, hp, List.range_succ]
  · simp [ds18b20_has_valid_data, pwr]
  · rw [hpwr 1 (le_refl _)]
    simp [ds18b20_has_valid_data, ds18b20_after_reads, pwr]
  · intro j c0 hc0
    have h1 := tx_read_cmd_after_rx_n mr c0 j DS18B20_ROM_CMD_SEARCH_ROM master m (Or.inl rfl)
    have h2 := tx_read_cmd_after_rx_n mr c0 j DS18B20_FUN_CMD_READ_SCRATCH master m
      (Or.inr (Or.inl rfl))
    have h3 := tx_read_cmd_after_rx_n mr c0 j DS18B20_FUN_CMD_READ_POWER master m
      (Or.inr (Or.inr rfl))
    rw [h1, h2, h3]
    rcases hc0 with h | h <;> subst h <;> exact ⟨rfl, rfl, rfl⟩
  · intro j cmd c0 hcmd
    exact tx_read_cmd_after_rx_n mr c0 j cmd master m hcmd

/-- Witness of C9 at `sensor_2500`: the eight reads after SEARCH_ROM return
its ROM. -/
theorem C9_read_segments_witness :
    sensor_2500.serial.length = 8 ∧ sensor_2500.scratchpad.length = 9 ∧
    (ds18b20_rx_n 8 { sensor_2500 with read_p := ReadPtr.serial 0, read_len := 8 }).1
      = [0x28, 0x11, 0x22, 0x33, 0x44, 0x55, 0x66, 0xB4] :=
  ⟨by decide, by decide,
   (C9_read_segments ds2482_w1_bus_master_tx_reset sensor_2500 true regs_realized
      (by decide) (by decide)).1.2.1⟩


/-- A sensor whose read cursor is NULL (nothing was ever queued) answers a
read with 0 and is unchanged. -/
theorem rx_null_unchanged (c : DS18B20State) (h : c.read_p = ReadPtr.null) :
    ds18b20_rx c = (0, c) := by
  simp [ds18b20_rx, h]

/-- C10 fails on the code: `sensor_drained` is reached from `sensor_2500` by
READ_POWER_SUPPLY and one read, has `read_len` 0 and reports no data; a read
in that state returns 0 but decrements the `uint8_t` `read_len` to 255, so
the sensor then reports data and the next read returns scratchpad[1] with
254 bytes still counted as queued. -/
theorem C10_rx_wraps_read_len :
    (∃ c1, ds18b20_tx ds2482_w1_bus_master_tx_reset sensor_2500 w1_message.W1_DATA
        DS18B20_FUN_CMD_READ_POWER true regs_realized = some (0, c1, regs_realized) ∧
      ds18b20_rx c1 = (0xFF, sensor_drained)) ∧
    sensor_drained.read_len = 0 ∧
    ds18b20_has_valid_data sensor_drained = false ∧
    ds18b20_rx sensor_drained = (0, { sensor_drained with read_len := 255 }) ∧
    ds18b20_has_valid_data (ds18b20_rx sensor_drained).2 = true ∧
    ds18b20_rx (ds18b20_rx sensor_drained).2
      = (0, { sensor_drained with read_p := ReadPtr.scratchpad 2, read_len := 254 }) := by
  refine ⟨⟨_, rfl, by decide⟩, rfl, by decide, by decide, by decide, by decide⟩


/-! ## Supporting facts -/

set_option maxRecDepth 4000 in
/-- The ROM example of Maxim application note 27: the CRC-8 of the seven
bytes 02 1C B8 01 00 00 00 is A2. -/
theorem crc8_maxim_an27_vector :
    ds18b20_crc8 [0x02, 0x1C, 0xB8, 0x01, 0x00, 0x00, 0x00] 7 = 0xA2 := by decide

/-- A DATA message never faults in the sensor, returns 0 and leaves the
master untouched. -/
theorem ds18b20_tx_data_returns {M : Type} (mr : M → M) (c : DS18B20State) (data : Nat)
    (master : Bool) (m : M) :
    ∃ c1, ds18b20_tx mr c w1_message.W1_DATA data master m = some (0, c1, m) := by
  unfold ds18b20_tx
  simp only
  split_ifs <;> exact ⟨_, rfl⟩

/-- A DATA broadcast over sensors always returns, with the running result
and the master state unchanged and one new sensor state per sensor. -/
theorem write_clients_data_returns {M : Type} (mr : M → M) (data : Nat) (master : Bool) :
    ∀ (cs : List DS18B20State) (ret : Int) (m : M),
      ∃ cs1, w1_bus_write_clients (ds18b20_class mr) w1_message.W1_DATA data master cs ret m
          = some (ret, cs1, m) ∧ cs1.length = cs.length := by
  intro cs
  induction cs with
  | nil => intro ret m; exact ⟨[], rfl, rfl⟩
  | cons c cs ih =>
    intro ret m
    obtain ⟨c1, hc⟩ := ds18b20_tx_data_returns mr c data master m
    obtain ⟨cs1, hcs, hl⟩ := ih ret m
    have h1 : (ds18b20_class mr).send c w1_message.W1_DATA data master m = some (0, c1, m) := hc
    exact ⟨c1 :: cs1, by simp [w1_bus_write_clients, h1, hcs], by simp [hl]⟩


/-! ## ONE_WIRE_RESET -/

/-- A RESET broadcast over sensors on a bus whose master is set returns,
leaves every sensor as it is and calls the master once per sensor. -/
theorem write_clients_reset {M : Type} (mr : M → M) :
    ∀ (cs : List DS18B20State) (ret : Int) (m : M),
      w1_bus_write_clients (ds18b20_class mr) w1_message.W1_RESET 0 true cs ret m
        = some (ret, cs, mr^[cs.length] m) := by
  intro cs
  induction cs with
  | nil => intro ret m; rfl
  | cons c cs ih =>
    intro ret m
    have h1 : (ds18b20_class mr).send c w1_message.W1_RESET 0 true m = some (0, c, mr m) := rfl
    simp [w1_bus_write_clients, h1, ih]

theorem master_tx_reset_idem (s : DS2482State) :
    ds2482_w1_bus_master_tx_reset (ds2482_w1_bus_master_tx_reset s)
      = ds2482_w1_bus_master_tx_reset s := by
  have h : (s.status ||| 2) ||| 2 = s.status ||| 2 := by
    rw [Nat.or_assoc]; rfl
  simp [ds2482_w1_bus_master_tx_reset, h]

theorem master_tx_reset_iterate (s : DS2482State) :
    ∀ n : Nat, ds2482_w1_bus_master_tx_reset^[n + 1] s = ds2482_w1_bus_master_tx_reset s := by
  intro n
  induction n with
  | zero => rfl
  | succ n ih =>
    rw [Function.iterate_succ_apply', ih, master_tx_reset_idem]

theorem testBit_or_two (x j : Nat) :
    (x ||| 2).testBit j = (x.testBit j || decide (j = 1)) := by
  have h2 : (2 : Nat) = 2 ^ 1 := by norm_num
  rw [Nat.testBit_or, h2, Nat.testBit_two_pow]
  congr 1
  simp [eq_comm]

/-- The host write ONE_WIRE_RESET on an Idle, not busy bridge whose selected
bus has its master set and holds at least one sensor. -/
theorem tx_1w_reset (n : Nat) (d : DS2482 DS18B20State) (b : W1BusState DS18B20State)
    (hidle : d.s.pending_cmd = 0) (hbusy : d.s.status &&& DS2482_STATUS_1WB = 0)
    (hbus : d.w1_busses[d.s.channel]? = some (some b)) (hm : b.master = true)
    (hc : b.clients ≠ []) :
    ds2482_tx ds18b20_on_ds2482 n d DS2482_CMD_1WIRE_RESET
      = some (0, { d with s := { d.s with status := d.s.status ||| DS2482_STATUS_PPD,
                                          pointer := DS2482_REG_STATUS } }) := by
  obtain ⟨c, cs, hcs⟩ := List.exists_cons_of_ne_nil hc
  have hw := write_clients_reset ds2482_w1_bus_master_tx_reset b.clients 0 d.s
  rw [hcs, List.length_cons, master_tx_reset_iterate, ← hcs] at hw
  have hbe : ({ master := true, clients := b.clients } : W1BusState DS18B20State) = b := by
    rw [← hm]
  have hr : w1_bus_reset ds18b20_on_ds2482 (some b) d.s
      = some (0, some b, ds2482_w1_bus_master_tx_reset d.s) := by
    simp [w1_bus_reset, w1_bus_write, ds18b20_on_ds2482, hm, hw, hbe]
  have hb : d.s.status % 2 = 0 := by
    have h1 := Nat.and_one_is_mod d.s.status
    have h2 : d.s.status &&& 1 = 0 := hbusy
    omega
  simp [ds2482_tx, hidle, ds2482_1w_reset, hb, hbus, hr, list_set_same _ _ _ hbus,
    ds2482_w1_bus_master_tx_reset]

/-- C11: on an Idle, not busy bridge whose selected bus has the bridge as its
master and at least one sensor attached, the host write ONE_WIRE_RESET
(0xB4) returns 0 and sets the presence-detect bit (0x02) of the status byte
and the read pointer to the status register; `pending_cmd` stays 0, every
other status bit, every other register, every bus and every sensor is
unchanged.  The next host read returns a status byte with presence-detect
set: the status byte itself when the bridge is not in triplet mode. -/
theorem C11_one_wire_reset_presence (n : Nat) (d : DS2482 DS18B20State)
    (b : W1BusState DS18B20State)
    (hidle : d.s.pending_cmd = 0) (hbusy : d.s.status &&& DS2482_STATUS_1WB = 0)
    (hbus : d.w1_busses[d.s.channel]? = some (some b)) (hm : b.master = true)
    (hc : b.clients ≠ []) :
    let d1 : DS2482 DS18B20State :=
      { d with s := { d.s with status := d.s.status ||| DS2482_STATUS_PPD,
                               pointer := DS2482_REG_STATUS } }
    ds2482_tx ds18b20_on_ds2482 n d DS2482_CMD_1WIRE_RESET = some (0, d1) ∧
    d1.s.status.testBit 1 = true ∧
    (∀ j, j ≠ 1 → d1.s.status.testBit j = d.s.status.testBit j) ∧
    d1.s.pending_cmd = 0 ∧ d1.w1_busses = d.w1_busses ∧
    (d.s.triplet_mode = 0 →
      ds2482_rx ds18b20_on_ds2482 d1 = some (d.s.status ||| DS2482_STATUS_PPD, d1)) ∧
    (d.s.buf_r_bit_idx < 8 →
      ∃ v d3, ds2482_rx ds18b20_on_ds2482 d1 = some (v, d3) ∧ v.testBit 1 = true) := by
  intro d1
  have hrx : ds2482_rx ds18b20_on_ds2482 d1 = ds2482_rx_status ds18b20_on_ds2482 d1 := by
    simp [ds2482_rx, d1]
  have hppd : (d.s.status ||| DS2482_STATUS_PPD).testBit 1 = true := by
    rw [testBit_or_two]; simp
  refine ⟨tx_1w_reset n d b hidle hbusy hbus hm hc, hppd, ?_, hidle, rfl, ?_, ?_⟩
  · intro j hj
    show (d.s.status ||| 2).testBit j = _
    rw [testBit_or_two]; simp [hj]
  · intro ht
    rw [hrx]
    exact rx_status_idle _ d1 ht
  · intro h8
    rw [hrx]
    by_cases ht : d.s.triplet_mode = 0
    · exact ⟨_, _, rx_status_idle _ d1 ht, hppd⟩
    · by_cases h0 : d.s.buf_r_bit_idx = 0
      · refine ⟨_, _, rx_status_armed_fetch ds18b20_on_ds2482 d1 (some b) _ _ ht h0 hbus rfl, ?_⟩
        have := (triplet_status_bits
          (test_bit 0 (w1_bus_read_byte_clients ds18b20_on_ds2482 b.clients).1)
          d1.s.status).2.2 1 (by decide) (by decide)
        rw [this]; exact hppd
      · refine ⟨_, _, rx_status_armed_keep ds18b20_on_ds2482 d1 ht h0 h8, ?_⟩
        have := (triplet_status_bits (test_bit d1.s.buf_r_bit_idx d1.s.buf)
          d1.s.status).2.2 1 (by decide) (by decide)
        rw [this]; exact hppd

/-- Witness of C11 at the realized bridge `bridge_idle`: the status byte 0
becomes 0x02. -/
theorem C11_one_wire_reset_presence_witness :
    bridge_idle.s.pending_cmd = 0 ∧ bridge_idle.s.status &&& DS2482_STATUS_1WB = 0 ∧
    ds2482_tx ds18b20_on_ds2482 1 bridge_idle DS2482_CMD_1WIRE_RESET
      = some (0, { bridge_idle with s := { bridge_idle.s with status := 0x02,
                                                              pointer := 0xF0 } }) :=
  ⟨by decide, by decide,
   (C11_one_wire_reset_presence 1 bridge_idle { master := true, clients := [sensor_2500] }
      (by decide) (by decide) rfl rfl (by decide)).1⟩


/-! ## CHANNEL_SELECT and RESET_BRIDGE -/

/-- C12: on a bridge built with 8 channels, from an Idle, not busy state the
host writes CHANNEL_SELECT (0xC3) and then a payload w with (w & 0xF) = c,
c in 0..7, both return 0; afterwards the channel is c, the read pointer is
the channel-select register and `pending_cmd` is 0, nothing else having
changed, and the next host read returns the confirmation code of c.  The
codes of channels 0..7 are 0xB8, 0xB1, 0xAA, 0xA3, 0x9C, 0x95, 0x8E,
0x87. -/
theorem C12_channel_select {C : Type} (k : W1BusClientClass C DS2482State) (d : DS2482 C)
    (w c : Nat) (hidle : d.s.pending_cmd = 0) (hbusy : d.s.status &&& DS2482_STATUS_1WB = 0)
    (hc : c < 8) (hw : w &&& 0xF = c) :
    let d1 : DS2482 C := { d with s := { d.s with pending_cmd := DS2482_CMD_CHANNEL_SELECT } }
    let d2 : DS2482 C :=
      { d with s := { d.s with channel := c, pointer := DS2482_REG_CHANNEL_SELECT } }
    ds2482_tx k 8 d DS2482_CMD_CHANNEL_SELECT = some (0, d1) ∧
    ds2482_tx k 8 d1 w = some (0, d2) ∧
    d2.s.pending_cmd = 0 ∧
    ds2482_rx k d2 = some (ds2482_channel_code c, d2) ∧
    (List.range 8).map ds2482_channel_code = [0xB8, 0xB1, 0xAA, 0xA3, 0x9C, 0x95, 0x8E, 0x87] ∧
    (c = 3 → ds2482_rx k d2 = some (0xA3, d2)) := by
  intro d1 d2
  have hb : d.s.status % 2 = 0 := by
    have h1 := Nat.and_one_is_mod d.s.status
    have h2 : d.s.status &&& 1 = 0 := hbusy
    omega
  have hw15 : w &&& 15 = c := hw
  have hrx : ds2482_rx k d2 = some (ds2482_channel_code c, d2) := by
    simp [ds2482_rx, d2]
  refine ⟨?_, ?_, hidle, hrx, by decide, ?_⟩
  · simp [ds2482_tx, hidle, ds2482_channel_select, hb, d1]
  · have hd2 : d2 = { d1 with s :=
        { d1.s with channel := c, pointer := DS2482_REG_CHANNEL_SELECT, pending_cmd := 0 } } := by
      simp only [d1, d2, ← hidle]
    rw [hd2]
    simp [ds2482_tx, ds2482_channel_select, hb, d1, hw15, hc]
  · intro h3
    rw [hrx, h3]
    rfl

/-- Witness of C12: channel 3 is selected with the payload 0xD3 on
`bridge8_idle` and the read returns 0xA3. -/
theorem C12_channel_select_witness :
    bridge8_idle.s.pending_cmd = 0 ∧ bridge8_idle.s.status &&& DS2482_STATUS_1WB = 0 ∧
    (0xD3 : Nat) &&& 0xF = 3 ∧
    ds2482_rx ds18b20_on_ds2482
        { bridge8_idle with s := { bridge8_idle.s with channel := 3, pointer := 0xD2 } }
      = some (0xA3,
          { bridge8_idle with s := { bridge8_idle.s with channel := 3, pointer := 0xD2 } }) :=
  ⟨by decide, by decide, by decide,
   (C12_channel_select ds18b20_on_ds2482 bridge8_idle 0xD3 3 (by decide) (by decide)
      (by decide) (by decide)).2.2.2.2.2 rfl⟩

/-- A channel payload outside 0..7 on a bridge not built with one channel:
the write returns -1 and leaves every field, `pending_cmd` included. -/
theorem tx_channel_select_bad_payload {C : Type} (k : W1BusClientClass C DS2482State)
    (n : Nat) (d : DS2482 C) (w : Nat) (hn : n ≠ 1)
    (hbusy : d.s.status &&& DS2482_STATUS_1WB = 0)
    (hpend : d.s.pending_cmd = DS2482_CMD_CHANNEL_SELECT) (hw : ¬ (w &&& 0xF < 8)) :
    ds2482_tx k n d w = some (-1, d) := by
  have hb : d.s.status % 2 = 0 := by
    have h1 := Nat.and_one_is_mod d.s.status
    have h2 : d.s.status &&& 1 = 0 := hbusy
    omega
  have hw15 : ¬ (w &&& 15 < 8) := hw
  simp [ds2482_tx, hpend, ds2482_channel_select, hb, hn, hw15]

/-- C13 fails on the code: on the eight-channel bridge with CHANNEL_SELECT
pending, channel 3 selected and the busy bit clear, the payload 0x08
(channel 8) makes the write return -1 and leaves the whole state as it
was, `pending_cmd` = 0xC3 included; the byte written next, 0xF0, is then
taken as a channel payload: it selects channel 0 and resets no register. -/
theorem C13_bad_channel_keeps_pending :
    bridge8_selecting.s.status &&& DS2482_STATUS_1WB = 0 ∧
    bridge8_selecting.s.pending_cmd = DS2482_CMD_CHANNEL_SELECT ∧
    ¬ ((0x08 : Nat) &&& 0xF < 8) ∧
    ds2482_tx ds18b20_on_ds2482 8 bridge8_selecting 0x08 = some (-1, bridge8_selecting) ∧
    ds2482_tx ds18b20_on_ds2482 8 bridge8_selecting DS2482_CMD_RESET
      = some (0, { bridge8_selecting with s :=
          { bridge8_selecting.s with channel := 0, pending_cmd := 0 } }) := by
  refine ⟨by decide, by decide, by decide, by decide, by decide⟩

/-- C14: on a bridge built with one channel, from an Idle, not busy state
the host write CHANNEL_SELECT (0xC3) returns 1, which is neither 0 nor -1,
and leaves the whole state as it was, so `pending_cmd` is still 0 and the
channel is what it was. -/
theorem C14_single_channel_select {C : Type} (k : W1BusClientClass C DS2482State)
    (d : DS2482 C) (hidle : d.s.pending_cmd = 0)
    (hbusy : d.s.status &&& DS2482_STATUS_1WB = 0) :
    ds2482_tx k 1 d DS2482_CMD_CHANNEL_SELECT = some (1, d) ∧
    (1 : Int) ≠ 0 ∧ (1 : Int) ≠ -1 := by
  have hb : d.s.status % 2 = 0 := by
    have h1 := Nat.and_one_is_mod d.s.status
    have h2 : d.s.status &&& 1 = 0 := hbusy
    omega
  refine ⟨?_, by decide, by decide⟩
  simp [ds2482_tx, hidle, ds2482_channel_select, hb]

/-- Witness of C14 at the realized single-channel bridge `bridge_idle`. -/
theorem C14_single_channel_select_witness :
    bridge_idle.s.pending_cmd = 0 ∧ bridge_idle.s.status &&& DS2482_STATUS_1WB = 0 ∧
    ds2482_tx ds18b20_on_ds2482 1 bridge_idle DS2482_CMD_CHANNEL_SELECT = some (1, bridge_idle) :=
  ⟨by decide, by decide,
   (C14_single_channel_select ds18b20_on_ds2482 bridge_idle (by decide) (by decide)).1⟩


/-- Counterexample to C15 as stated: `bridge_armed` is Idle and in triplet
mode; after RESET_BRIDGE the status byte is 0x18, yet the host read that
follows performs the triplet step still armed and returns 0x58, fetching
a byte from the sensor on the way. -/
theorem C15_reset_then_read_counterexample :
    bridge_armed.s.pending_cmd = 0 ∧
    ds2482_tx ds18b20_on_ds2482 1 bridge_armed DS2482_CMD_RESET
      = some (0, { bridge_armed with s := { bridge_armed.s with status := 0x18, config := 0xF0 } }) ∧
    ds2482_rx ds18b20_on_ds2482
        { bridge_armed with s := { bridge_armed.s with status := 0x18, config := 0xF0 } }
      = some (0x58,
          { s := { bridge_armed.s with status := 0x58, config := 0xF0, buf := 0x28,
                                       buf_r_bit_idx := 1, triplet_mode := 0 },
            w1_busses := [some { master := true, clients :=
              [{ sensor_searching with read_p := ReadPtr.serial 1, read_len := 7 }] }] }) := by
  refine ⟨by decide, by decide, by decide⟩

/-- C15 (amended): from every Idle bridge state the host write RESET_BRIDGE
(0xF0) returns 0 and leaves the read pointer at the status register, the
channel 0, `pending_cmd` 0, the status byte 0x18 and the configuration byte
0xF0, whatever these were; every other field, every bus and every client is
unchanged.  When the bridge is not in triplet mode the host read that
follows returns 0x18 and changes nothing. -/
theorem C15_reset_bridge {C : Type} (k : W1BusClientClass C DS2482State) (n : Nat)
    (d : DS2482 C) (hidle : d.s.pending_cmd = 0) :
    let d1 : DS2482 C :=
      { d with s := { d.s with status := 0x18, config := 0xF0, pointer := DS2482_REG_STATUS,
                               channel := 0 } }
    ds2482_tx k n d DS2482_CMD_RESET = some (0, d1) ∧
    d1.s.pending_cmd = 0 ∧
    (d.s.triplet_mode = 0 → ds2482_rx k d1 = some (0x18, d1)) := by
  intro d1
  refine ⟨?_, hidle, ?_⟩
  · have h18 : DS2482_STATUS_RST ||| DS2482_STATUS_LL = 0x18 := by decide
    simp [ds2482_tx, hidle, ds2482_dev_reset, d1, h18]
  · intro ht
    have hrx : ds2482_rx k d1 = ds2482_rx_status k d1 := by simp [ds2482_rx, d1]
    rw [hrx]
    exact rx_status_idle k d1 ht

/-- Witness of C15 (amended) at the realized bridge `bridge_idle`. -/
theorem C15_reset_bridge_witness :
    bridge_idle.s.pending_cmd = 0 ∧ bridge_idle.s.triplet_mode = 0 ∧
    ds2482_rx ds18b20_on_ds2482
        { bridge_idle with s := { bridge_idle.s with status := 0x18, config := 0xF0,
                                                     pointer := DS2482_REG_STATUS, channel := 0 } }
      = some (0x18,
          { bridge_idle with s := { bridge_idle.s with status := 0x18, config := 0xF0,
                                                       pointer := DS2482_REG_STATUS,
                                                       channel := 0 } }) :=
  ⟨by decide, by decide,
   (C15_reset_bridge ds18b20_on_ds2482 1 bridge_idle (by decide)).2.2 (by decide)⟩

/-- C20: from an Idle, not busy bridge the host write of any byte w other
than RESET_BRIDGE (0xF0), ONE_WIRE_RESET (0xB4) and ONE_WIRE_READ_BYTE
(0x96) returns and leaves every bus, every client and every register but
`pending_cmd` as it was.  `pending_cmd` becomes w when w is SET_READ_POINTER,
WRITE_CONFIG, ONE_WIRE_SINGLE_BIT, ONE_WIRE_WRITE_BYTE or ONE_WIRE_TRIPLET,
or CHANNEL_SELECT on a bridge not built with one channel, and stays 0
otherwise.  A byte that is none of the nine opcodes returns 0. -/
theorem C20_opcode_write_frame {C : Type} (k : W1BusClientClass C DS2482State) (n : Nat)
    (d : DS2482 C) (w : Nat) (hidle : d.s.pending_cmd = 0)
    (hbusy : d.s.status &&& DS2482_STATUS_1WB = 0)
    (hw : w ≠ DS2482_CMD_RESET ∧ w ≠ DS2482_CMD_1WIRE_RESET ∧ w ≠ DS2482_CMD_1WIRE_READ_BYTE) :
    ∃ ret : Int,
      ds2482_tx k n d w = some (ret, { d with s := { d.s with pending_cmd :=
        if w = DS2482_CMD_SET_READ_PTR ∨ w = DS2482_CMD_WRITE_CONFIG ∨
            w = DS2482_CMD_1WIRE_SINGLE_BIT ∨ w = DS2482_CMD_1WIRE_WRITE_BYTE ∨
            w = DS2482_CMD_1WIRE_TRIPLET ∨ (w = DS2482_CMD_CHANNEL_SELECT ∧ n ≠ 1)
        then w else 0 } }) ∧
      (w ≠ DS2482_CMD_SET_READ_PTR → w ≠ DS2482_CMD_WRITE_CONFIG →
        w ≠ DS2482_CMD_1WIRE_SINGLE_BIT → w ≠ DS2482_CMD_1WIRE_WRITE_BYTE →
        w ≠ DS2482_CMD_1WIRE_TRIPLET → w ≠ DS2482_CMD_CHANNEL_SELECT → ret = 0) := by
  obtain ⟨h1, h2, h3⟩ := hw
  have hb : d.s.status % 2 = 0 := by
    have e1 := Nat.and_one_is_mod d.s.status
    have e2 : d.s.status &&& 1 = 0 := hbusy
    omega
  have hself : ({ d with s := { d.s with pending_cmd := 0 } } : DS2482 C) = d := by
    rw [← hidle]
  by_cases c1 : w = DS2482_CMD_SET_READ_PTR
  · subst c1
    exact ⟨0, by simp [ds2482_tx, hidle, ds2482_set_read_ptr], fun h => absurd rfl h⟩
  by_cases c2 : w = DS2482_CMD_WRITE_CONFIG
  · subst c2
    exact ⟨0, by simp [ds2482_tx, hidle, ds2482_write_config, hb], fun _ h => absurd rfl h⟩
  by_cases c3 : w = DS2482_CMD_1WIRE_SINGLE_BIT
  · subst c3
    exact ⟨0, by simp [ds2482_tx, hidle, ds2482_write_bit, hb], fun _ _ h => absurd rfl h⟩
  by_cases c4 : w = DS2482_CMD_1WIRE_WRITE_BYTE
  · subst c4
    exact ⟨0, by simp [ds2482_tx, hidle, ds2482_write_byte, hb], fun _ _ _ h => absurd rfl h⟩
  by_cases c5 : w = DS2482_CMD_1WIRE_TRIPLET
  · subst c5
    exact ⟨0, by simp [ds2482_tx, hidle, ds2482_write_triplet, hb],
      fun _ _ _ _ h => absurd rfl h⟩
  by_cases c6 : w = DS2482_CMD_CHANNEL_SELECT
  · subst c6
    by_cases hn : n = 1
    · exact ⟨1, by simp [ds2482_tx, hidle, ds2482_channel_select, hb, hn, hself],
        fun _ _ _ _ _ h => absurd rfl h⟩
    · exact ⟨0, by simp [ds2482_tx, hidle, ds2482_channel_select, hb, hn],
        fun _ _ _ _ _ h => absurd rfl h⟩
  · refine ⟨0, ?_, fun _ _ _ _ _ _ => rfl⟩
    simp [ds2482_tx, hidle, h1, h2, h3, c1, c2, c3, c4, c5, c6, hself]

/-- Witness of C20: the byte 0x55, no opcode of the bridge, written to the
realized bridge `bridge_idle`. -/
theorem C20_opcode_write_frame_witness :
    bridge_idle.s.pending_cmd = 0 ∧ bridge_idle.s.status &&& DS2482_STATUS_1WB = 0 ∧
    ∃ ret : Int, ds2482_tx ds18b20_on_ds2482 1 bridge_idle 0x55
        = some (ret, { bridge_idle with s := { bridge_idle.s with pending_cmd := 0 } }) ∧
      ret = 0 := by
  obtain ⟨ret, h, h0⟩ := C20_opcode_write_frame ds18b20_on_ds2482 1 bridge_idle 0x55
    (by decide) (by decide) (by decide)
  exact ⟨by decide, by decide, ret, h, h0 (by decide) (by decide) (by decide) (by decide)
    (by decide) (by decide)⟩


/-! ## CONVERT_TEMPERATURE over the whole range of the field -/

/-- CONVERT_TEMPERATURE for any value of the `uint16_t` temperature field:
the two result bytes. -/
theorem tx_convert_bytes {M : Type} (mr : M → M) (s : DS18B20State) (master : Bool) (m : M)
    (hsp : s.scratchpad.length = 9) (ht : s.temperature < 65536) :
    ∃ s1, ds18b20_tx mr s w1_message.W1_DATA DS18B20_FUN_CMD_CONVERT master m = some (0, s1, m) ∧
      s1.scratchpad.getD 0 0 = ((s.temperature / 100) <<< 4) % 256 ∧
      s1.scratchpad.getD 1 0 = ((s.temperature / 100) <<< 4) / 256 % 256 := by
  obtain ⟨a0, a1, a2, a3, a4, a5, a6, a7, a8, hs⟩ := list_length_nine s.scratchpad hsp
  have hlt : ((s.temperature / 100) <<< 4) < 65536 := by
    rw [Nat.shiftLeft_eq]
    have : s.temperature / 100 ≤ 655 := by omega
    omega
  have hmod : ((s.temperature / 100) <<< 4) % 65536 = (s.temperature / 100) <<< 4 :=
    Nat.mod_eq_of_lt hlt
  refine ⟨_, rfl, ?_, ?_⟩
  · simp [hs, hmod, temp_low_byte]
  · simp [hs, hmod, temp_high_byte _ hlt]

/-- Counterexample to C16 as stated: the temperature field is a `uint16_t`,
so -1000 is held as 64536; the claimed encoding of -1000 is 0xFF60, while
CONVERT_TEMPERATURE leaves scratchpad[0] = 0x50 and scratchpad[1] = 0x28,
the encoding 0x2850 of 645. -/
theorem C16_negative_temperature_counterexample :
    signed_temp_encoding (-1000) = 0xFF60 ∧ to_uint16 (-1000) = 64536 ∧
    ∃ s1, ds18b20_tx ds2482_w1_bus_master_tx_reset
        { sensor_2500 with temperature := to_uint16 (-1000) } w1_message.W1_DATA
        DS18B20_FUN_CMD_CONVERT true regs_realized = some (0, s1, regs_realized) ∧
      s1.scratchpad.getD 0 0 = 0x50 ∧ s1.scratchpad.getD 1 0 = 0x28 ∧
      256 * s1.scratchpad.getD 1 0 + s1.scratchpad.getD 0 0 ≠ signed_temp_encoding (-1000) := by
  refine ⟨by decide, by decide, _, rfl, by decide, by decide, by decide⟩

/-- C16 (amended): for every value t of the unsigned 16-bit temperature
field (0..65535), after CONVERT_TEMPERATURE the pair (scratchpad[1],
scratchpad[0]) is the 16-bit value (t / 100) << 4; for a signed temperature
in 0..32767 this is the two's-complement encoding of (t / 100) << 4. -/
theorem C16_unsigned_temperature {M : Type} (mr : M → M) (s : DS18B20State) (master : Bool)
    (m : M) (hsp : s.scratchpad.length = 9) (ht : s.temperature < 65536) :
    ∃ s1, ds18b20_tx mr s w1_message.W1_DATA DS18B20_FUN_CMD_CONVERT master m = some (0, s1, m) ∧
      s1.scratchpad.getD 0 0 < 256 ∧ s1.scratchpad.getD 1 0 < 256 ∧
      256 * s1.scratchpad.getD 1 0 + s1.scratchpad.getD 0 0 = (s.temperature / 100) <<< 4 ∧
      (∀ t : Int, 0 ≤ t → t ≤ 32767 → s.temperature = to_uint16 t →
        256 * s1.scratchpad.getD 1 0 + s1.scratchpad.getD 0 0 = signed_temp_encoding t) := by
  obtain ⟨s1, htx, h0, h1⟩ := tx_convert_bytes mr s master m hsp ht
  have hlt : ((s.temperature / 100) <<< 4) < 65536 := by
    rw [Nat.shiftLeft_eq]
    have : s.temperature / 100 ≤ 655 := by omega
    omega
  have hsum : 256 * s1.scratchpad.getD 1 0 + s1.scratchpad.getD 0 0
      = (s.temperature / 100) <<< 4 := by
    rw [h0, h1]
    omega
  refine ⟨s1, htx, ?_, ?_, hsum, ?_⟩
  · rw [h0]; omega
  · rw [h1]; omega
  · intro t h0t ht32 hst
    obtain ⟨n, rfl⟩ := Int.eq_ofNat_of_zero_le h0t
    have hn : s.temperature = n := by
      rw [hst]; unfold to_uint16; omega
    rw [hsum, hn]
    unfold signed_temp_encoding
    rw [Int.tdiv_eq_ediv (by omega) (by norm_num), Nat.shiftLeft_eq]
    omega

/-- Witness of C16 (amended) at `sensor_2500`: 25.00 degrees gives 0x0190. -/
theorem C16_unsigned_temperature_witness :
    sensor_2500.scratchpad.length = 9 ∧ sensor_2500.temperature < 65536 ∧
    ∃ s1, ds18b20_tx ds2482_w1_bus_master_tx_reset sensor_2500 w1_message.W1_DATA
        DS18B20_FUN_CMD_CONVERT true regs_realized = some (0, s1, regs_realized) ∧
      256 * s1.scratchpad.getD 1 0 + s1.scratchpad.getD 0 0 = 0x0190 := by
  obtain ⟨s1, h, _, _, hsum, _⟩ :=
    C16_unsigned_temperature ds2482_w1_bus_master_tx_reset sensor_2500 true regs_realized
      (by decide) (by decide)
  exact ⟨by decide, by decide, s1, h, hsum⟩


/-! ## Broadcast on the bus -/

/-- The loop of `w1_bus_write` computes the reference broadcast: the clients
and master it leaves are the reference's, and its result is 1 when some
handler answered non-zero and the running value otherwise. -/
theorem write_clients_eq_spec {C M : Type} (k : W1BusClientClass C M) (type : w1_message)
    (data : Nat) (master : Bool) : ∀ (cs : List C) (ret : Int) (m : M),
    w1_bus_write_clients k type data master cs ret m
      = (broadcast_spec k type data master cs m).map
          (fun r => ((if r.1 then 1 else ret), r.2.1, r.2.2)) := by
  intro cs
  induction cs with
  | nil => intro ret m; rfl
  | cons c cs ih =>
    intro ret m
    cases hs : k.send c type data master m with
    | none => simp [w1_bus_write_clients, broadcast_spec, hs]
    | some r =>
      obtain ⟨r0, c1, m1⟩ := r
      cases hb : broadcast_spec k type data master cs m1 with
      | none => simp [w1_bus_write_clients, broadcast_spec, hs, ih, hb]
      | some q =>
        obtain ⟨any, cs1, m2⟩ := q
        by_cases h0 : r0 = 0 <;> cases any <;>
          simp [w1_bus_write_clients, broadcast_spec, hs, ih, hb, h0]

/-- The broadcast over recording clients: every client records the message
once, the journal grows by the clients in attachment order, and the flag
tells whether some client answers non-zero. -/
theorem probe_broadcast_spec (type : w1_message) (data : Nat) (master : Bool) :
    ∀ (cs : List W1Probe) (journal : List (Nat × w1_message × Nat)),
      broadcast_spec w1_probe_class type data master cs journal
        = some (cs.any (fun c => decide (c.answer ≠ 0)),
                cs.map (fun c => c.record type data),
                journal ++ cs.map (fun c => (c.id, type, data))) := by
  intro cs
  induction cs with
  | nil => intro journal; simp [broadcast_spec]
  | cons c cs ih =>
    intro journal
    have hs : w1_probe_class.send c type data master journal
        = some (c.answer, c.record type data, journal ++ [(c.id, type, data)]) := rfl
    simp [broadcast_spec, hs, ih]

/-- C17: on a non-null bus, `w1_bus_reset` and `w1_bus_send_to_clients` are
the reference broadcast of (RESET, 0), respectively (DATA, byte): every
attached client's handler is run once, in attachment order, with that
message, and the result is 1 when some handler answered non-zero and 0
otherwise, 0 on a bus without clients.  Observed with recording clients:
each records exactly the one message and the journal of calls grows by the
clients in attachment order.  On a null bus both return -1 and nothing is
called. -/
theorem C17_broadcast {C M : Type} (k : W1BusClientClass C M) (b : W1BusState C)
    (data : Nat) (m : M) (p : W1BusState W1Probe) (journal : List (Nat × w1_message × Nat)) :
    w1_bus_reset k (some b) m
      = (broadcast_spec k w1_message.W1_RESET 0 b.master b.clients m).map
          (fun r => ((if r.1 then 1 else 0), some { b with clients := r.2.1 }, r.2.2)) ∧
    w1_bus_send_to_clients k (some b) data m
      = (broadcast_spec k w1_message.W1_DATA data b.master b.clients m).map
          (fun r => ((if r.1 then 1 else 0), some { b with clients := r.2.1 }, r.2.2)) ∧
    w1_bus_reset k (some { master := b.master, clients := [] }) m
      = some (0, some { master := b.master, clients := [] }, m) ∧
    w1_bus_send_to_clients k (some { master := b.master, clients := [] }) data m
      = some (0, some { master := b.master, clients := [] }, m) ∧
    w1_bus_reset k none m = some (-1, none, m) ∧
    w1_bus_send_to_clients k none data m = some (-1, none, m) ∧
    w1_bus_reset w1_probe_class (some p) journal
      = some ((if p.clients.any (fun c => decide (c.answer ≠ 0)) then 1 else 0),
          some { p with clients := p.clients.map (fun c => c.record w1_message.W1_RESET 0) },
          journal ++ p.clients.map (fun c => (c.id, w1_message.W1_RESET, 0))) ∧
    w1_bus_send_to_clients w1_probe_class (some p) data journal
      = some ((if p.clients.any (fun c => decide (c.answer ≠ 0)) then 1 else 0),
          some { p with clients := p.clients.map (fun c => c.record w1_message.W1_DATA data) },
          journal ++ p.clients.map (fun c => (c.id, w1_message.W1_DATA, data))) := by
  have hgen : ∀ (type : w1_message) (dat : Nat),
      w1_bus_write k (some b) type dat m
        = (broadcast_spec k type dat b.master b.clients m).map
            (fun r => ((if r.1 then 1 else 0), some { b with clients := r.2.1 }, r.2.2)) := by
    intro type dat
    unfold w1_bus_write
    simp only
    rw [write_clients_eq_spec]
    cases broadcast_spec k type dat b.master b.clients m with
    | none => rfl
    | some r => rfl
  have hprobe : ∀ (type : w1_message) (dat : Nat),
      w1_bus_write w1_probe_class (some p) type dat journal
        = some ((if p.clients.any (fun c => decide (c.answer ≠ 0)) then 1 else 0),
            some { p with clients := p.clients.map (fun c => c.record type dat) },
            journal ++ p.clients.map (fun c => (c.id, type, dat))) := by
    intro type dat
    unfold w1_bus_write
    simp only
    rw [write_clients_eq_spec, probe_broadcast_spec]
    rfl
  exact ⟨hgen _ _, hgen _ _, rfl, rfl, rfl, rfl, hprobe _ _, hprobe _ _⟩

/-- Witness of C17: three recording clients answering 0, 5 and 0 receive
the DATA byte 0xCC; the result is 1 and the journal lists them in
attachment order. -/
theorem C17_broadcast_witness :
    w1_bus_send_to_clients w1_probe_class
        (some { master := true, clients := [⟨10, 0, []⟩, ⟨11, 5, []⟩, ⟨12, 0, []⟩] }) 0xCC []
      = some (1,
          some { master := true, clients :=
            [⟨10, 0, [(w1_message.W1_DATA, 0xCC)]⟩, ⟨11, 5, [(w1_message.W1_DATA, 0xCC)]⟩,
             ⟨12, 0, [(w1_message.W1_DATA, 0xCC)]⟩] },
          [(10, w1_message.W1_DATA, 0xCC), (11, w1_message.W1_DATA, 0xCC),
           (12, w1_message.W1_DATA, 0xCC)]) :=
  (C17_broadcast w1_probe_class
    { master := true, clients := [⟨10, 0, []⟩, ⟨11, 5, []⟩, ⟨12, 0, []⟩] } 0xCC []
    { master := true, clients := [⟨10, 0, []⟩, ⟨11, 5, []⟩, ⟨12, 0, []⟩] } []).2.2.2.2.2.2.2


/-! ## Attaching and detaching clients -/

/-- C18: for a bus b and a client c that is attached to no bus (its
back-reference is NULL and it is in no queue), attaching c to b returns 0
and puts c last in b's queue with its back-reference set to b; detaching c
then returns 1 and restores the whole attachment state: b's queue is exactly
what it was and c's back-reference is NULL.  Detaching a client whose
back-reference is NULL returns 0 and changes nothing, so a second detach is
a no-op. -/
theorem C18_attach_detach (w : W1Links) (b c : Nat) (hfree : w.bus c = none)
    (hnot : ∀ b1, c ∉ w.clients b1) :
    (∃ w1, w1_bus_insert_client w (some b) c = some (0, w1) ∧
      w1.clients b = w.clients b ++ [c] ∧ w1.bus c = some b ∧
      w1_bus_remove_client w1 c = (1, w) ∧
      w1_bus_remove_client (w1_bus_remove_client w1 c).2 c = (0, w)) ∧
    (∀ (w0 : W1Links) (c0 : Nat), w0.bus c0 = none → w1_bus_remove_client w0 c0 = (0, w0)) := by
  have hno : ∀ (w0 : W1Links) (c0 : Nat), w0.bus c0 = none →
      w1_bus_remove_client w0 c0 = (0, w0) := by
    intro w0 c0 h
    simp [w1_bus_remove_client, h]
  have hrem : w1_bus_remove_client
      { clients := Function.update w.clients b (QTAILQ_INSERT_TAIL (w.clients b) c),
        bus := Function.update w.bus c (some b) } c = (1, w) := by
    have herase : QTAILQ_REMOVE (QTAILQ_INSERT_TAIL (w.clients b) c) c = w.clients b := by
      unfold QTAILQ_REMOVE QTAILQ_INSERT_TAIL
      rw [List.erase_append_right _ (hnot b)]
      simp
    have hbus : Function.update (Function.update w.bus c (some b)) c none = w.bus := by
      rw [Function.update_idem, ← hfree, Function.update_eq_self]
    simp only [w1_bus_remove_client, Function.update_same, herase, Function.update_idem,
      Function.update_eq_self, hbus]
  refine ⟨⟨_, rfl, ?_, ?_, hrem, ?_⟩, hno⟩
  · simp [QTAILQ_INSERT_TAIL]
  · simp
  · rw [hrem]
    exact hno w c hfree

/-- Witness of C18: client 3 is attached to and detached from bus 0, which
already holds the clients 1 and 2. -/
theorem C18_attach_detach_witness :
    (w1_links_run w1_links_empty [W1Op.insert 0 1, W1Op.insert 0 2]).bus 3 = none ∧
    ∃ w1, w1_bus_insert_client (w1_links_run w1_links_empty [W1Op.insert 0 1, W1Op.insert 0 2])
        (some 0) 3 = some (0, w1) ∧
      w1.clients 0 = [1, 2, 3] ∧
      (w1_bus_remove_client w1 3).1 = 1 ∧ (w1_bus_remove_client w1 3).2.clients 0 = [1, 2] := by
  have hnot : ∀ b1, 3 ∉ (w1_links_run w1_links_empty [W1Op.insert 0 1, W1Op.insert 0 2]).clients b1 := by
    intro b1
    by_cases h : b1 = 0
    · subst h; decide
    · simp [w1_links_run, w1_links_step, w1_bus_insert_client, w1_links_empty,
        QTAILQ_INSERT_TAIL, Function.update, h]
  obtain ⟨⟨w1, h1, h2, _, h4, _⟩, _⟩ :=
    C18_attach_detach (w1_links_run w1_links_empty [W1Op.insert 0 1, W1Op.insert 0 2]) 0 3
      (by decide) hnot
  refine ⟨by decide, w1, h1, ?_, ?_, ?_⟩
  · rw [h2]; decide
  · rw [h4]
  · rw [h4]; decide


/-- Counterexample to C19 as stated: client 7 is attached to bus 0 and then,
still attached, to bus 1.  It is then in the queue of both buses while its
back-reference is bus 1, and the attachment invariant fails. -/
theorem C19_double_attach_counterexample :
    (w1_links_run w1_links_empty [W1Op.insert 0 7, W1Op.insert 1 7]).clients 0 = [7] ∧
    (w1_links_run w1_links_empty [W1Op.insert 0 7, W1Op.insert 1 7]).clients 1 = [7] ∧
    (w1_links_run w1_links_empty [W1Op.insert 0 7, W1Op.insert 1 7]).bus 7 = some 1 ∧
    ¬ w1_links_inv (w1_links_run w1_links_empty [W1Op.insert 0 7, W1Op.insert 1 7]) := by
  refine ⟨by decide, by decide, by decide, ?_⟩
  intro h
  have h0 := (h.2 7 0).mp (by decide)
  exact absurd h0 (by decide)

theorem w1_links_inv_empty : w1_links_inv w1_links_empty := by
  refine ⟨fun b => List.nodup_nil, fun c b => ?_⟩
  simp [w1_links_empty]

/-- Attaching a client whose back-reference is NULL keeps the invariant. -/
theorem w1_links_inv_insert (w : W1Links) (b c : Nat) (hinv : w1_links_inv w)
    (hfree : w.bus c = none) : w1_links_inv (w1_links_step w (W1Op.insert b c)) := by
  obtain ⟨hnd, hmem⟩ := hinv
  have hnot : ∀ b1, c ∉ w.clients b1 := by
    intro b1 hin
    have := (hmem c b1).mp hin
    rw [hfree] at this
    exact absurd this (by simp)
  refine ⟨?_, ?_⟩
  · intro b1
    show (Function.update w.clients b (QTAILQ_INSERT_TAIL (w.clients b) c) b1).Nodup
    by_cases hb : b1 = b
    · subst hb
      rw [Function.update_same]
      unfold QTAILQ_INSERT_TAIL
      rw [List.nodup_append]
      refine ⟨hnd b1, List.nodup_singleton c, ?_⟩
      intro x hx hx1
      rw [List.mem_singleton] at hx1
      subst hx1
      exact hnot b1 hx
    · rw [Function.update_noteq hb]
      exact hnd b1
  · intro c1 b1
    show c1 ∈ Function.update w.clients b (QTAILQ_INSERT_TAIL (w.clients b) c) b1
      ↔ Function.update w.bus c (some b) c1 = some b1
    by_cases hc : c1 = c
    · subst hc
      rw [Function.update_same]
      by_cases hb : b1 = b
      · subst hb
        rw [Function.update_same]
        simp [QTAILQ_INSERT_TAIL]
      · rw [Function.update_noteq hb]
        constructor
        · intro hin; exact absurd hin (hnot b1)
        · intro h
          have : b = b1 := by simpa using h
          exact absurd this.symm hb
    · rw [Function.update_noteq hc]
      by_cases hb : b1 = b
      · subst hb
        rw [Function.update_same]
        unfold QTAILQ_INSERT_TAIL
        rw [List.mem_append, List.mem_singleton]
        constructor
        · rintro (h | h)
          · exact (hmem c1 b1).mp h
          · exact absurd h hc
        · intro h; exact Or.inl ((hmem c1 b1).mpr h)
      · rw [Function.update_noteq hb]
        exact hmem c1 b1

/-- Detaching a client keeps the invariant. -/
theorem w1_links_inv_remove (w : W1Links) (c : Nat) (hinv : w1_links_inv w) :
    w1_links_inv (w1_links_step w (W1Op.remove c)) := by
  obtain ⟨hnd, hmem⟩ := hinv
  show w1_links_inv (w1_bus_remove_client w c).2
  unfold w1_bus_remove_client
  cases hbc : w.bus c with
  | none => exact ⟨hnd, hmem⟩
  | some b =>
    refine ⟨?_, ?_⟩
    · intro b1
      show (Function.update w.clients b (QTAILQ_REMOVE (w.clients b) c) b1).Nodup
      by_cases hb : b1 = b
      · subst hb
        rw [Function.update_same]
        exact List.Nodup.erase c (hnd b1)
      · rw [Function.update_noteq hb]
        exact hnd b1
    · intro c1 b1
      show c1 ∈ Function.update w.clients b (QTAILQ_REMOVE (w.clients b) c) b1
        ↔ Function.update w.bus c none c1 = some b1
      by_cases hc : c1 = c
      · subst hc
        rw [Function.update_same]
        constructor
        · intro hin
          exfalso
          by_cases hb : b1 = b
          · subst hb
            rw [Function.update_same] at hin
            unfold QTAILQ_REMOVE at hin
            exact ((hnd b1).mem_erase_iff.mp hin).1 rfl
          · rw [Function.update_noteq hb] at hin
            have := (hmem c1 b1).mp hin
            rw [hbc] at this
            have hbb : b = b1 := by simpa using this
            exact hb hbb.symm
        · intro h; exact absurd h (by simp)
      · rw [Function.update_noteq hc]
        by_cases hb : b1 = b
        · subst hb
          rw [Function.update_same]
          unfold QTAILQ_REMOVE
          rw [List.mem_erase_of_ne hc]
          exact hmem c1 b1
        · rw [Function.update_noteq hb]
          exact hmem c1 b1

theorem w1_links_inv_run : ∀ (ops : List W1Op) (w : W1Links), w1_links_inv w →
    w1_ops_attach_detached w ops → w1_links_inv (w1_links_run w ops) := by
  intro ops
  induction ops with
  | nil => intro w h _; exact h
  | cons op ops ih =>
    intro w hinv hops
    cases op with
    | insert b c =>
      obtain ⟨hfree, hrest⟩ := hops
      exact ih _ (w1_links_inv_insert w b c hinv hfree) hrest
    | remove c =>
      exact ih _ (w1_links_inv_remove w c hinv) hops

/-- C19 (amended): in every state reached from empty buses by a sequence of
`w1_bus_insert_client` and `w1_bus_remove_client` calls in which every
attach is made on a client that is detached at the time of the call, each
client occurs at most once in a queue and in the queue of at most one bus,
and its back-reference is that bus exactly when it occurs in a queue and
NULL otherwise. -/
theorem C19_attachment_invariant (ops : List W1Op)
    (hops : w1_ops_attach_detached w1_links_empty ops) :
    (∀ b, ((w1_links_run w1_links_empty ops).clients b).Nodup) ∧
    (∀ c b, c ∈ (w1_links_run w1_links_empty ops).clients b
      ↔ (w1_links_run w1_links_empty ops).bus c = some b) ∧
    (∀ c b1 b2, c ∈ (w1_links_run w1_links_empty ops).clients b1 →
      c ∈ (w1_links_run w1_links_empty ops).clients b2 → b1 = b2) ∧
    (∀ c, (∀ b, c ∉ (w1_links_run w1_links_empty ops).clients b) →
      (w1_links_run w1_links_empty ops).bus c = none) := by
  have hinv := w1_links_inv_run ops w1_links_empty w1_links_inv_empty hops
  refine ⟨hinv.1, hinv.2, ?_, ?_⟩
  · intro c b1 b2 h1 h2
    have e1 := (hinv.2 c b1).mp h1
    have e2 := (hinv.2 c b2).mp h2
    rw [e1] at e2
    simpa using e2
  · intro c hc
    cases hb : (w1_links_run w1_links_empty ops).bus c with
    | none => rfl
    | some b => exact absurd ((hinv.2 c b).mpr hb) (hc b)

/-- Witness of C19 (amended): client 7 is attached to bus 0, detached, and
attached to bus 1; client 8 is attached to bus 0. -/
theorem C19_attachment_invariant_witness :
    w1_ops_attach_detached w1_links_empty
      [W1Op.insert 0 7, W1Op.remove 7, W1Op.insert 1 7, W1Op.insert 0 8] ∧
    ∀ c b, c ∈ (w1_links_run w1_links_empty
        [W1Op.insert 0 7, W1Op.remove 7, W1Op.insert 1 7, W1Op.insert 0 8]).clients b
      ↔ (w1_links_run w1_links_empty
        [W1Op.insert 0 7, W1Op.remove 7, W1Op.insert 1 7, W1Op.insert 0 8]).bus c = some b :=
  ⟨⟨by decide, by decide, by decide, trivial⟩,
   (C19_attachment_invariant [W1Op.insert 0 7, W1Op.remove 7, W1Op.insert 1 7, W1Op.insert 0 8]
      ⟨by decide, by decide, by decide, trivial⟩).2.1⟩


/-! ## The temperature read through the bridge -/

theorem or_two_mod_two (x : Nat) : (x ||| 2) % 2 = x % 2 := by
  have h := testBit_or_two x 0
  simp only [Nat.testBit_zero] at h
  have h1 := Nat.mod_two_eq_zero_or_one x
  have h2 := Nat.mod_two_eq_zero_or_one (x ||| 2)
  rcases h1 with h1 | h1 <;> rcases h2 with h2 | h2 <;> simp_all

/-- ONE_WIRE_RESET keeps the one-sensor setting. -/
theorem one_sensor_reset (n ch : Nat) (c : DS18B20State) (d : DS2482 DS18B20State)
    (hv : bridge_one_sensor ch c d) :
    ∃ d1, ds2482_tx ds18b20_on_ds2482 n d DS2482_CMD_1WIRE_RESET = some (0, d1) ∧
      bridge_one_sensor ch c d1 := by
  obtain ⟨hpend, hbusy, hch, hbus⟩ := hv
  have hb : d.s.status &&& DS2482_STATUS_1WB = 0 := by
    have h1 := Nat.and_one_is_mod d.s.status
    show d.s.status &&& 1 = 0
    omega
  have hbus1 : d.w1_busses[d.s.channel]? = some (some { master := true, clients := [c] }) := by
    rw [hch]; exact hbus
  refine ⟨_, tx_1w_reset n d _ hpend hb hbus1 rfl (by simp), hpend, ?_, hch, hbus⟩
  show (d.s.status ||| 2) % 2 = 0
  rw [or_two_mod_two]; exact hbusy

/-- ONE_WIRE_WRITE_BYTE and its payload hand the byte to the sensor and keep
the one-sensor setting. -/
theorem one_sensor_write_byte (n ch : Nat) (c c1 : DS18B20State) (d : DS2482 DS18B20State)
    (w : Nat) (hv : bridge_one_sensor ch c d)
    (htx : ∀ m : DS2482State, ds18b20_tx ds2482_w1_bus_master_tx_reset c w1_message.W1_DATA w
      true m = some (0, c1, m)) :
    ∃ d1, ds2482_host_write_byte ds18b20_on_ds2482 n d w = some d1 ∧
      bridge_one_sensor ch c1 d1 := by
  obtain ⟨hpend, hbusy, hch, hbus⟩ := hv
  have hbus1 : d.w1_busses[d.s.channel]? = some (some { master := true, clients := [c] }) := by
    rw [hch]; exact hbus
  have h1 : ds2482_tx ds18b20_on_ds2482 n d DS2482_CMD_1WIRE_WRITE_BYTE
      = some (0, { d with s := { d.s with pending_cmd := DS2482_CMD_1WIRE_WRITE_BYTE } }) := by
    simp [ds2482_tx, hpend, ds2482_write_byte, hbusy]
  have hsend : ∀ m : DS2482State, w1_bus_send_to_clients ds18b20_on_ds2482
      (some { master := true, clients := [c] }) w m
      = some (0, some { master := true, clients := [c1] }, m) := by
    intro m
    have := htx m
    simp only [w1_bus_send_to_clients, w1_bus_write, w1_bus_write_clients, ds18b20_on_ds2482,
      ds18b20_class, this]
    simp
  have h2 : ds2482_tx ds18b20_on_ds2482 n
      { d with s := { d.s with pending_cmd := DS2482_CMD_1WIRE_WRITE_BYTE } } w
      = some (0, { s := { d.s with pending_cmd := 0, pointer := DS2482_REG_STATUS },
                   w1_busses := d.w1_busses.set d.s.channel
                     (some { master := true, clients := [c1] }) }) := by
    simp [ds2482_tx, ds2482_write_byte, hbusy, ds2482_broadcast, hbus1, hsend]
  refine ⟨{ s := { d.s with pending_cmd := 0, pointer := DS2482_REG_STATUS },
            w1_busses := d.w1_busses.set d.s.channel
              (some { master := true, clients := [c1] }) },
    by simp only [ds2482_host_write_byte, h1, h2], rfl, hbusy, hch, ?_⟩
  have := list_getElem?_set_same d.w1_busses d.s.channel _
    (some ({ master := true, clients := [c1] } : W1BusState DS18B20State)) hbus1
  rw [hch] at this
  dsimp only
  rw [hch]
  exact this

/-- One byte fetch by the host: the value is what `w1_bus_read_byte` yields
on the one-sensor bus, and the one-sensor setting is kept. -/
theorem one_sensor_read_byte (n ch : Nat) (c c1 : DS18B20State) (v : Nat)
    (d : DS2482 DS18B20State) (hv : bridge_one_sensor ch c d)
    (hrd : w1_bus_read_byte_clients ds18b20_on_ds2482 [c] = (v, [c1])) :
    ∃ d1, ds2482_host_read_byte ds18b20_on_ds2482 n d = some (v, d1) ∧
      bridge_one_sensor ch c1 d1 := by
  obtain ⟨hpend, hbusy, hch, hbus⟩ := hv
  have hbus1 : d.w1_busses[d.s.channel]? = some (some { master := true, clients := [c] }) := by
    rw [hch]; exact hbus
  have hread : w1_bus_read_byte ds18b20_on_ds2482 (some { master := true, clients := [c] })
      = some (v, { master := true, clients := [c1] }) := by
    simp [w1_bus_read_byte, hrd]
  have h1 : ds2482_tx ds18b20_on_ds2482 n d DS2482_CMD_1WIRE_READ_BYTE
      = some (0, { s := { d.s with buf := v },
                   w1_busses := d.w1_busses.set d.s.channel
                     (some { master := true, clients := [c1] }) }) := by
    simp [ds2482_tx, hpend, ds2482_1w_read_byte, ds2482_fetch, hbus1, hread]
  have h2 : ds2482_tx ds18b20_on_ds2482 n
      { s := { d.s with buf := v },
        w1_busses := d.w1_busses.set d.s.channel (some { master := true, clients := [c1] }) }
      DS2482_CMD_SET_READ_PTR
      = some (0, { s := { d.s with buf := v, pending_cmd := DS2482_CMD_SET_READ_PTR },
                   w1_busses := d.w1_busses.set d.s.channel
                     (some { master := true, clients := [c1] }) }) := by
    simp [ds2482_tx, hpend, ds2482_set_read_ptr]
  have h3 : ds2482_tx ds18b20_on_ds2482 n
      { s := { d.s with buf := v, pending_cmd := DS2482_CMD_SET_READ_PTR },
        w1_busses := d.w1_busses.set d.s.channel (some { master := true, clients := [c1] }) }
      DS2482_REG_READ_DATA
      = some (0, { s := { d.s with buf := v, pending_cmd := 0, pointer := DS2482_REG_READ_DATA },
                   w1_busses := d.w1_busses.set d.s.channel
                     (some { master := true, clients := [c1] }) }) := by
    simp [ds2482_tx, ds2482_set_read_ptr]
  have h4 : ds2482_rx ds18b20_on_ds2482
      { s := { d.s with buf := v, pending_cmd := 0, pointer := DS2482_REG_READ_DATA },
        w1_busses := d.w1_busses.set d.s.channel (some { master := true, clients := [c1] }) }
      = some (v, { s := { d.s with buf := v, pending_cmd := 0,
                                   pointer := DS2482_REG_READ_DATA },
                   w1_busses := d.w1_busses.set d.s.channel
                     (some { master := true, clients := [c1] }) }) := by
    simp [ds2482_rx]
  refine ⟨{ s := { d.s with buf := v, pending_cmd := 0, pointer := DS2482_REG_READ_DATA },
            w1_busses := d.w1_busses.set d.s.channel
              (some { master := true, clients := [c1] }) },
    by simp only [ds2482_host_read_byte, h1, h2, h3, h4], rfl, hbusy, hch, ?_⟩
  have := list_getElem?_set_same d.w1_busses d.s.channel _
    (some ({ master := true, clients := [c1] } : W1BusState DS18B20State)) hbus1
  rw [hch] at this
  dsimp only
  rw [hch]
  exact this

/-- Fetching `cnt` bytes while the sensor has that many queued: the bytes are
the queued ones, in order. -/
theorem one_sensor_read_bytes (n ch : Nat) (c0 : DS18B20State)
    (hp : c0.read_p ≠ ReadPtr.null) (hlen : c0.read_len < 256) :
    ∀ (cnt j : Nat) (d : DS2482 DS18B20State),
      bridge_one_sensor ch (ds18b20_after_reads c0 j) d → j + cnt ≤ c0.read_len →
      ∃ d1, ds2482_host_read_bytes ds18b20_on_ds2482 n cnt d
          = some ((List.range cnt).map (fun t => ds18b20_queued c0 (j + t)), d1) ∧
        bridge_one_sensor ch (ds18b20_after_reads c0 (j + cnt)) d1 := by
  intro cnt
  induction cnt with
  | zero => intro j d hv _; exact ⟨d, rfl, hv⟩
  | succ cnt ih =>
    intro j d hv hj
    have hd : ds18b20_has_valid_data (ds18b20_after_reads c0 j) = true := by
      simp [ds18b20_has_valid_data, ds18b20_after_reads]; omega
    have hrd : w1_bus_read_byte_clients ds18b20_on_ds2482 [ds18b20_after_reads c0 j]
        = (ds18b20_queued c0 j, [ds18b20_after_reads c0 (j + 1)]) := by
      simp [w1_bus_read_byte_clients, ds18b20_on_ds2482, ds18b20_class, hd,
        rx_after_reads c0 j hp (by omega) hlen]
    obtain ⟨d1, h1, hv1⟩ := one_sensor_read_byte n ch _ _ _ d hv hrd
    obtain ⟨d2, h2, hv2⟩ := ih (j + 1) d1 hv1 (by omega)
    refine ⟨d2, ?_, ?_⟩
    · simp only [ds2482_host_read_bytes, h1, h2, List.range_succ_eq_map, List.map_cons,
        List.map_map]
      congr 3
      apply List.map_congr_left
      intro t _
      simp only [Function.comp]
      congr 1
      omega
    · have : j + (cnt + 1) = j + 1 + cnt := by omega
      rw [this]; exact hv2

/-- CONVERT_TEMPERATURE on a sensor with its nine-byte scratchpad: only the
scratchpad changes; its bytes 0 and 1 hold the encoding and byte 8 the CRC
of bytes 0..7. -/
theorem tx_convert_scratchpad {M : Type} (mr : M → M) (s : DS18B20State) (master : Bool)
    (hsp : s.scratchpad.length = 9) (ht : s.temperature < 65536) :
    ∃ sp : List Nat,
      (∀ m : M, ds18b20_tx mr s w1_message.W1_DATA DS18B20_FUN_CMD_CONVERT master m
        = some (0, { s with scratchpad := sp }, m)) ∧
      sp.length = 9 ∧
      sp.getD 0 0 = ((s.temperature / 100) <<< 4) % 256 ∧
      sp.getD 1 0 = ((s.temperature / 100) <<< 4) / 256 % 256 ∧
      sp.getD 8 0 = ds18b20_crc8 (sp.take 8) 8 ∧
      (∀ i, 2 ≤ i → i ≤ 7 → sp.getD i 0 = s.scratchpad.getD i 0) := by
  obtain ⟨a0, a1, a2, a3, a4, a5, a6, a7, a8, hs⟩ := list_length_nine s.scratchpad hsp
  have hlt : ((s.temperature / 100) <<< 4) < 65536 := by
    rw [Nat.shiftLeft_eq]
    have : s.temperature / 100 ≤ 655 := by omega
    omega
  have hmod : ((s.temperature / 100) <<< 4) % 65536 = (s.temperature / 100) <<< 4 :=
    Nat.mod_eq_of_lt hlt
  refine ⟨_, fun m => rfl, ?_, ?_, ?_, ?_, ?_⟩
  · simp [hs]
  · simp [hs, hmod, temp_low_byte]
  · simp [hs, hmod, temp_high_byte _ hlt]
  · simp only [hs, List.set_cons_zero, List.set_cons_succ, List.getD_cons_succ,
      List.getD_cons_zero, List.take_succ_cons, List.take_zero]
    rfl
  · intro i h2 h7
    simp only [hs]
    have : i = 2 ∨ i = 3 ∨ i = 4 ∨ i = 5 ∨ i = 6 ∨ i = 7 := by omega
    rcases this with h | h | h | h | h | h <;> subst h <;> rfl

/-- ONE_WIRE_READ_BYTE latches what `w1_bus_read_byte` yields into the
read-data buffer. -/
theorem one_sensor_latch (n ch : Nat) (c c1 : DS18B20State) (v : Nat)
    (d : DS2482 DS18B20State) (hv : bridge_one_sensor ch c d)
    (hrd : w1_bus_read_byte_clients ds18b20_on_ds2482 [c] = (v, [c1])) :
    ∃ d1, ds2482_tx ds18b20_on_ds2482 n d DS2482_CMD_1WIRE_READ_BYTE = some (0, d1) ∧
      d1.s.buf = v := by
  obtain ⟨hpend, hbusy, hch, hbus⟩ := hv
  have hbus1 : d.w1_busses[d.s.channel]? = some (some { master := true, clients := [c] }) := by
    rw [hch]; exact hbus
  have hread : w1_bus_read_byte ds18b20_on_ds2482 (some { master := true, clients := [c] })
      = some (v, { master := true, clients := [c1] }) := by
    simp [w1_bus_read_byte, hrd]
  refine ⟨{ s := { d.s with buf := v },
            w1_busses := d.w1_busses.set d.s.channel
              (some { master := true, clients := [c1] }) }, ?_, rfl⟩
  simp [ds2482_tx, hpend, ds2482_1w_read_byte, ds2482_fetch, hbus1, hread]

/-- C21: on an Idle, not busy bridge whose selected bus has the bridge as
master and holds exactly one sensor, with temperature t at most 32767, the
host sequence ONE_WIRE_RESET; WRITE_BYTE 0xCC; WRITE_BYTE 0x44;
ONE_WIRE_RESET; WRITE_BYTE 0xCC; WRITE_BYTE 0xBE; nine times
(ONE_WIRE_READ_BYTE; SET_READ_POINTER 0xE1; read) runs to its end and
returns nine bytes: byte 0 is the low and byte 1 the high byte of
((t / 100) << 4), byte 8 is the `ds18b20_crc8` of bytes 0..7.  Afterwards
the sensor reports no data and a further ONE_WIRE_READ_BYTE latches 0. -/
theorem C21_read_temperature (n : Nat) (d : DS2482 DS18B20State) (c : DS18B20State)
    (hidle : d.s.pending_cmd = 0) (hbusy : d.s.status &&& DS2482_STATUS_1WB = 0)
    (hbus : d.w1_busses[d.s.channel]? = some (some { master := true, clients := [c] }))
    (hsp : c.scratchpad.length = 9) (ht : c.temperature ≤ 32767) :
    ∃ (bs : List Nat) (d1 : DS2482 DS18B20State) (c1 : DS18B20State),
      ds2482_host_read_temperature ds18b20_on_ds2482 n d = some (bs, d1) ∧
      bs.length = 9 ∧
      bs.getD 0 0 = ((c.temperature / 100) <<< 4) % 256 ∧
      bs.getD 1 0 = ((c.temperature / 100) <<< 4) / 256 % 256 ∧
      bs.getD 8 0 = ds18b20_crc8 (bs.take 8) 8 ∧
      d1.w1_busses[d.s.channel]? = some (some { master := true, clients := [c1] }) ∧
      ds18b20_has_valid_data c1 = false ∧
      ∃ d2, ds2482_tx ds18b20_on_ds2482 n d1 DS2482_CMD_1WIRE_READ_BYTE = some (0, d2) ∧
        d2.s.buf = 0 := by
  have hb2 : d.s.status % 2 = 0 := by
    have h1 := Nat.and_one_is_mod d.s.status
    have h2 : d.s.status &&& 1 = 0 := hbusy
    omega
  have hv0 : bridge_one_sensor d.s.channel c d := ⟨hidle, hb2, rfl, hbus⟩
  obtain ⟨sp, hconv, hspl, hb0, hb1, hcrc, _⟩ :=
    tx_convert_scratchpad ds2482_w1_bus_master_tx_reset c true hsp (by omega)
  obtain ⟨d1, e1, hv1⟩ := one_sensor_reset n _ c d hv0
  obtain ⟨d2, e2, hv2⟩ := one_sensor_write_byte n _ c c d1 DS18B20_ROM_CMD_SKIP_ROM hv1
    (fun _ => rfl)
  obtain ⟨d3, e3, hv3⟩ := one_sensor_write_byte n _ c _ d2 DS18B20_FUN_CMD_CONVERT hv2 hconv
  obtain ⟨d4, e4, hv4⟩ := one_sensor_reset n _ _ d3 hv3
  obtain ⟨d5, e5, hv5⟩ := one_sensor_write_byte n _ _ _ d4 DS18B20_ROM_CMD_SKIP_ROM hv4
    (fun _ => rfl)
  obtain ⟨d6, e6, hv6⟩ := one_sensor_write_byte n _ { c with scratchpad := sp }
    { c with scratchpad := sp, read_p := ReadPtr.scratchpad 0, read_len := 9 } d5
    DS18B20_FUN_CMD_READ_SCRATCH hv5 (fun _ => rfl)
  have hv6a : bridge_one_sensor d.s.channel
      (ds18b20_after_reads
        { c with scratchpad := sp, read_p := ReadPtr.scratchpad 0, read_len := 9 } 0) d6 := by
    rw [after_reads_zero]; exact hv6
  obtain ⟨d7, e7, hv7⟩ := one_sensor_read_bytes n d.s.channel
    { c with scratchpad := sp, read_p := ReadPtr.scratchpad 0, read_len := 9 }
    (by simp) (by simp) 9 0 d6 hv6a (by simp)
  have hnodata : ds18b20_has_valid_data (ds18b20_after_reads
      { c with scratchpad := sp, read_p := ReadPtr.scratchpad 0, read_len := 9 } (0 + 9))
      = false := by
    simp [ds18b20_has_valid_data, ds18b20_after_reads]
  have hbytes : (List.range 9).map (fun t => ds18b20_queued
      { c with scratchpad := sp, read_p := ReadPtr.scratchpad 0, read_len := 9 } (0 + t))
      = sp := by
    obtain ⟨x0, x1, x2, x3, x4, x5, x6, x7, x8, hx⟩ := list_length_nine sp hspl
    simp [ds18b20_queued, ds18b20_deref, ReadPtr.add, hx, List.range_succ]
  rw [hbytes] at e7
  have hrd : w1_bus_read_byte_clients ds18b20_on_ds2482
      [ds18b20_after_reads
        { c with scratchpad := sp, read_p := ReadPtr.scratchpad 0, read_len := 9 } (0 + 9)]
      = (0, [ds18b20_after_reads
        { c with scratchpad := sp, read_p := ReadPtr.scratchpad 0, read_len := 9 } (0 + 9)]) :=
    read_byte_clients_none ds18b20_on_ds2482 _ (by
      intro p hp
      rw [List.mem_singleton] at hp
      subst hp
      exact hnodata)
  obtain ⟨d8, e8, hbuf⟩ := one_sensor_latch n _ _ _ 0 d7 hv7 hrd
  refine ⟨sp, d7, _, ?_, hspl, hb0, hb1, hcrc, hv7.2.2.2, hnodata, d8, e8, hbuf⟩
  simp only [ds2482_host_read_temperature, e1, e2, e3, e4, e5, e6, e7]

/-- Witness of C21 at the realized bridge `bridge_idle`, whose sensor is at
25.00 degrees: the first two bytes read are 0x90 and 0x01. -/
theorem C21_read_temperature_witness :
    bridge_idle.s.pending_cmd = 0 ∧ bridge_idle.s.status &&& DS2482_STATUS_1WB = 0 ∧
    sensor_2500.scratchpad.length = 9 ∧ sensor_2500.temperature ≤ 32767 ∧
    ∃ (bs : List Nat) (d1 : DS2482 DS18B20State),
      ds2482_host_read_temperature ds18b20_on_ds2482 1 bridge_idle = some (bs, d1) ∧
      bs.length = 9 ∧ bs.getD 0 0 = 0x90 ∧ bs.getD 1 0 = 0x01 ∧
      bs.getD 8 0 = ds18b20_crc8 (bs.take 8) 8 := by
  obtain ⟨bs, d1, _, h, hl, h0, h1, h8, _⟩ :=
    C21_read_temperature 1 bridge_idle sensor_2500 (by decide) (by decide) rfl (by decide)
      (by decide)
  exact ⟨by decide, by decide, by decide, by decide, bs, d1, h, hl, h0, h1, h8⟩


/-! ## Invariants of the bridge -/

/-- A sensor's `send` leaves the master as it is or applies the master's
RESET handler once. -/
theorem ds18b20_tx_master {M : Type} (mr : M → M) (c c1 : DS18B20State) (type : w1_message)
    (data : Nat) (master : Bool) (m m1 : M) (r : Int)
    (h : ds18b20_tx mr c type data master m = some (r, c1, m1)) : m1 = m ∨ m1 = mr m := by
  unfold ds18b20_tx at h
  cases type with
  | W1_RESET =>
    cases master with
    | false => simp at h
    | true =>
      simp only [if_true, Option.some.injEq, Prod.mk.injEq] at h
      exact Or.inr h.2.2.symm
  | W1_DATA =>
    simp only at h
    split_ifs at h <;>
      (simp only [Option.some.injEq, Prod.mk.injEq] at h; exact Or.inl h.2.2.symm)

/-- A broadcast to sensors leaves the bridge registers as they are or sets
the presence-detect bit. -/
theorem write_clients_regs (type : w1_message) (data : Nat) (master : Bool) :
    ∀ (cs cs1 : List DS18B20State) (ret r : Int) (s s1 : DS2482State),
      w1_bus_write_clients ds18b20_on_ds2482 type data master cs ret s = some (r, cs1, s1) →
      (s1 = s ∨ s1 = ds2482_w1_bus_master_tx_reset s) ∧ cs1.length = cs.length := by
  intro cs
  induction cs with
  | nil =>
    intro cs1 ret r s s1 h
    simp only [w1_bus_write_clients, Option.some.injEq, Prod.mk.injEq] at h
    exact ⟨Or.inl h.2.2.symm, by rw [← h.2.1]⟩
  | cons c cs ih =>
    intro cs1 ret r s s1 h
    unfold w1_bus_write_clients at h
    cases hs : ds18b20_on_ds2482.send c type data master s with
    | none => simp [hs] at h
    | some q =>
      obtain ⟨r0, c1, m1⟩ := q
      simp only [hs] at h
      split at h
      · simp at h
      · rename_i r2 cs2 m2 hw
        simp only [Option.some.injEq, Prod.mk.injEq] at h
        obtain ⟨_, hcs, hm⟩ := h
        subst hcs hm
        obtain ⟨hm2, hl⟩ := ih cs2 _ r2 m1 m2 hw
        have hm1 := ds18b20_tx_master ds2482_w1_bus_master_tx_reset c c1 type data master s m1 r0 hs
        refine ⟨?_, by simp [hl]⟩
        rcases hm1 with e1 | e1 <;> rcases hm2 with e2 | e2 <;> subst e1 <;> subst e2
        · exact Or.inl rfl
        · exact Or.inr rfl
        · exact Or.inr rfl
        · exact Or.inr (master_tx_reset_idem s)

theorem bus_write_regs (type : w1_message) (data : Nat)
    (bus bus1 : Option (W1BusState DS18B20State)) (r : Int) (s s1 : DS2482State)
    (h : w1_bus_write ds18b20_on_ds2482 bus type data s = some (r, bus1, s1)) :
    s1 = s ∨ s1 = ds2482_w1_bus_master_tx_reset s := by
  unfold w1_bus_write at h
  cases bus with
  | none =>
    simp only [Option.some.injEq, Prod.mk.injEq] at h
    exact Or.inl h.2.2.symm
  | some b =>
    simp only at h
    split at h
    · simp at h
    · rename_i r2 cs2 m2 hw
      simp only [Option.some.injEq, Prod.mk.injEq] at h
      rw [← h.2.2]
      exact (write_clients_regs type data b.master b.clients cs2 0 r2 s m2 hw).1

theorem broadcast_regs (d d1 : DS2482 DS18B20State) (data : Nat)
    (h : ds2482_broadcast ds18b20_on_ds2482 d data = some d1) :
    (d1.s = d.s ∨ d1.s = ds2482_w1_bus_master_tx_reset d.s) ∧
    d1.w1_busses.length = d.w1_busses.length := by
  unfold ds2482_broadcast at h
  split at h
  · simp at h
  · rename_i bus hb
    split at h
    · simp at h
    · rename_i r bus1 s1 hw
      simp only [Option.some.injEq] at h
      subst h
      exact ⟨bus_write_regs _ _ _ _ _ _ _ hw, by simp⟩

theorem fetch_regs {C : Type} (k : W1BusClientClass C DS2482State) (d d1 : DS2482 C)
    (h : ds2482_fetch k d = some d1) :
    d1.s = { d.s with buf := d1.s.buf } ∧ d1.w1_busses.length = d.w1_busses.length := by
  unfold ds2482_fetch at h
  split at h
  · simp at h
  · split at h
    · simp at h
    · simp only [Option.some.injEq] at h
      subst h
      exact ⟨rfl, by simp⟩

theorem regs_rel_refl (n : Nat) (s : DS2482State) : ds2482_regs_rel n s s :=
  ⟨Or.inl rfl, Or.inl rfl, Or.inl rfl, Or.inl rfl⟩

/-- A register state that agrees with `s`, or with `s` after the master's
RESET handler, on cursor and channel, whose busy bit is theirs and whose
`pending_cmd` is theirs, 0, or one of the five two-phase opcodes, is
related to `s`. -/
theorem regs_rel_of_frame (n : Nat) (s s0 s1 : DS2482State)
    (h0 : s0 = s ∨ s0 = ds2482_w1_bus_master_tx_reset s)
    (hidx : s1.buf_r_bit_idx = s0.buf_r_bit_idx) (hst : s1.status = s0.status)
    (hch : s1.channel = s0.channel)
    (hp : s1.pending_cmd = s0.pending_cmd ∨ s1.pending_cmd = 0 ∨
      s1.pending_cmd = DS2482_CMD_SET_READ_PTR ∨ s1.pending_cmd = DS2482_CMD_WRITE_CONFIG ∨
      s1.pending_cmd = DS2482_CMD_1WIRE_SINGLE_BIT ∨
      s1.pending_cmd = DS2482_CMD_1WIRE_WRITE_BYTE ∨
      s1.pending_cmd = DS2482_CMD_1WIRE_TRIPLET) :
    ds2482_regs_rel n s s1 := by
  have e1 : s0.buf_r_bit_idx = s.buf_r_bit_idx := by
    rcases h0 with h | h <;> subst h <;> rfl
  have e2 : s0.status % 2 = s.status % 2 := by
    rcases h0 with h | h <;> rw [h]
    exact or_two_mod_two s.status
  have e3 : s0.pending_cmd = s.pending_cmd := by
    rcases h0 with h | h <;> subst h <;> rfl
  have e4 : s0.channel = s.channel := by
    rcases h0 with h | h <;> subst h <;> rfl
  refine ⟨Or.inl (hidx.trans e1), Or.inl (by rw [hst, e2]), ?_, Or.inl (hch.trans e4)⟩
  rcases hp with h | h | h | h | h | h | h
  · exact Or.inl (h.trans e3)
  all_goals simp [h]

/-- The handlers that only touch registers. -/
theorem register_handlers_regs (n : Nat) (s : DS2482State) (data : Nat) :
    ds2482_regs_rel n s (ds2482_dev_reset s).2 ∧
    ds2482_regs_rel n s (ds2482_write_config s data).2 ∧
    ds2482_regs_rel n s (ds2482_channel_select n s data).2 ∧
    ds2482_regs_rel n s (ds2482_set_read_ptr s data).2 := by
  refine ⟨?_, ?_, ?_, ?_⟩
  · have h18 : (DS2482_STATUS_RST ||| DS2482_STATUS_LL) % 2 = 0 := by decide
    exact ⟨Or.inl rfl, Or.inr h18, Or.inl rfl, Or.inr (Or.inl rfl)⟩
  · unfold ds2482_write_config
    split_ifs
    · exact regs_rel_of_frame n s s _ (Or.inl rfl) rfl rfl rfl (Or.inr (Or.inl rfl))
    · exact regs_rel_of_frame n s s _ (Or.inl rfl) rfl rfl rfl
        (Or.inr (Or.inr (Or.inr (Or.inl rfl))))
    · exact regs_rel_of_frame n s s _ (Or.inl rfl) rfl rfl rfl (Or.inr (Or.inl rfl))
  · unfold ds2482_channel_select
    split_ifs with h1 h2 h3 h4
    · exact regs_rel_of_frame n s s _ (Or.inl rfl) rfl rfl rfl (Or.inr (Or.inl rfl))
    · exact regs_rel_refl n s
    · exact ⟨Or.inl rfl, Or.inl rfl,
        Or.inr (Or.inr (Or.inr (Or.inr (Or.inr (Or.inr (Or.inr ⟨h2, rfl⟩)))))), Or.inl rfl⟩
    · exact ⟨Or.inl rfl, Or.inl rfl, Or.inr (Or.inl rfl), Or.inr (Or.inr ⟨h2, h4⟩)⟩
    · exact regs_rel_refl n s
  · unfold ds2482_set_read_ptr
    split_ifs
    · exact regs_rel_of_frame n s s _ (Or.inl rfl) rfl rfl rfl (Or.inr (Or.inr (Or.inl rfl)))
    · exact regs_rel_of_frame n s s _ (Or.inl rfl) rfl rfl rfl (Or.inr (Or.inl rfl))

/-- The handlers that broadcast a payload: ONE_WIRE_SINGLE_BIT,
ONE_WIRE_WRITE_BYTE, ONE_WIRE_TRIPLET. -/
theorem broadcast_handlers_regs (n : Nat) (d d1 : DS2482 DS18B20State) (data : Nat) (r : Int) :
    (ds2482_write_bit ds18b20_on_ds2482 d data = some (r, d1) →
      ds2482_regs_rel n d.s d1.s ∧ d1.w1_busses.length = d.w1_busses.length) ∧
    (ds2482_write_byte ds18b20_on_ds2482 d data = some (r, d1) →
      ds2482_regs_rel n d.s d1.s ∧ d1.w1_busses.length = d.w1_busses.length) ∧
    (ds2482_write_triplet ds18b20_on_ds2482 d data = some (r, d1) →
      ds2482_regs_rel n d.s d1.s ∧ d1.w1_busses.length = d.w1_busses.length) := by
  refine ⟨?_, ?_, ?_⟩
  · intro h
    unfold ds2482_write_bit at h
    split_ifs at h
    · simp only [Option.some.injEq, Prod.mk.injEq] at h
      rw [← h.2]
      exact ⟨regs_rel_of_frame n d.s d.s _ (Or.inl rfl) rfl rfl rfl (Or.inr (Or.inl rfl)), rfl⟩
    · simp only [Option.some.injEq, Prod.mk.injEq] at h
      rw [← h.2]
      exact ⟨regs_rel_of_frame n d.s d.s _ (Or.inl rfl) rfl rfl rfl
        (Or.inr (Or.inr (Or.inr (Or.inr (Or.inl rfl))))), rfl⟩
    · split at h
      · simp at h
      · rename_i d2 hb
        simp only [Option.some.injEq, Prod.mk.injEq] at h
        rw [← h.2]
        obtain ⟨hs, hl⟩ := broadcast_regs d d2 data hb
        exact ⟨regs_rel_of_frame n d.s d2.s _ hs rfl rfl rfl (Or.inr (Or.inl rfl)), hl⟩
  · intro h
    unfold ds2482_write_byte at h
    split_ifs at h
    · simp only [Option.some.injEq, Prod.mk.injEq] at h
      rw [← h.2]
      exact ⟨regs_rel_of_frame n d.s d.s _ (Or.inl rfl) rfl rfl rfl (Or.inr (Or.inl rfl)), rfl⟩
    · simp only [Option.some.injEq, Prod.mk.injEq] at h
      rw [← h.2]
      exact ⟨regs_rel_of_frame n d.s d.s _ (Or.inl rfl) rfl rfl rfl
        (Or.inr (Or.inr (Or.inr (Or.inr (Or.inr (Or.inl rfl)))))), rfl⟩
    · split at h
      · simp at h
      · rename_i d2 hb
        simp only [Option.some.injEq, Prod.mk.injEq] at h
        rw [← h.2]
        obtain ⟨hs, hl⟩ := broadcast_regs d d2 data hb
        exact ⟨regs_rel_of_frame n d.s d2.s _ hs rfl rfl rfl (Or.inr (Or.inl rfl)), hl⟩
  · intro h
    unfold ds2482_write_triplet at h
    split_ifs at h
    · simp only [Option.some.injEq, Prod.mk.injEq] at h
      rw [← h.2]
      exact ⟨regs_rel_of_frame n d.s d.s _ (Or.inl rfl) rfl rfl rfl (Or.inr (Or.inl rfl)), rfl⟩
    · simp only [Option.some.injEq, Prod.mk.injEq] at h
      rw [← h.2]
      exact ⟨regs_rel_of_frame n d.s d.s _ (Or.inl rfl) rfl rfl rfl
        (Or.inr (Or.inr (Or.inr (Or.inr (Or.inr (Or.inr rfl)))))), rfl⟩
    · split at h
      · simp at h
      · rename_i d2 hb
        simp only [Option.some.injEq, Prod.mk.injEq] at h
        rw [← h.2]
        obtain ⟨hs, hl⟩ := broadcast_regs d d2 data hb
        exact ⟨regs_rel_of_frame n d.s d2.s _ hs rfl rfl rfl (Or.inr (Or.inl rfl)), hl⟩

/-- The terminal bus commands ONE_WIRE_RESET and ONE_WIRE_READ_BYTE. -/
theorem terminal_handlers_regs (n : Nat) (d d1 : DS2482 DS18B20State) (r : Int) :
    (ds2482_1w_reset ds18b20_on_ds2482 d = some (r, d1) →
      ds2482_regs_rel n d.s d1.s ∧ d1.w1_busses.length = d.w1_busses.length) ∧
    (ds2482_1w_read_byte ds18b20_on_ds2482 d = some (r, d1) →
      ds2482_regs_rel n d.s d1.s ∧ d1.w1_busses.length = d.w1_busses.length) := by
  refine ⟨?_, ?_⟩
  · intro h
    unfold ds2482_1w_reset at h
    split_ifs at h
    · simp only [Option.some.injEq, Prod.mk.injEq] at h
      rw [← h.2]
      exact ⟨regs_rel_of_frame n d.s d.s _ (Or.inl rfl) rfl rfl rfl (Or.inr (Or.inl rfl)), rfl⟩
    · split at h
      · simp at h
      · split at h
        · simp at h
        · rename_i r2 bus1 s1 hw
          simp only [Option.some.injEq, Prod.mk.injEq] at h
          rw [← h.2]
          have hs := bus_write_regs _ _ _ _ _ _ _ hw
          exact ⟨regs_rel_of_frame n d.s s1 _ hs rfl rfl rfl (Or.inl rfl), by simp⟩
  · intro h
    unfold ds2482_1w_read_byte at h
    split at h
    · simp at h
    · rename_i d2 hf
      simp only [Option.some.injEq, Prod.mk.injEq] at h
      rw [← h.2]
      obtain ⟨hs, hl⟩ := fetch_regs _ d d2 hf
      refine ⟨?_, hl⟩
      rw [hs]
      exact regs_rel_of_frame n d.s d.s _ (Or.inl rfl) rfl rfl rfl (Or.inl rfl)

/-- A host write relates the registers before and after and keeps the size
of the bus table. -/
theorem tx_regs (n : Nat) (d d1 : DS2482 DS18B20State) (w : Nat) (r : Int)
    (h : ds2482_tx ds18b20_on_ds2482 n d w = some (r, d1)) :
    ds2482_regs_rel n d.s d1.s ∧ d1.w1_busses.length = d.w1_busses.length := by
  have hreg := register_handlers_regs n d.s w
  unfold ds2482_tx at h
  simp only at h
  generalize (if d.s.pending_cmd ≠ 0 then d.s.pending_cmd else w) = cmd at h
  split_ifs at h
  · simp only [Option.some.injEq, Prod.mk.injEq] at h
    rw [← h.2]; exact ⟨hreg.1, rfl⟩
  · exact (terminal_handlers_regs n d d1 r).1 h
  · exact (terminal_handlers_regs n d d1 r).2 h
  · simp only [Option.some.injEq, Prod.mk.injEq] at h
    rw [← h.2]; exact ⟨hreg.2.1, rfl⟩
  · exact (broadcast_handlers_regs n d d1 w r).1 h
  · exact (broadcast_handlers_regs n d d1 w r).2.1 h
  · simp only [Option.some.injEq, Prod.mk.injEq] at h
    rw [← h.2]; exact ⟨hreg.2.2.1, rfl⟩
  · exact (broadcast_handlers_regs n d d1 w r).2.2 h
  · simp only [Option.some.injEq, Prod.mk.injEq] at h
    rw [← h.2]; exact ⟨hreg.2.2.2, rfl⟩
  · simp only [Option.some.injEq, Prod.mk.injEq] at h
    rw [← h.2]; exact ⟨regs_rel_refl n d.s, rfl⟩

/-- A host read relates the registers before and after and keeps the size of
the bus table. -/
theorem rx_regs {C : Type} (k : W1BusClientClass C DS2482State) (n : Nat) (d d1 : DS2482 C)
    (v : Nat) (h : ds2482_rx k d = some (v, d1)) :
    ds2482_regs_rel n d.s d1.s ∧ d1.w1_busses.length = d.w1_busses.length := by
  unfold ds2482_rx at h
  split_ifs at h
  · unfold ds2482_rx_status at h
    split_ifs at h with ht h0
    · -- a byte is fetched
      split at h
      · simp at h
      · rename_i d2 hf
        obtain ⟨hs, hl⟩ := fetch_regs k d d2 hf
        split_ifs at h with h8
        simp only [Option.some.injEq, Prod.mk.injEq] at h
        rw [← h.2]
        refine ⟨⟨Or.inr (Nat.mod_lt _ (by norm_num)), Or.inl ?_, Or.inl ?_, Or.inl ?_⟩, hl⟩
        · show (if test_bit d2.s.buf_r_bit_idx d2.s.buf then set_bit 7 (clear_bit 6 d2.s.status)
            else clear_bit 7 (set_bit 6 d2.s.status)) % 2 = d.s.status % 2
          rw [triplet_status_mod_two, hs]
        · show d2.s.pending_cmd = d.s.pending_cmd
          rw [hs]
        · show d2.s.channel = d.s.channel
          rw [hs]
    · -- the buffer is used as it is
      simp only [Option.some.injEq] at h
      split_ifs at h with h8 hb
      all_goals
        simp only [Option.some.injEq, Prod.mk.injEq] at h
        rw [← h.2]
        refine ⟨⟨Or.inr (Nat.mod_lt _ (by norm_num)), Or.inl ?_, Or.inl rfl, Or.inl rfl⟩, rfl⟩
        first
          | exact triplet_status_mod_two true d.s.status
          | exact triplet_status_mod_two false d.s.status
    · simp only [Option.some.injEq, Prod.mk.injEq] at h
      rw [← h.2]; exact ⟨regs_rel_refl n d.s, rfl⟩
  all_goals
    simp only [Option.some.injEq, Prod.mk.injEq] at h
    rw [← h.2]; exact ⟨regs_rel_refl n d.s, rfl⟩

/-- A message to the bridge as bus master relates the registers before and
after and keeps the size of the bus table. -/
theorem master_tx_regs (n : Nat) (d d1 : DS2482 DS18B20State) (type : w1_message) (data : Nat)
    (r : Int) (h : ds2482_w1_bus_master_tx ds18b20_on_ds2482 d type data = some (r, d1)) :
    ds2482_regs_rel n d.s d1.s ∧ d1.w1_busses.length = d.w1_busses.length := by
  unfold ds2482_w1_bus_master_tx at h
  cases type with
  | W1_RESET =>
    simp only [Option.some.injEq, Prod.mk.injEq] at h
    rw [← h.2]
    exact ⟨regs_rel_of_frame n d.s _ _ (Or.inr rfl) rfl rfl rfl (Or.inl rfl), rfl⟩
  | W1_DATA =>
    simp only at h
    split at h
    · simp at h
    · rename_i d2 hb
      simp only [Option.some.injEq, Prod.mk.injEq] at h
      rw [← h.2]
      obtain ⟨hs, hl⟩ := broadcast_regs d d2 data hb
      exact ⟨regs_rel_of_frame n d.s d2.s _ hs rfl rfl rfl (Or.inl rfl), hl⟩

/-- Every access relates the registers before and after and keeps the size
of the bus table. -/
theorem step_regs (n : Nat) (d d1 : DS2482 DS18B20State) (op : DS2482Op)
    (h : ds2482_step ds18b20_on_ds2482 n d op = some d1) :
    ds2482_regs_rel n d.s d1.s ∧ d1.w1_busses.length = d.w1_busses.length := by
  cases op with
  | tx w =>
    simp only [ds2482_step] at h
    split at h
    · simp at h
    · rename_i r d2 ht
      simp only [Option.some.injEq] at h
      subst h
      exact tx_regs n d d2 w r ht
  | rx =>
    simp only [ds2482_step] at h
    split at h
    · simp at h
    · rename_i v d2 ht
      simp only [Option.some.injEq] at h
      subst h
      exact rx_regs _ n d d2 v ht
  | master_tx type data =>
    simp only [ds2482_step] at h
    split at h
    · simp at h
    · rename_i r d2 ht
      simp only [Option.some.injEq] at h
      subst h
      exact master_tx_regs n d d2 type data r ht

/-- The registers at the end of a run are related to those at its start by a
chain of `ds2482_regs_rel` steps; what such steps preserve holds at the
end. -/
theorem run_preserves (n : Nat) (P : DS2482 DS18B20State → Prop)
    (hstep : ∀ d d1, P d → ds2482_regs_rel n d.s d1.s →
      d1.w1_busses.length = d.w1_busses.length → P d1) :
    ∀ (ops : List DS2482Op) (d0 d : DS2482 DS18B20State), P d0 →
      ds2482_run ds18b20_on_ds2482 n d0 ops = some d → P d := by
  intro ops
  induction ops with
  | nil =>
    intro d0 d h0 hrun
    simp only [ds2482_run, Option.some.injEq] at hrun
    rw [← hrun]; exact h0
  | cons op ops ih =>
    intro d0 d h0 hrun
    simp only [ds2482_run] at hrun
    split at hrun
    · simp at hrun
    · rename_i d1 hs
      obtain ⟨hrel, hl⟩ := step_regs n d0 d1 op hs
      exact ih d1 d (hstep d0 d1 h0 hrel hl) hrun

/-- C26: on the bridge built with one channel and sensors as clients, in
every state reached from a state with `pending_cmd` 0, bit cursor 0 and busy
bit clear (the state after realize) by host writes, host reads and messages
to the bridge as bus master, the bit cursor is below 8, the busy bit is
clear, and `pending_cmd` is 0 or one of SET_READ_POINTER, WRITE_CONFIG,
ONE_WIRE_SINGLE_BIT, ONE_WIRE_WRITE_BYTE, ONE_WIRE_TRIPLET; it is never
RESET_BRIDGE, ONE_WIRE_RESET, ONE_WIRE_READ_BYTE or CHANNEL_SELECT. -/
theorem C26_bridge_invariant (d0 d : DS2482 DS18B20State) (ops : List DS2482Op)
    (hpend : d0.s.pending_cmd = 0) (hidx : d0.s.buf_r_bit_idx = 0)
    (hbusy : d0.s.status &&& DS2482_STATUS_1WB = 0)
    (hrun : ds2482_run ds18b20_on_ds2482 1 d0 ops = some d) :
    d.s.buf_r_bit_idx < 8 ∧ d.s.status &&& DS2482_STATUS_1WB = 0 ∧
    d.s.pending_cmd ∈ [0, DS2482_CMD_SET_READ_PTR, DS2482_CMD_WRITE_CONFIG,
      DS2482_CMD_1WIRE_SINGLE_BIT, DS2482_CMD_1WIRE_WRITE_BYTE, DS2482_CMD_1WIRE_TRIPLET] ∧
    d.s.pending_cmd ≠ DS2482_CMD_RESET ∧ d.s.pending_cmd ≠ DS2482_CMD_1WIRE_RESET ∧
    d.s.pending_cmd ≠ DS2482_CMD_1WIRE_READ_BYTE ∧
    d.s.pending_cmd ≠ DS2482_CMD_CHANNEL_SELECT := by
  have key := run_preserves 1
    (fun x => x.s.buf_r_bit_idx < 8 ∧ x.s.status % 2 = 0 ∧
      (x.s.pending_cmd = 0 ∨ x.s.pending_cmd = DS2482_CMD_SET_READ_PTR ∨
        x.s.pending_cmd = DS2482_CMD_WRITE_CONFIG ∨
        x.s.pending_cmd = DS2482_CMD_1WIRE_SINGLE_BIT ∨
        x.s.pending_cmd = DS2482_CMD_1WIRE_WRITE_BYTE ∨
        x.s.pending_cmd = DS2482_CMD_1WIRE_TRIPLET))
    (by
      intro x x1 hx hrel _
      obtain ⟨h1, h2, h3⟩ := hx
      obtain ⟨r1, r2, r3, _⟩ := hrel
      refine ⟨?_, ?_, ?_⟩
      · rcases r1 with e | e
        · rw [e]; exact h1
        · exact e
      · rcases r2 with e | e
        · rw [e]; exact h2
        · exact e
      · rcases r3 with e | e | e | e | e | e | e | e
        · rw [e]; exact h3
        · exact Or.inl e
        · exact Or.inr (Or.inl e)
        · exact Or.inr (Or.inr (Or.inl e))
        · exact Or.inr (Or.inr (Or.inr (Or.inl e)))
        · exact Or.inr (Or.inr (Or.inr (Or.inr (Or.inl e))))
        · exact Or.inr (Or.inr (Or.inr (Or.inr (Or.inr e))))
        · exact absurd rfl e.1)
    ops d0 d
    ⟨by rw [hidx]; norm_num, by
        have h1 := Nat.and_one_is_mod d0.s.status
        have h2 : d0.s.status &&& 1 = 0 := hbusy
        omega, Or.inl hpend⟩
    hrun
  obtain ⟨h1, h2, h3⟩ := key
  have hb : d.s.status &&& DS2482_STATUS_1WB = 0 := by
    have e1 := Nat.and_one_is_mod d.s.status
    show d.s.status &&& 1 = 0
    omega
  refine ⟨h1, hb, ?_, ?_, ?_, ?_, ?_⟩
  · simp only [List.mem_cons, List.mem_singleton, List.not_mem_nil, or_false]
    exact h3
  all_goals
    rcases h3 with e | e | e | e | e | e <;> rw [e] <;> decide

/-- Witness of C26: a triplet step, an upstream RESET and the opcode
ONE_WIRE_WRITE_BYTE on the realized bridge `bridge_idle`. -/
theorem C26_bridge_invariant_witness :
    bridge_idle.s.pending_cmd = 0 ∧ bridge_idle.s.buf_r_bit_idx = 0 ∧
    bridge_idle.s.status &&& DS2482_STATUS_1WB = 0 ∧
    ∃ d, ds2482_run ds18b20_on_ds2482 1 bridge_idle
        [DS2482Op.tx 0x78, DS2482Op.tx 0x00, DS2482Op.rx,
         DS2482Op.master_tx w1_message.W1_RESET 0, DS2482Op.tx 0xA5] = some d ∧
      d.s.buf_r_bit_idx < 8 ∧ d.s.status &&& DS2482_STATUS_1WB = 0 ∧
      d.s.pending_cmd = DS2482_CMD_1WIRE_WRITE_BYTE := by
  have hrun : ds2482_run ds18b20_on_ds2482 1 bridge_idle
      [DS2482Op.tx 0x78, DS2482Op.tx 0x00, DS2482Op.rx,
       DS2482Op.master_tx w1_message.W1_RESET 0, DS2482Op.tx 0xA5]
      = some { s := { regs_realized with pointer := 0xF0, buf_r_bit_idx := 1, status := 0x42,
                                         pending_cmd := 0xA5 },
               w1_busses := [some { master := true, clients := [sensor_2500] }] } := by
    decide
  have h := C26_bridge_invariant bridge_idle _ _ (by decide) (by decide) (by decide) hrun
  exact ⟨by decide, by decide, by decide, _, hrun, h.1, h.2.1, rfl⟩


/-- Counterexample to C22 as stated: on a bridge built with four channels
the host writes CHANNEL_SELECT and the payload 0x07; both are accepted and
the selected channel is 7, outside the four-entry bus table. -/
theorem C22_channel_out_of_table_counterexample :
    bridge4_idle.w1_busses.length = 4 ∧ bridge4_idle.s.channel = 0 ∧
    ds2482_run ds18b20_on_ds2482 4 bridge4_idle [DS2482Op.tx 0xC3, DS2482Op.tx 0x07]
      = some { bridge4_idle with s := { regs_realized with channel := 7, pointer := 0xD2 } } ∧
    ¬ ((7 : Nat) < 4) ∧ bridge4_idle.w1_busses[7]? = none ∧
    ds2482_step ds18b20_on_ds2482 4
      { bridge4_idle with s := { regs_realized with channel := 7, pointer := 0xD2 } }
      (DS2482Op.tx DS2482_CMD_1WIRE_READ_BYTE) = none := by
  refine ⟨by decide, by decide, by decide, by decide, by decide, by decide⟩

/-- C22 (amended): for a bridge built with 1 or with 8 channels, with
sensors as clients, in every state reached from a state with channel 0 and
a bus table of that size (the state after realize) by host writes, host
reads and messages to the bridge as bus master, the selected channel is
below the channel count and the bus table keeps its size, so
`w1_busses[channel]` is inside the table. -/
theorem C22_channel_in_table (n : Nat) (d0 d : DS2482 DS18B20State) (ops : List DS2482Op)
    (hn : n = 1 ∨ n = 8) (hch : d0.s.channel = 0) (hlen : d0.w1_busses.length = n)
    (hrun : ds2482_run ds18b20_on_ds2482 n d0 ops = some d) :
    d.s.channel < n ∧ d.w1_busses.length = n ∧
    ∃ bus, d.w1_busses[d.s.channel]? = some bus := by
  have key := run_preserves n (fun x => x.s.channel < n ∧ x.w1_busses.length = n)
    (by
      intro x x1 hx hrel hl
      obtain ⟨h1, h2⟩ := hx
      obtain ⟨_, _, _, r4⟩ := hrel
      refine ⟨?_, hl.trans h2⟩
      rcases r4 with e | e | e
      · rw [e]; exact h1
      · rw [e]; rcases hn with h | h <;> omega
      · rcases hn with h | h
        · exact absurd h e.1
        · rw [h]; exact e.2)
    ops d0 d ⟨by rw [hch]; rcases hn with h | h <;> omega, hlen⟩ hrun
  obtain ⟨h1, h2⟩ := key
  refine ⟨h1, h2, ?_⟩
  have hlt : d.s.channel < d.w1_busses.length := by rw [h2]; exact h1
  exact ⟨d.w1_busses[d.s.channel], List.getElem?_eq_getElem hlt⟩

/-- Witness of C22 (amended): channel 5 is selected on the eight-channel
bridge `bridge8_idle`. -/
theorem C22_channel_in_table_witness :
    bridge8_idle.s.channel = 0 ∧ bridge8_idle.w1_busses.length = 8 ∧
    ∃ d, ds2482_run ds18b20_on_ds2482 8 bridge8_idle [DS2482Op.tx 0xC3, DS2482Op.tx 0x05,
        DS2482Op.rx] = some d ∧ d.s.channel = 5 ∧ d.s.channel < 8 := by
  have hrun : ds2482_run ds18b20_on_ds2482 8 bridge8_idle
      [DS2482Op.tx 0xC3, DS2482Op.tx 0x05, DS2482Op.rx]
      = some { bridge8_idle with s := { regs_realized with channel := 5, pointer := 0xD2 } } := by
    decide
  have h := C22_channel_in_table 8 bridge8_idle _ _ (Or.inr rfl) (by decide) (by decide) hrun
  exact ⟨by decide, by decide, _, hrun, rfl, h.1⟩


/-! ## The CRC-8 of a message followed by its CRC-8 -/

theorem crc8_clock_lt (reg : Nat) (bit : Bool) (h : reg < 256) :
    dallas_crc8_clock reg bit < 256 := by
  unfold dallas_crc8_clock
  have h2 : reg / 2 < 2 ^ 8 := by omega
  split_ifs
  · exact Nat.xor_lt_two_pow h2 (by norm_num)
  · omega

theorem crc8_fold_lt (bits : List Bool) : ∀ reg, reg < 256 →
    bits.foldl dallas_crc8_clock reg < 256 := by
  induction bits with
  | nil => intro reg h; exact h
  | cons b bs ih => intro reg h; exact ih _ (crc8_clock_lt reg b h)

theorem crc8_ref_lt (msg : List Nat) : dallas_crc8_ref msg < 256 :=
  crc8_fold_lt _ 0 (by norm_num)

/-- The reference CRC-8 of a message followed by its own CRC-8 is 0. -/
theorem crc8_ref_append_self (msg : List Nat) :
    dallas_crc8_ref (msg ++ [dallas_crc8_ref msg]) = 0 := by
  have hlt := crc8_ref_lt msg
  unfold dallas_crc8_ref at hlt ⊢
  rw [List.flatMap_append, List.foldl_append]
  simp only [List.flatMap_cons, List.flatMap_nil, List.append_nil]
  rw [← crc8_update_eq _ _ hlt]
  unfold dallas_crc8_update
  rw [Nat.xor_self]
  rfl

/-- `ds18b20_crc8` of a message of at most 254 bytes followed by its own
`ds18b20_crc8` is 0. -/
theorem crc8_append_self (msg : List Nat) (hlen : msg.length ≤ 254) :
    ds18b20_crc8 (msg ++ [ds18b20_crc8 msg msg.length]) (msg.length + 1) = 0 := by
  have h1 := crc8_eq_ref msg (by omega)
  have h2 := crc8_eq_ref (msg ++ [ds18b20_crc8 msg msg.length]) (by simp; omega)
  rw [List.length_append, List.length_singleton] at h2
  rw [h2, h1]
  exact crc8_ref_append_self msg

/-- C23: for every byte sequence of at most 254 bytes, `ds18b20_crc8` of the
sequence followed by its own `ds18b20_crc8` is 0; so after
CONVERT_TEMPERATURE the `ds18b20_crc8` over all nine scratchpad bytes is
0. -/
theorem C23_crc8_residue_zero (msg : List Nat) (hlen : msg.length ≤ 254) :
    ds18b20_crc8 (msg ++ [ds18b20_crc8 msg msg.length]) (msg.length + 1) = 0 ∧
    ∀ (s : DS18B20State) (master : Bool) (m : DS2482State),
      s.scratchpad.length = 9 → s.temperature < 65536 →
      ∃ s1, ds18b20_tx ds2482_w1_bus_master_tx_reset s w1_message.W1_DATA
          DS18B20_FUN_CMD_CONVERT master m = some (0, s1, m) ∧
        s1.scratchpad.length = 9 ∧ ds18b20_crc8 s1.scratchpad 9 = 0 := by
  refine ⟨crc8_append_self msg hlen, ?_⟩
  intro s master m hsp ht
  obtain ⟨sp, htx, hl, _, _, hcrc, _⟩ :=
    tx_convert_scratchpad ds2482_w1_bus_master_tx_reset s master hsp ht
  refine ⟨{ s with scratchpad := sp }, htx m, hl, ?_⟩
  obtain ⟨x0, x1, x2, x3, x4, x5, x6, x7, x8, hx⟩ := list_length_nine sp hl
  have h8 : x8 = ds18b20_crc8 [x0, x1, x2, x3, x4, x5, x6, x7] 8 := by
    simpa [hx] using hcrc
  have := crc8_append_self [x0, x1, x2, x3, x4, x5, x6, x7] (by simp)
  show ds18b20_crc8 sp 9 = 0
  rw [hx, h8]
  exact this

/-- Witness of C23: the ROM bytes of Maxim application note 27 followed by
their CRC-8. -/
theorem C23_crc8_residue_zero_witness :
    [0x02, 0x1C, 0xB8, 0x01, 0x00, 0x00, 0x00].length ≤ 254 ∧
    ds18b20_crc8 ([0x02, 0x1C, 0xB8, 0x01, 0x00, 0x00, 0x00] ++
      [ds18b20_crc8 [0x02, 0x1C, 0xB8, 0x01, 0x00, 0x00, 0x00] 7]) 8 = 0 :=
  ⟨by decide, (C23_crc8_residue_zero [0x02, 0x1C, 0xB8, 0x01, 0x00, 0x00, 0x00] (by decide)).1⟩


/-! ## The scratchpad after CONVERT_TEMPERATURE under further handler calls -/

/-- A handler call other than the DATA byte READ_POWER_SUPPLY, on a sensor
whose bus has its master set, returns and keeps a converted scratchpad and
the temperature as they are. -/
theorem client_step_keeps_converted (c : DS18B20State) (m : DS2482State) (op : W1ClientOp)
    (hsp : c.scratchpad.length = 9) (hconv : ds18b20_scratchpad_converted c)
    (hop : op ≠ W1ClientOp.send w1_message.W1_DATA DS18B20_FUN_CMD_READ_POWER) :
    ∃ c1 m1, w1_client_step ds18b20_on_ds2482 true c m op = some (c1, m1) ∧
      c1.scratchpad = c.scratchpad ∧ c1.temperature = c.temperature := by
  cases op with
  | recv =>
    exact ⟨_, _, rfl, (rx_keeps_arrays c).2.1, (rx_keeps_arrays c).2.2⟩
  | send type data =>
    cases type with
    | W1_RESET => exact ⟨_, _, rfl, rfl, rfl⟩
    | W1_DATA =>
      have hd : data ≠ DS18B20_FUN_CMD_READ_POWER := fun h => hop (by rw [h])
      obtain ⟨h0, h1, h8⟩ := hconv
      obtain ⟨x0, x1, x2, x3, x4, x5, x6, x7, x8, hx⟩ := list_length_nine c.scratchpad hsp
      rw [hx] at h0 h1 h8
      simp only [List.getD_cons_zero, List.getD_cons_succ] at h0 h1 h8
      have htx : ∃ c1, ds18b20_tx ds2482_w1_bus_master_tx_reset c w1_message.W1_DATA
          data true m = some (0, c1, m) ∧
          c1.scratchpad = c.scratchpad ∧ c1.temperature = c.temperature := by
        unfold ds18b20_tx
        simp only
        split_ifs
        · exact ⟨_, rfl, rfl, rfl⟩
        · exact ⟨_, rfl, rfl, rfl⟩
        · exact ⟨_, rfl, rfl, rfl⟩
        · refine ⟨_, rfl, ?_, rfl⟩
          simp only [hx, List.set_cons_zero, List.set_cons_succ]
          rw [← h0, ← h1, ← h8]
        · exact ⟨_, rfl, rfl, rfl⟩
        · exact ⟨_, rfl, rfl, rfl⟩
      obtain ⟨c1, h, hs, ht⟩ := htx
      refine ⟨c1, m, ?_, hs, ht⟩
      simp only [w1_client_step, ds18b20_on_ds2482, ds18b20_class, h]

/-- A sequence of handler calls without the DATA byte READ_POWER_SUPPLY
returns and keeps a converted scratchpad and the temperature as they are. -/
theorem client_run_keeps_converted : ∀ (ops : List W1ClientOp) (c : DS18B20State)
    (m : DS2482State), c.scratchpad.length = 9 → ds18b20_scratchpad_converted c →
    W1ClientOp.send w1_message.W1_DATA DS18B20_FUN_CMD_READ_POWER ∉ ops →
    ∃ c1 m1, w1_client_run ds18b20_on_ds2482 true c m ops = some (c1, m1) ∧
      c1.scratchpad = c.scratchpad ∧ c1.temperature = c.temperature := by
  intro ops
  induction ops with
  | nil => intro c m _ _ _; exact ⟨c, m, rfl, rfl, rfl⟩
  | cons op ops ih =>
    intro c m hsp hconv hops
    have hop : op ≠ W1ClientOp.send w1_message.W1_DATA DS18B20_FUN_CMD_READ_POWER :=
      fun h => hops (by rw [h]; exact List.mem_cons_self _ _)
    obtain ⟨c1, m1, hstep, hs1, ht1⟩ := client_step_keeps_converted c m op hsp hconv hop
    have hconv1 : ds18b20_scratchpad_converted c1 := by
      unfold ds18b20_scratchpad_converted at hconv ⊢
      rw [hs1, ht1]; exact hconv
    obtain ⟨c2, m2, hrun, hs2, ht2⟩ := ih c1 m1 (by rw [hs1]; exact hsp) hconv1
      (fun h => hops (List.mem_cons_of_mem _ h))
    refine ⟨c2, m2, ?_, by rw [hs2, hs1], by rw [ht2, ht1]⟩
    simp only [w1_client_run, hstep]
    exact hrun

/-- CONVERT_TEMPERATURE leaves a converted scratchpad. -/
theorem tx_convert_converted (s : DS18B20State) (m : DS2482State)
    (hsp : s.scratchpad.length = 9) :
    ∃ s1, ds18b20_tx ds2482_w1_bus_master_tx_reset s w1_message.W1_DATA
        DS18B20_FUN_CMD_CONVERT true m = some (0, s1, m) ∧
      s1.scratchpad.length = 9 ∧ s1.temperature = s.temperature ∧
      ds18b20_scratchpad_converted s1 := by
  obtain ⟨x0, x1, x2, x3, x4, x5, x6, x7, x8, hx⟩ := list_length_nine s.scratchpad hsp
  refine ⟨_, rfl, ?_, rfl, ?_, ?_, ?_⟩
  · simp [hx]
  · simp [hx]
  · simp [hx]
  · simp only [hx, List.set_cons_zero, List.set_cons_succ, List.getD_cons_succ,
      List.getD_cons_zero]
    exact crc8_loop_congr _ _ 8 0 0 (fun i _ hi => by
      have : i = 0 ∨ i = 1 ∨ i = 2 ∨ i = 3 ∨ i = 4 ∨ i = 5 ∨ i = 6 ∨ i = 7 := by omega
      rcases this with h | h | h | h | h | h | h | h <;> subst h <;> rfl)

set_option maxRecDepth 8000 in
/-- C24, counterexample: on the sensor at 25.00 degrees CONVERT_TEMPERATURE
leaves the scratchpad 90 01 4B 46 7F FF 0C 10 33, which is converted; the
DATA byte READ_POWER_SUPPLY (0xB4) then stores 0xFF in scratchpad[0], so
scratchpad[0] is no longer the low byte 0x90 of the converted temperature
and scratchpad[8] = 0x33 is no longer the `ds18b20_crc8` of bytes 0..7, which
is 0x28. -/
theorem C24_read_power_overwrites_byte0_counterexample :
    ds18b20_tx ds2482_w1_bus_master_tx_reset sensor_2500 w1_message.W1_DATA
      DS18B20_FUN_CMD_CONVERT true regs_realized = some (0, sensor_converted, regs_realized) ∧
    sensor_converted.scratchpad.getD 0 0 = 0x90 ∧
    sensor_converted.scratchpad.getD 8 0 = ds18b20_crc8 sensor_converted.scratchpad 8 ∧
    w1_client_run ds18b20_on_ds2482 true sensor_converted regs_realized
      [W1ClientOp.send w1_message.W1_DATA DS18B20_FUN_CMD_READ_POWER]
      = some ({ sensor_converted with
                  scratchpad := [0xFF, 0x01, 0x4B, 0x46, 0x7F, 0xFF, 0x0C, 0x10, 0x33],
                  read_p := ReadPtr.scratchpad 0, read_len := 1 }, regs_realized) ∧
    ds18b20_crc8 [0xFF, 0x01, 0x4B, 0x46, 0x7F, 0xFF, 0x0C, 0x10, 0x33] 8 = 0x28 ∧
    ¬ ds18b20_scratchpad_converted
      { sensor_converted with
          scratchpad := [0xFF, 0x01, 0x4B, 0x46, 0x7F, 0xFF, 0x0C, 0x10, 0x33],
          read_p := ReadPtr.scratchpad 0, read_len := 1 } := by
  refine ⟨by decide, by decide, by decide, by decide, by decide, ?_⟩
  intro h
  exact absurd h.1 (by decide)

/-- C24, amended: once CONVERT_TEMPERATURE has been executed on a sensor
whose bus has its master set, after every further sequence of RESET
messages, DATA messages other than READ_POWER_SUPPLY (0xB4) and recv calls
the handlers have all returned, the scratchpad is the one CONVERT left,
scratchpad[8] equals `ds18b20_crc8` of scratchpad bytes 0..7 and
scratchpad[0], scratchpad[1] hold the encoding of the converted
temperature. -/
theorem C24_checksum_kept_without_read_power (s : DS18B20State) (m : DS2482State)
    (ops : List W1ClientOp) (hsp : s.scratchpad.length = 9)
    (hops : W1ClientOp.send w1_message.W1_DATA DS18B20_FUN_CMD_READ_POWER ∉ ops) :
    ∃ s1 c m1,
      ds18b20_tx ds2482_w1_bus_master_tx_reset s w1_message.W1_DATA
        DS18B20_FUN_CMD_CONVERT true m = some (0, s1, m) ∧
      w1_client_run ds18b20_on_ds2482 true s1 m ops = some (c, m1) ∧
      c.scratchpad = s1.scratchpad ∧ c.temperature = s.temperature ∧
      c.scratchpad.getD 8 0 = ds18b20_crc8 c.scratchpad 8 ∧
      c.scratchpad.getD 0 0 = (((s.temperature / 100) <<< 4) % 65536) &&& 0x00FF ∧
      c.scratchpad.getD 1 0 = ((((s.temperature / 100) <<< 4) % 65536) &&& 0xFF00) >>> 8 := by
  obtain ⟨s1, htx, hl, ht, hconv⟩ := tx_convert_converted s m hsp
  obtain ⟨c, m1, hrun, hs, hct⟩ := client_run_keeps_converted ops s1 m hl hconv hops
  have hc : ds18b20_scratchpad_converted c := by
    unfold ds18b20_scratchpad_converted at hconv ⊢
    rw [hs, hct]; exact hconv
  obtain ⟨h0, h1, h8⟩ := hc
  rw [hct, ht] at h0 h1
  exact ⟨s1, c, m1, htx, hrun, hs, by rw [hct, ht], h8, h0, h1⟩

/-- Witness of C24: RESET, SKIP_ROM, a second CONVERT_TEMPERATURE,
READ_SCRATCHPAD and two reads after CONVERT_TEMPERATURE on the sensor at
25.00 degrees. -/
theorem C24_checksum_kept_without_read_power_witness :
    sensor_2500.scratchpad.length = 9 ∧
    W1ClientOp.send w1_message.W1_DATA DS18B20_FUN_CMD_READ_POWER ∉
      [W1ClientOp.send w1_message.W1_RESET 0,
       W1ClientOp.send w1_message.W1_DATA DS18B20_ROM_CMD_SKIP_ROM,
       W1ClientOp.send w1_message.W1_DATA DS18B20_FUN_CMD_CONVERT,
       W1ClientOp.send w1_message.W1_DATA DS18B20_FUN_CMD_READ_SCRATCH,
       W1ClientOp.recv, W1ClientOp.recv] ∧
    ∃ s1 c m1,
      ds18b20_tx ds2482_w1_bus_master_tx_reset sensor_2500 w1_message.W1_DATA
        DS18B20_FUN_CMD_CONVERT true regs_realized = some (0, s1, regs_realized) ∧
      w1_client_run ds18b20_on_ds2482 true s1 regs_realized
        [W1ClientOp.send w1_message.W1_RESET 0,
         W1ClientOp.send w1_message.W1_DATA DS18B20_ROM_CMD_SKIP_ROM,
         W1ClientOp.send w1_message.W1_DATA DS18B20_FUN_CMD_CONVERT,
         W1ClientOp.send w1_message.W1_DATA DS18B20_FUN_CMD_READ_SCRATCH,
         W1ClientOp.recv, W1ClientOp.recv] = some (c, m1) ∧
      c.scratchpad = s1.scratchpad ∧ c.temperature = sensor_2500.temperature ∧
      c.scratchpad.getD 8 0 = ds18b20_crc8 c.scratchpad 8 ∧
      c.scratchpad.getD 0 0 = (((sensor_2500.temperature / 100) <<< 4) % 65536) &&& 0x00FF ∧
      c.scratchpad.getD 1 0 =
        ((((sensor_2500.temperature / 100) <<< 4) % 65536) &&& 0xFF00) >>> 8 :=
  ⟨by decide, by decide,
    C24_checksum_kept_without_read_power sensor_2500 regs_realized _ (by decide) (by decide)⟩


/-! ## The read cursor of the sensors under bus operations -/

theorem initial_cursor_ok (c : DS18B20State) (h : ds18b20_initial c) : ds18b20_cursor_ok c := by
  obtain ⟨h1, h2, _, h4⟩ := h
  exact ⟨h1, h2, by omega, fun hpos => by omega⟩

/-- Every message to a sensor keeps the cursor consistent. -/
theorem tx_cursor_ok {M : Type} (mr : M → M) (c c1 : DS18B20State) (type : w1_message)
    (data : Nat) (master : Bool) (m m1 : M) (r : Int) (hc : ds18b20_cursor_ok c)
    (h : ds18b20_tx mr c type data master m = some (r, c1, m1)) : ds18b20_cursor_ok c1 := by
  obtain ⟨hser, hsp, hlen, hcur⟩ := hc
  unfold ds18b20_tx at h
  cases type with
  | W1_RESET =>
    cases master with
    | false => simp at h
    | true =>
      simp only [if_true, Option.some.injEq, Prod.mk.injEq] at h
      rw [← h.2.1]; exact ⟨hser, hsp, hlen, hcur⟩
  | W1_DATA =>
    simp only at h
    split_ifs at h <;>
      simp only [Option.some.injEq, Prod.mk.injEq] at h <;> rw [← h.2.1]
    · exact ⟨hser, hsp, hlen, hcur⟩
    · exact ⟨hser, hsp, by simp, fun _ => Or.inl ⟨0, rfl, by simp⟩⟩
    · exact ⟨hser, hsp, hlen, hcur⟩
    · exact ⟨hser, by simp [hsp], by simp, fun _ => Or.inr ⟨0, rfl, Or.inr (by simp)⟩⟩
    · exact ⟨hser, by simp [hsp], hlen, hcur⟩
    · exact ⟨hser, hsp, by simp, fun _ => Or.inr ⟨0, rfl, Or.inl (by simp)⟩⟩
    · exact ⟨hser, hsp, hlen, hcur⟩

/-- A `recv` on a sensor that reports data keeps the cursor consistent,
lowers `read_len` by exactly one and returns the byte under the cursor,
which lies inside `serial` or inside `scratchpad`. -/
theorem rx_cursor_ok (c : DS18B20State) (hc : ds18b20_cursor_ok c)
    (hd : ds18b20_has_valid_data c = true) :
    ds18b20_cursor_ok (ds18b20_rx c).2 ∧ (ds18b20_rx c).2.read_len + 1 = c.read_len ∧
    ((∃ off, off < 8 ∧ c.read_p = ReadPtr.serial off ∧ c.serial[off]? = some (ds18b20_rx c).1) ∨
     (∃ off, off < 9 ∧ c.read_p = ReadPtr.scratchpad off ∧
        c.scratchpad[off]? = some (ds18b20_rx c).1)) := by
  obtain ⟨hser, hsp, hlen, hcur⟩ := hc
  have hpos : c.read_len > 0 := by simpa [ds18b20_has_valid_data] using hd
  have hmod : (c.read_len + 255) % 256 + 1 = c.read_len := by omega
  rcases hcur hpos with ⟨off, hp, hoff⟩ | ⟨off, hp, hoff⟩
  · have hrx : ds18b20_rx c = (c.serial.getD off 0,
        { c with read_len := (c.read_len + 255) % 256, read_p := ReadPtr.serial (off + 1) }) := by
      simp [ds18b20_rx, hp, hpos, ds18b20_deref, ReadPtr.next]
    rw [hrx]
    refine ⟨⟨hser, hsp, ?_, ?_⟩, hmod, Or.inl ⟨off, by omega, hp, ?_⟩⟩
    · show (c.read_len + 255) % 256 ≤ 9
      omega
    · intro _
      exact Or.inl ⟨off + 1, rfl, by show off + 1 + (c.read_len + 255) % 256 = 8; omega⟩
    · show c.serial[off]? = some (c.serial.getD off 0)
      rw [List.getD_eq_getElem?_getD, List.getElem?_eq_getElem (by omega)]
      rfl
  · have hrx : ds18b20_rx c = (c.scratchpad.getD off 0,
        { c with read_len := (c.read_len + 255) % 256,
                 read_p := ReadPtr.scratchpad (off + 1) }) := by
      simp [ds18b20_rx, hp, hpos, ds18b20_deref, ReadPtr.next]
    rw [hrx]
    refine ⟨⟨hser, hsp, ?_, ?_⟩, hmod, Or.inr ⟨off, by omega, hp, ?_⟩⟩
    · show (c.read_len + 255) % 256 ≤ 9
      omega
    · intro _
      refine Or.inr ⟨off + 1, rfl, ?_⟩
      show off + 1 + (c.read_len + 255) % 256 = 9 ∨ off + 1 + (c.read_len + 255) % 256 = 1
      omega
    · show c.scratchpad[off]? = some (c.scratchpad.getD off 0)
      rw [List.getD_eq_getElem?_getD, List.getElem?_eq_getElem (by omega)]
      rfl

/-- A broadcast keeps a property of the clients that every `send` keeps. -/
theorem write_clients_forall {C M : Type} (k : W1BusClientClass C M) (P : C → Prop)
    (type : w1_message) (data : Nat) (master : Bool)
    (hsend : ∀ c c1 m m1 r, P c → k.send c type data master m = some (r, c1, m1) → P c1) :
    ∀ (cs cs1 : List C) (ret r : Int) (m m1 : M), (∀ c ∈ cs, P c) →
      w1_bus_write_clients k type data master cs ret m = some (r, cs1, m1) →
      ∀ c ∈ cs1, P c := by
  intro cs
  induction cs with
  | nil =>
    intro cs1 ret r m m1 _ h
    simp only [w1_bus_write_clients, Option.some.injEq, Prod.mk.injEq] at h
    rw [← h.2.1]; simp
  | cons c cs ih =>
    intro cs1 ret r m m1 hall h
    unfold w1_bus_write_clients at h
    split at h
    · simp at h
    · rename_i r0 c0 m0 hs
      split at h
      · simp at h
      · rename_i r2 cs2 m2 hw
        simp only [Option.some.injEq, Prod.mk.injEq] at h
        rw [← h.2.1]
        intro x hx
        rcases List.mem_cons.mp hx with hx | hx
        · rw [hx]; exact hsend c c0 m m0 r0 (hall c (List.mem_cons_self _ _)) hs
        · exact ih cs2 _ r2 m0 m2 (fun y hy => hall y (List.mem_cons_of_mem _ hy)) hw x hx

/-- What `w1_bus_read_byte` does on sensors with consistent cursors: either
no sensor reports data, the byte is 0 and nothing changes, or the byte is the
one under the cursor of a sensor that reports data and lies inside that
sensor's `serial` or `scratchpad`; the cursors stay consistent. -/
theorem read_byte_clients_cursor_ok : ∀ cs : List DS18B20State,
    (∀ c ∈ cs, ds18b20_cursor_ok c) →
    (∀ c ∈ (w1_bus_read_byte_clients ds18b20_on_ds2482 cs).2, ds18b20_cursor_ok c) ∧
    (((∀ c ∈ cs, c.read_len = 0) ∧
        w1_bus_read_byte_clients ds18b20_on_ds2482 cs = (0, cs)) ∨
      ∃ c ∈ cs, c.read_len > 0 ∧
        ((∃ off, off < 8 ∧ c.read_p = ReadPtr.serial off ∧
            c.serial[off]? = some (w1_bus_read_byte_clients ds18b20_on_ds2482 cs).1) ∨
         (∃ off, off < 9 ∧ c.read_p = ReadPtr.scratchpad off ∧
            c.scratchpad[off]? = some (w1_bus_read_byte_clients ds18b20_on_ds2482 cs).1))) := by
  intro cs
  induction cs with
  | nil => intro _; exact ⟨by simp [w1_bus_read_byte_clients], Or.inl ⟨by simp, rfl⟩⟩
  | cons c cs ih =>
    intro hall
    have hc := hall c (List.mem_cons_self _ _)
    obtain ⟨ih1, ih2⟩ := ih (fun y hy => hall y (List.mem_cons_of_mem _ hy))
    by_cases hd : ds18b20_has_valid_data c = true
    · have hk : ds18b20_on_ds2482.has_data c = true := hd
      have hrd : w1_bus_read_byte_clients ds18b20_on_ds2482 (c :: cs)
          = ((ds18b20_rx c).1, (ds18b20_rx c).2 :: cs) := by
        simp only [w1_bus_read_byte_clients, hk, if_true]
        rfl
      obtain ⟨hok, _, hbyte⟩ := rx_cursor_ok c hc hd
      rw [hrd]
      refine ⟨?_, Or.inr ⟨c, List.mem_cons_self _ _, ?_, hbyte⟩⟩
      · intro x hx
        rcases List.mem_cons.mp hx with hx | hx
        · rw [hx]; exact hok
        · exact hall x (List.mem_cons_of_mem _ hx)
      · simpa [ds18b20_has_valid_data] using hd
    · have hk : ds18b20_on_ds2482.has_data c = false := by
        simpa using hd
      have hrd : w1_bus_read_byte_clients ds18b20_on_ds2482 (c :: cs)
          = ((w1_bus_read_byte_clients ds18b20_on_ds2482 cs).1,
             c :: (w1_bus_read_byte_clients ds18b20_on_ds2482 cs).2) := by
        simp [w1_bus_read_byte_clients, hk]
      have hz : c.read_len = 0 := by
        simpa [ds18b20_has_valid_data] using hd
      rw [hrd]
      refine ⟨?_, ?_⟩
      · intro x hx
        rcases List.mem_cons.mp hx with hx | hx
        · rw [hx]; exact hc
        · exact ih1 x hx
      · rcases ih2 with ⟨hzero, heq⟩ | ⟨x, hx, hpos, hb⟩
        · refine Or.inl ⟨?_, by rw [heq]⟩
          intro y hy
          rcases List.mem_cons.mp hy with hy | hy
          · rw [hy]; exact hz
          · exact hzero y hy
        · exact Or.inr ⟨x, List.mem_cons_of_mem _ hx, hpos, hb⟩

/-- One bus operation on a bus of sensors with consistent cursors yields
such a bus again. -/
theorem bus_step_cursor_ok (b : W1BusState DS18B20State) (m m1 : DS2482State) (op : W1BusOp)
    (bus1 : Option (W1BusState DS18B20State)) (hall : ∀ c ∈ b.clients, ds18b20_cursor_ok c)
    (h : w1_bus_step ds18b20_on_ds2482 (some b) m op = some (bus1, m1)) :
    ∃ b1, bus1 = some b1 ∧ b1.master = b.master ∧ ∀ c ∈ b1.clients, ds18b20_cursor_ok c := by
  have hw : ∀ type data r, w1_bus_write ds18b20_on_ds2482 (some b) type data m
      = some (r, bus1, m1) →
      ∃ b1, bus1 = some b1 ∧ b1.master = b.master ∧ ∀ c ∈ b1.clients, ds18b20_cursor_ok c := by
    intro type data r hwr
    unfold w1_bus_write at hwr
    simp only at hwr
    split at hwr
    · simp at hwr
    · rename_i ret cs m2 hcs
      simp only [Option.some.injEq, Prod.mk.injEq] at hwr
      refine ⟨_, hwr.2.1.symm, rfl, ?_⟩
      exact write_clients_forall ds18b20_on_ds2482 ds18b20_cursor_ok type data b.master
        (fun c c1 m m1 r hc hs => tx_cursor_ok _ c c1 type data b.master m m1 r hc hs)
        b.clients cs 0 ret m m2 hall hcs
  cases op with
  | reset =>
    unfold w1_bus_step w1_bus_reset at h
    simp only at h
    split at h
    · simp at h
    · rename_i r b2 m2 hwr
      simp only [Option.some.injEq, Prod.mk.injEq] at h
      obtain ⟨h1, h2⟩ := h
      subst h1
      subst h2
      exact hw _ _ r hwr
  | send_to_clients data =>
    unfold w1_bus_step w1_bus_send_to_clients at h
    simp only at h
    split at h
    · simp at h
    · rename_i r b2 m2 hwr
      simp only [Option.some.injEq, Prod.mk.injEq] at h
      obtain ⟨h1, h2⟩ := h
      subst h1
      subst h2
      exact hw _ _ r hwr
  | read_byte =>
    simp only [w1_bus_step, w1_bus_read_byte, Option.some.injEq, Prod.mk.injEq] at h
    exact ⟨_, h.1.symm, rfl, (read_byte_clients_cursor_ok b.clients hall).1⟩

/-- With its master set, a bus of sensors answers every bus operation. -/
theorem bus_step_returns (b : W1BusState DS18B20State) (m : DS2482State) (op : W1BusOp)
    (hm : b.master = true) :
    ∃ bus1 m1, w1_bus_step ds18b20_on_ds2482 (some b) m op = some (bus1, m1) := by
  cases op with
  | reset =>
    have h := write_clients_reset ds2482_w1_bus_master_tx_reset b.clients 0 m
    simp only [w1_bus_step, w1_bus_reset, w1_bus_write, hm, ds18b20_on_ds2482, h]
    exact ⟨_, _, rfl⟩
  | send_to_clients data =>
    obtain ⟨cs1, h, _⟩ :=
      write_clients_data_returns ds2482_w1_bus_master_tx_reset data b.master b.clients 0 m
    simp only [w1_bus_step, w1_bus_send_to_clients, w1_bus_write, ds18b20_on_ds2482, h]
    exact ⟨_, _, rfl⟩
  | read_byte => exact ⟨_, _, rfl⟩

/-- A run of bus operations on a bus of sensors with consistent cursors ends
in such a bus. -/
theorem bus_run_cursor_ok : ∀ (ops : List W1BusOp) (b : W1BusState DS18B20State)
    (m m1 : DS2482State) (bus1 : Option (W1BusState DS18B20State)),
    (∀ c ∈ b.clients, ds18b20_cursor_ok c) →
    w1_bus_run ds18b20_on_ds2482 (some b) m ops = some (bus1, m1) →
    ∃ b1, bus1 = some b1 ∧ b1.master = b.master ∧ ∀ c ∈ b1.clients, ds18b20_cursor_ok c := by
  intro ops
  induction ops with
  | nil =>
    intro b m m1 bus1 hall h
    simp only [w1_bus_run, Option.some.injEq, Prod.mk.injEq] at h
    exact ⟨b, h.1.symm, rfl, hall⟩
  | cons op ops ih =>
    intro b m m1 bus1 hall h
    unfold w1_bus_run at h
    split at h
    · simp at h
    · rename_i bus2 m2 hstep
      obtain ⟨b2, hb2, hm2, hall2⟩ := bus_step_cursor_ok b m m2 op bus2 hall hstep
      rw [hb2] at h
      obtain ⟨b1, hb1, hm1, hall1⟩ := ih b2 m2 m1 bus1 hall2 h
      exact ⟨b1, hb1, by rw [hm1, hm2], hall1⟩

/-- With its master set, a bus of sensors answers every run of bus
operations. -/
theorem bus_run_returns : ∀ (ops : List W1BusOp) (b : W1BusState DS18B20State)
    (m : DS2482State), b.master = true → (∀ c ∈ b.clients, ds18b20_cursor_ok c) →
    ∃ b1 m1, w1_bus_run ds18b20_on_ds2482 (some b) m ops = some (some b1, m1) := by
  intro ops
  induction ops with
  | nil => intro b m _ _; exact ⟨b, m, rfl⟩
  | cons op ops ih =>
    intro b m hm hall
    obtain ⟨bus2, m2, hstep⟩ := bus_step_returns b m op hm
    obtain ⟨b2, hb2, hm2, hall2⟩ := bus_step_cursor_ok b m m2 op bus2 hall hstep
    obtain ⟨b1, m1, hrun⟩ := ih b2 m2 (by rw [hm2]; exact hm) hall2
    refine ⟨b1, m1, ?_⟩
    rw [hb2] at hstep
    simp only [w1_bus_run, hstep]
    exact hrun

/-- C25: on a bus whose sensors all start in the initial state (nothing
queued, `read_len` 0), after every sequence of `w1_bus_reset`,
`w1_bus_send_to_clients` (any byte) and `w1_bus_read_byte` that has returned,
every sensor has `read_len` at most 9 (a wrap below zero would leave 255),
and when `read_len` is positive the cursor points into the 8-byte ROM
identifier with offset + `read_len` = 8 or into the 9-byte scratchpad with
offset + `read_len` = 9 or 1, the length of the queued segment; so the next
`w1_bus_read_byte` returns either 0 with no sensor reporting data and the bus
unchanged, or a byte at an offset below 8 of the ROM identifier or below 9 of
the scratchpad of a sensor that reports data.  With the master of the bus set
every such sequence returns. -/
theorem C25_read_cursor_in_bounds (b0 : W1BusState DS18B20State) (m0 : DS2482State)
    (hinit : ∀ c ∈ b0.clients, ds18b20_initial c) :
    (∀ (ops : List W1BusOp) (bus : Option (W1BusState DS18B20State)) (m : DS2482State),
      w1_bus_run ds18b20_on_ds2482 (some b0) m0 ops = some (bus, m) →
      ∃ b, bus = some b ∧ (∀ c ∈ b.clients, ds18b20_cursor_ok c) ∧
        ∃ v b1, w1_bus_read_byte ds18b20_on_ds2482 (some b) = some (v, b1) ∧
          (((∀ c ∈ b.clients, c.read_len = 0) ∧ v = 0 ∧ b1 = b) ∨
            ∃ c ∈ b.clients, c.read_len > 0 ∧
              ((∃ off, off < 8 ∧ c.read_p = ReadPtr.serial off ∧ c.serial[off]? = some v) ∨
               (∃ off, off < 9 ∧ c.read_p = ReadPtr.scratchpad off ∧
                  c.scratchpad[off]? = some v)))) ∧
    (b0.master = true → ∀ ops : List W1BusOp,
      ∃ b m, w1_bus_run ds18b20_on_ds2482 (some b0) m0 ops = some (some b, m)) := by
  have h0 : ∀ c ∈ b0.clients, ds18b20_cursor_ok c :=
    fun c hc => initial_cursor_ok c (hinit c hc)
  refine ⟨?_, fun hm ops => bus_run_returns ops b0 m0 hm h0⟩
  intro ops bus m hrun
  obtain ⟨b, hb, _, hall⟩ := bus_run_cursor_ok ops b0 m0 m bus h0 hrun
  refine ⟨b, hb, hall, _, _, rfl, ?_⟩
  rcases (read_byte_clients_cursor_ok b.clients hall).2 with ⟨hz, heq⟩ | h
  · refine Or.inl ⟨hz, by rw [heq], ?_⟩
    rw [heq]
  · exact Or.inr h

set_option maxRecDepth 8000 in
/-- Witness of C25: the bus holding the sensor at 25.00 degrees, after
SEARCH_ROM and three reads; the fourth read returns the ROM byte 0x33 at
offset 3. -/
theorem C25_read_cursor_in_bounds_witness :
    (∀ c ∈ ({ master := true, clients := [sensor_2500] } : W1BusState DS18B20State).clients,
      ds18b20_initial c) ∧
    ∃ b, some ({ master := true, clients :=
          [{ sensor_2500 with read_p := ReadPtr.serial 3, read_len := 5 }] }
          : W1BusState DS18B20State) = some b ∧
      (∀ c ∈ b.clients, ds18b20_cursor_ok c) ∧
      ∃ v b1, w1_bus_read_byte ds18b20_on_ds2482 (some b) = some (v, b1) ∧
        (((∀ c ∈ b.clients, c.read_len = 0) ∧ v = 0 ∧ b1 = b) ∨
          ∃ c ∈ b.clients, c.read_len > 0 ∧
            ((∃ off, off < 8 ∧ c.read_p = ReadPtr.serial off ∧ c.serial[off]? = some v) ∨
             (∃ off, off < 9 ∧ c.read_p = ReadPtr.scratchpad off ∧
                c.scratchpad[off]? = some v))) :=
  ⟨fun c hc => by
      rw [List.mem_singleton.mp hc]
      exact ⟨rfl, rfl, rfl, rfl⟩,
    (C25_read_cursor_in_bounds { master := true, clients := [sensor_2500] } regs_realized
      (fun c hc => by
        rw [List.mem_singleton.mp hc]
        exact ⟨rfl, rfl, rfl, rfl⟩)).1
      [W1BusOp.send_to_clients DS18B20_ROM_CMD_SEARCH_ROM, W1BusOp.read_byte,
       W1BusOp.read_byte, W1BusOp.read_byte]
      _ regs_realized (by decide)⟩

end W1Emu
